import Mathlib

/-!
Verification of the inventory ledger and stock-mutating workflows of the
multi-shop garment management backend.

The definitions below are a shallow embedding of the route handlers in
`app/api/routes/{inventory,sales,transfers,purchases,production,returns}.py`
and the models in `app/models/inventory.py`.  Decimal quantities are
modelled as rationals, database tables as lists, and the per-request
transaction as a function `DBState → Except ApiError DBState`: an error
result corresponds to an aborted (rolled back) transaction, so the caller
keeps the unchanged pre-state.  `scalar_one_or_none` is modelled faithfully:
it errors when several rows match; `.first()` takes the first match.
-/

namespace Garment

/-- Stock item types (`ItemType` in `app/models/inventory.py`). -/
inductive ItemType where
  | product
  | rawMaterial
deriving DecidableEq

/-- Stock movement reasons (`MovementReason` in `app/models/inventory.py`). -/
inductive MovementReason where
  | purchase
  | productionAdd
  | productionConsume
  | transferIn
  | transferOut
  | sale
  | saleReturn
  | adjustment
deriving DecidableEq

/-- Transfer statuses (`TransferStatus` in `app/models/transfer.py`). -/
inductive TransferStatus where
  | pending
  | inTransit
  | received
  | cancelled
deriving DecidableEq

/-- Production statuses (`ProductionStatus` in `app/models/production.py`). -/
inductive ProductionStatus where
  | planned
  | inProgress
  | completed
  | cancelled
deriving DecidableEq

/-- Sale statuses (`SaleStatus` in `app/models/sale.py`). -/
inductive SaleStatus where
  | pending
  | completed
  | cancelled
deriving DecidableEq

/-- Purchase statuses (`PurchaseStatus` in `app/models/purchase.py`). -/
inductive PurchaseStatus where
  | pending
  | received
  | cancelled
deriving DecidableEq

/-- Errors raised by the route handlers.  Each constructor corresponds to one
`raise HTTPException` site (or to an exception SQLAlchemy itself raises, which
equally aborts the transaction). -/
inductive ApiError where
  /-- 404 "Stock item not found" in `adjust_stock`. -/
  | stockNotFound
  /-- 404 "... not found" for a business document looked up by id. -/
  | documentNotFound
  /-- 400 "... with this number already exists". -/
  | duplicateNumber
  /-- 400 "No stock found for ..." (transfer create, production complete). -/
  | noStockForItem (itemId : Nat)
  /-- 409 "No stock found for product ... at shop ..." (sale create). -/
  | noStockConflict (itemId : Nat)
  /-- 409 "Insufficient stock for ... Available: a, Required: r". -/
  | insufficientStock (itemId : Nat) (available required : Rat)
  /-- 400 "Transfer is not in pending status". -/
  | notPending
  /-- 400 "Production run is not in planned status". -/
  | notPlanned
  /-- 500: `scalar_one_or_none` raised `MultipleResultsFound`. -/
  | multipleRows
  /-- 500: attribute access on `None` (e.g. a stock row or raw-material row
  that the code assumes to exist is missing). -/
  | internalNone
deriving DecidableEq

/-- HTTP status each error surfaces with. -/
def ApiError.httpStatus : ApiError → Nat
  | .stockNotFound => 404
  | .documentNotFound => 404
  | .duplicateNumber => 400
  | .noStockForItem _ => 400
  | .noStockConflict _ => 409
  | .insufficientStock _ _ _ => 409
  | .notPending => 400
  | .notPlanned => 400
  | .multipleRows => 500
  | .internalNone => 500

/-- One row of the `stock_items` table (`StockItem` in
`app/models/inventory.py`). -/
structure StockItem where
  shop_id : Nat
  item_type : ItemType
  product_id : Option Nat
  raw_material_id : Option Nat
  quantity : Rat
  reserved_quantity : Rat
  min_stock_level : Rat
deriving DecidableEq

/-- One row of the `stock_movements` table (`StockMovement` in
`app/models/inventory.py`). -/
structure StockMovement where
  shop_id : Nat
  item_type : ItemType
  product_id : Option Nat
  raw_material_id : Option Nat
  quantity : Rat
  reason : MovementReason
  reference_id : Option Nat
  reference_type : Option String
  notes : Option String
deriving DecidableEq

/-- Row of `raw_materials` (only the fields the ledger workflows read). -/
structure RawMaterial where
  id : Nat
  unit_price : Rat
deriving DecidableEq

/-- Row of `fabric_rules` (`FabricRule` in `app/models/product.py`). -/
structure FabricRule where
  product_id : Nat
  raw_material_id : Nat
  consumption_per_unit : Rat
deriving DecidableEq

/-- A sale line (`SaleLine` row / `SaleLineCreate` schema). -/
structure SaleLine where
  product_id : Nat
  quantity : Rat
  unit_price : Rat
deriving DecidableEq

/-- Header + lines of one `sales` row as created by `create_sale`. -/
structure Sale where
  id : Nat
  sale_number : String
  shop_id : Nat
  total_amount : Rat
  discount_amount : Rat
  final_amount : Rat
  status : SaleStatus
  lines : List SaleLine
deriving DecidableEq

/-- A transfer line (`TransferLine` row / `TransferLineCreate` schema). -/
structure TransferLine where
  product_id : Nat
  quantity : Rat
  unit_cost : Rat
deriving DecidableEq

/-- Header + lines of one `transfers` row. -/
structure Transfer where
  id : Nat
  transfer_number : String
  from_shop_id : Nat
  to_shop_id : Nat
  status : TransferStatus
  lines : List TransferLine
deriving DecidableEq

/-- A purchase line (`PurchaseLine` row / `PurchaseLineCreate` schema);
`raw_material_id` is optional because custom items carry only a name. -/
structure PurchaseLine where
  raw_material_id : Option Nat
  quantity : Rat
  unit_price : Rat
deriving DecidableEq

/-- Header + lines of one `purchases` row. -/
structure Purchase where
  id : Nat
  total_amount : Rat
  status : PurchaseStatus
  lines : List PurchaseLine
deriving DecidableEq

/-- A production line (`ProductionLine` row). -/
structure ProductionLine where
  product_id : Nat
  planned_quantity : Rat
deriving DecidableEq

/-- A production consumption row (`ProductionConsumption`). -/
structure ProductionConsumption where
  raw_material_id : Nat
  planned_consumption : Rat
deriving DecidableEq

/-- Header + lines of one `production_runs` row. -/
structure ProductionRun where
  id : Nat
  run_number : String
  planned_quantity : Rat
  labor_cost : Rat
  overhead_cost : Rat
  total_cost : Option Rat
  actual_quantity : Option Rat
  status : ProductionStatus
  lines : List ProductionLine
  consumptions : List ProductionConsumption
deriving DecidableEq

/-- Header of one `returns` row. -/
structure ReturnDoc where
  id : Nat
  return_number : String
  sale_id : Option Nat
  product_id : Nat
  quantity : Rat
  unit_price : Rat
  total_amount : Rat
deriving DecidableEq

/-- The database state the workflows read and write.  `materials` and
`fabric_rules` are reference data the workflows only read.  `nextId` models
the autoincrement primary-key counter shared by the document tables. -/
structure DBState where
  nextId : Nat
  stocks : List StockItem
  movements : List StockMovement
  sales : List Sale
  transfers : List Transfer
  purchases : List Purchase
  runs : List ProductionRun
  returns : List ReturnDoc
  materials : List RawMaterial
  fabric_rules : List FabricRule
deriving DecidableEq

/-- Empty database (no rows, reference data empty). -/
def emptyDB : DBState :=
  { nextId := 1, stocks := [], movements := [], sales := [], transfers := []
  , purchases := [], runs := [], returns := [], materials := [], fabric_rules := [] }

/-- Database with reference data but no documents, stock or movements. -/
def refDB (mats : List RawMaterial) (rules : List FabricRule) : DBState :=
  { nextId := 1, stocks := [], movements := [], sales := [], transfers := []
  , purchases := [], runs := [], returns := [], materials := mats, fabric_rules := rules }

/-- Python truthiness of an optional integer (`if adjustment.product_id:`):
`None` and `0` are falsy. -/
def truthy : Option Nat → Bool
  | none => false
  | some n => decide (n ≠ 0)

/-- Model of `result.scalar_one_or_none()`: `none` when no row matches, the
row when exactly one does, and an error (`MultipleResultsFound`) otherwise. -/
def scalarOneOrNone {α : Type} (p : α → Bool) (l : List α) :
    Except ApiError (Option α) :=
  match l.filter p with
  | [] => Except.ok none
  | [a] => Except.ok (some a)
  | _ :: _ :: _ => Except.error ApiError.multipleRows

/-- Update the first element satisfying `p` (models mutating the fetched ORM
row in place). -/
def updateFirst {α : Type} (p : α → Bool) (f : α → α) : List α → List α
  | [] => []
  | a :: rest => if p a then f a :: rest else a :: updateFirst p f rest

/-- Predicate used by `adjust_stock` to find the row: shop and item type
always, the item ids only when truthy (the route appends those conditions
conditionally). -/
def adjustPred (shop : Nat) (ity : ItemType) (pid mid : Option Nat)
    (s : StockItem) : Bool :=
  decide (s.shop_id = shop) && decide (s.item_type = ity)
    && (!truthy pid || decide (s.product_id = pid))
    && (!truthy mid || decide (s.raw_material_id = mid))

/-- Request body of `POST /inventory/stocks/adjust`
(`StockAdjustmentRequest` in `app/schemas/inventory.py`). -/
structure StockAdjustmentRequest where
  shop_id : Nat
  item_type : ItemType
  product_id : Option Nat
  raw_material_id : Option Nat
  quantity : Rat
  reason : MovementReason
  notes : Option String
deriving DecidableEq

/-- Embedding of `adjust_stock` (`app/api/routes/inventory.py`, lines
91-130): find the stock row (`.first()`), 404 when absent, otherwise add the
delta to `quantity` unconditionally and append one movement.  The route
performs no non-negativity or availability check of any kind. -/
def adjust_stock (req : StockAdjustmentRequest) (db : DBState) :
    Except ApiError DBState :=
  let p := adjustPred req.shop_id req.item_type req.product_id req.raw_material_id
  match db.stocks.find? p with
  | none => Except.error ApiError.stockNotFound
  | some _ =>
    let stocks := updateFirst p
      (fun s => { s with quantity := s.quantity + req.quantity }) db.stocks
    let mv : StockMovement :=
      { shop_id := req.shop_id, item_type := req.item_type
      , product_id := req.product_id, raw_material_id := req.raw_material_id
      , quantity := req.quantity, reason := req.reason
      , reference_id := none, reference_type := none, notes := req.notes }
    Except.ok { db with stocks := stocks, movements := db.movements ++ [mv] }

/-- Sum of a list of rationals (used for totals and pair sums). -/
def ratSum : List Rat → Rat
  | [] => 0
  | x :: xs => x + ratSum xs

/-- Predicate for a product stock row at a given shop: the condition
`shop_id == shop AND product_id == pid AND item_type == PRODUCT` used by the
sale, transfer and return routes. -/
def prodStockPred (shop pid : Nat) (s : StockItem) : Bool :=
  decide (s.shop_id = shop) && decide (s.product_id = some pid)
    && decide (s.item_type = ItemType.product)

/-- Predicate for a raw-material stock row by material id with an optional id
(the purchase route compares the line's optional `raw_material_id`; note the
condition has no shop filter). -/
def rawStockPredOpt (mid : Option Nat) (s : StockItem) : Bool :=
  decide (s.raw_material_id = mid) && decide (s.item_type = ItemType.rawMaterial)

/-- Predicate for a raw-material stock row by material id (the production
route; again no shop filter). -/
def rawStockPred (mid : Nat) (s : StockItem) : Bool :=
  rawStockPredOpt (some mid) s

/-- Predicate for a product stock row by product id only (the production
route's product lookup has no shop filter). -/
def prodAnyShopPred (pid : Nat) (s : StockItem) : Bool :=
  decide (s.product_id = some pid) && decide (s.item_type = ItemType.product)

/-! ### Sale creation (`app/api/routes/sales.py`, `create_sale`) -/

/-- Request body of `POST /sales/` (`SaleCreate` schema), restricted to the
fields the ledger workflow reads.  Role-based shop overriding is out of scope
(the spec's §1 excludes authorization); the embedded caller is an admin, for
whom `shop_id` is taken from the request as given. -/
structure SaleCreate where
  sale_number : String
  shop_id : Nat
  discount_amount : Rat
  sale_lines : List SaleLine
deriving DecidableEq

/-- Pre-check phase of `create_sale` (lines 185-210): for each line in turn,
look the stock row up and fail on a missing row (409) or on
`available < quantity` (409).  No mutation. -/
def checkSaleLines (shop : Nat) (stocks : List StockItem) :
    List SaleLine → Except ApiError Unit
  | [] => Except.ok Unit.unit
  | l :: rest =>
    match scalarOneOrNone (prodStockPred shop l.product_id) stocks with
    | Except.error e => Except.error e
    | Except.ok none => Except.error (ApiError.noStockConflict l.product_id)
    | Except.ok (some s) =>
      let avail := s.quantity - s.reserved_quantity
      if avail < l.quantity then
        Except.error (ApiError.insufficientStock l.product_id avail l.quantity)
      else
        checkSaleLines shop stocks rest

/-- Write phase of `create_sale` (lines 229-265): deduct each line's quantity
from the stock row (re-fetched, so cumulative across lines) and append a
negative SALE movement. -/
def applySaleLines (shop saleId : Nat) :
    List SaleLine → DBState → Except ApiError DBState
  | [], db => Except.ok db
  | l :: rest, db =>
    match scalarOneOrNone (prodStockPred shop l.product_id) db.stocks with
    | Except.error e => Except.error e
    | Except.ok none => Except.error ApiError.internalNone
    | Except.ok (some _) =>
      let stocks := updateFirst (prodStockPred shop l.product_id)
        (fun s => { s with quantity := s.quantity - l.quantity }) db.stocks
      let mv : StockMovement :=
        { shop_id := shop, item_type := ItemType.product
        , product_id := some l.product_id, raw_material_id := none
        , quantity := -l.quantity, reason := MovementReason.sale
        , reference_id := some saleId, reference_type := some "sale"
        , notes := none }
      applySaleLines shop saleId rest
        { db with stocks := stocks, movements := db.movements ++ [mv] }

/-- Embedding of `create_sale`: duplicate-number check, totals, availability
pre-check over every line (all before any write), then sale header + lines,
stock deductions and movements, committed together. -/
def create_sale (req : SaleCreate) (db : DBState) : Except ApiError DBState :=
  if db.sales.any (fun s => decide (s.sale_number = req.sale_number)) then
    Except.error ApiError.duplicateNumber
  else
    let total := ratSum (req.sale_lines.map (fun l => l.quantity * l.unit_price))
    let final := total - req.discount_amount
    match checkSaleLines req.shop_id db.stocks req.sale_lines with
    | Except.error e => Except.error e
    | Except.ok _ =>
      let sid := db.nextId
      let sale : Sale :=
        { id := sid, sale_number := req.sale_number, shop_id := req.shop_id
        , total_amount := total, discount_amount := req.discount_amount
        , final_amount := final, status := SaleStatus.completed
        , lines := req.sale_lines }
      applySaleLines req.shop_id sid req.sale_lines
        { db with nextId := db.nextId + 1, sales := db.sales ++ [sale] }

/-! ### Transfer creation and receive (`app/api/routes/transfers.py`) -/

/-- Request body of `POST /transfers/` (`TransferCreate` schema). -/
structure TransferCreate where
  transfer_number : String
  from_shop_id : Nat
  to_shop_id : Nat
  transfer_lines : List TransferLine
deriving DecidableEq

/-- Availability check of `create_transfer` (lines 110-134): a missing stock
row at the source is a 400, an insufficient available quantity a 409. -/
def checkTransferLines (shop : Nat) (stocks : List StockItem) :
    List TransferLine → Except ApiError Unit
  | [] => Except.ok Unit.unit
  | l :: rest =>
    match scalarOneOrNone (prodStockPred shop l.product_id) stocks with
    | Except.error e => Except.error e
    | Except.ok none => Except.error (ApiError.noStockForItem l.product_id)
    | Except.ok (some s) =>
      let avail := s.quantity - s.reserved_quantity
      if avail < l.quantity then
        Except.error (ApiError.insufficientStock l.product_id avail l.quantity)
      else
        checkTransferLines shop stocks rest

/-- Reservation phase of `create_transfer` (lines 150-186): for each line,
increase `reserved_quantity` at the source row (on-hand `quantity` is NOT
changed) and append a negative TRANSFER_OUT movement.  In the source the
`TransferLine` rows are inserted inside this loop; the committed state is the
same as attaching all lines to the header up front, which is how the header
is built in `create_transfer` below. -/
def reserveTransferLines (shop tid : Nat) :
    List TransferLine → DBState → Except ApiError DBState
  | [], db => Except.ok db
  | l :: rest, db =>
    match scalarOneOrNone (prodStockPred shop l.product_id) db.stocks with
    | Except.error e => Except.error e
    | Except.ok none => Except.error ApiError.internalNone
    | Except.ok (some _) =>
      let stocks := updateFirst (prodStockPred shop l.product_id)
        (fun s => { s with reserved_quantity := s.reserved_quantity + l.quantity })
        db.stocks
      let mv : StockMovement :=
        { shop_id := shop, item_type := ItemType.product
        , product_id := some l.product_id, raw_material_id := none
        , quantity := -l.quantity, reason := MovementReason.transferOut
        , reference_id := some tid, reference_type := some "transfer"
        , notes := none }
      reserveTransferLines shop tid rest
        { db with stocks := stocks, movements := db.movements ++ [mv] }

/-- Embedding of `create_transfer`: duplicate-number check, availability
check over every line, then header + lines, reservations and TRANSFER_OUT
movements. -/
def create_transfer (req : TransferCreate) (db : DBState) :
    Except ApiError DBState :=
  if db.transfers.any (fun t => decide (t.transfer_number = req.transfer_number)) then
    Except.error ApiError.duplicateNumber
  else
    match checkTransferLines req.from_shop_id db.stocks req.transfer_lines with
    | Except.error e => Except.error e
    | Except.ok _ =>
      let tid := db.nextId
      let t : Transfer :=
        { id := tid, transfer_number := req.transfer_number
        , from_shop_id := req.from_shop_id, to_shop_id := req.to_shop_id
        , status := TransferStatus.pending, lines := req.transfer_lines }
      reserveTransferLines req.from_shop_id tid req.transfer_lines
        { db with nextId := db.nextId + 1, transfers := db.transfers ++ [t] }

/-- One line of the receive loop of `receive_transfer` (lines 247-299):
deduct both `quantity` and `reserved_quantity` at the source row, add the
quantity at the destination row (creating it when absent, with
`reserved = 0` and `min_stock_level = 10`), and append a positive
TRANSFER_IN movement at the destination only. -/
def receiveTransferLine (fromShop toShop tid : Nat) (l : TransferLine)
    (db : DBState) : Except ApiError DBState :=
  match scalarOneOrNone (prodStockPred fromShop l.product_id) db.stocks with
  | Except.error e => Except.error e
  | Except.ok none => Except.error ApiError.internalNone
  | Except.ok (some _) =>
    let deduct := fun (s : StockItem) =>
      { s with quantity := s.quantity - l.quantity
             , reserved_quantity := s.reserved_quantity - l.quantity }
    let stocks1 := updateFirst (prodStockPred fromShop l.product_id) deduct db.stocks
    let mv : StockMovement :=
      { shop_id := toShop, item_type := ItemType.product
      , product_id := some l.product_id, raw_material_id := none
      , quantity := l.quantity, reason := MovementReason.transferIn
      , reference_id := some tid, reference_type := some "transfer"
      , notes := none }
    match scalarOneOrNone (prodStockPred toShop l.product_id) stocks1 with
    | Except.error e => Except.error e
    | Except.ok none =>
      let newItem : StockItem :=
        { shop_id := toShop, item_type := ItemType.product
        , product_id := some l.product_id, raw_material_id := none
        , quantity := l.quantity, reserved_quantity := 0, min_stock_level := 10 }
      let stocks2 := stocks1 ++ [newItem]
      Except.ok { db with stocks := stocks2, movements := db.movements ++ [mv] }
    | Except.ok (some _) =>
      let stocks2 := updateFirst (prodStockPred toShop l.product_id)
        (fun s => { s with quantity := s.quantity + l.quantity }) stocks1
      Except.ok { db with stocks := stocks2, movements := db.movements ++ [mv] }

/-- Receive loop over all transfer lines. -/
def receiveTransferLines (fromShop toShop tid : Nat) :
    List TransferLine → DBState → Except ApiError DBState
  | [], db => Except.ok db
  | l :: rest, db =>
    match receiveTransferLine fromShop toShop tid l db with
    | Except.error e => Except.error e
    | Except.ok db' => receiveTransferLines fromShop toShop tid rest db'

/-- Embedding of `receive_transfer` (lines 200-307): 404 when the transfer is
missing, 400 when it is not PENDING, otherwise run the receive loop and set
the status to RECEIVED. -/
def receive_transfer (tid : Nat) (db : DBState) : Except ApiError DBState :=
  match scalarOneOrNone (fun t : Transfer => decide (t.id = tid)) db.transfers with
  | Except.error e => Except.error e
  | Except.ok none => Except.error ApiError.documentNotFound
  | Except.ok (some t) =>
    if t.status = TransferStatus.pending then
      match receiveTransferLines t.from_shop_id t.to_shop_id tid t.lines db with
      | Except.error e => Except.error e
      | Except.ok db1 =>
        let transfers := updateFirst (fun t' : Transfer => decide (t'.id = tid))
          (fun t' => { t' with status := TransferStatus.received }) db1.transfers
        Except.ok { db1 with transfers := transfers }
    else
      Except.error ApiError.notPending

/-! ### Purchase creation (`app/api/routes/purchases.py`, `create_purchase`) -/

/-- Request body of `POST /purchases/` restricted to the fields the ledger
workflow reads. -/
structure PurchaseCreate where
  supplier_name : String
  purchase_lines : List PurchaseLine
deriving DecidableEq

/-- Stock loop of `create_purchase` (lines 127-171): for each line, find the
raw-material row (no shop filter), add the quantity or create the row at the
main warehouse (shop 1), and append a positive PURCHASE movement at shop 1. -/
def applyPurchaseLines (pid : Nat) :
    List PurchaseLine → DBState → Except ApiError DBState
  | [], db => Except.ok db
  | l :: rest, db =>
    let mv : StockMovement :=
      { shop_id := 1, item_type := ItemType.rawMaterial
      , product_id := none, raw_material_id := l.raw_material_id
      , quantity := l.quantity, reason := MovementReason.purchase
      , reference_id := some pid, reference_type := some "purchase"
      , notes := none }
    match scalarOneOrNone (rawStockPredOpt l.raw_material_id) db.stocks with
    | Except.error e => Except.error e
    | Except.ok none =>
      let newItem : StockItem :=
        { shop_id := 1, item_type := ItemType.rawMaterial
        , product_id := none, raw_material_id := l.raw_material_id
        , quantity := l.quantity, reserved_quantity := 0, min_stock_level := 10 }
      let stocks := db.stocks ++ [newItem]
      applyPurchaseLines pid rest
        { db with stocks := stocks, movements := db.movements ++ [mv] }
    | Except.ok (some _) =>
      let stocks := updateFirst (rawStockPredOpt l.raw_material_id)
        (fun s => { s with quantity := s.quantity + l.quantity }) db.stocks
      applyPurchaseLines pid rest
        { db with stocks := stocks, movements := db.movements ++ [mv] }

/-- Embedding of `create_purchase`: total from the lines, header with status
RECEIVED, then the stock loop.  There is no duplicate or availability check
on this path. -/
def create_purchase (req : PurchaseCreate) (db : DBState) :
    Except ApiError DBState :=
  let total := ratSum (req.purchase_lines.map (fun l => l.quantity * l.unit_price))
  let pid := db.nextId
  let doc : Purchase :=
    { id := pid, total_amount := total, status := PurchaseStatus.received
    , lines := req.purchase_lines }
  applyPurchaseLines pid req.purchase_lines
    { db with nextId := db.nextId + 1, purchases := db.purchases ++ [doc] }

/-! ### Production run creation and completion (`app/api/routes/production.py`) -/

/-- Request body of `POST /production/` restricted to the fields the ledger
workflow reads. -/
structure ProductionRunCreate where
  run_number : String
  planned_quantity : Rat
  labor_cost : Rat
  overhead_cost : Rat
  production_lines : List ProductionLine
  production_consumptions : Option (List ProductionConsumption)
deriving DecidableEq

/-- Auto-derivation of consumption rows from fabric rules (lines 154-167):
for each production line, every rule of its product contributes
`consumption_per_unit * planned_quantity`. -/
def deriveConsumptions (rules : List FabricRule) :
    List ProductionLine → List ProductionConsumption
  | [] => []
  | line :: rest =>
    ((rules.filter (fun r => decide (r.product_id = line.product_id))).map
      (fun r => { raw_material_id := r.raw_material_id
                , planned_consumption := r.consumption_per_unit * line.planned_quantity }))
      ++ deriveConsumptions rules rest

/-- Embedding of `create_production_run`: duplicate-number check, header with
status PLANNED, lines, and consumptions (the supplied ones when the list is
non-empty — Python truthiness — otherwise derived from fabric rules).  No
ledger effect. -/
def create_production_run (req : ProductionRunCreate) (db : DBState) :
    Except ApiError DBState :=
  if db.runs.any (fun r => decide (r.run_number = req.run_number)) then
    Except.error ApiError.duplicateNumber
  else
    let cons := match req.production_consumptions with
      | some (c :: cs) => c :: cs
      | _ => deriveConsumptions db.fabric_rules req.production_lines
    let run : ProductionRun :=
      { id := db.nextId, run_number := req.run_number
      , planned_quantity := req.planned_quantity
      , labor_cost := req.labor_cost, overhead_cost := req.overhead_cost
      , total_cost := none, actual_quantity := none
      , status := ProductionStatus.planned
      , lines := req.production_lines, consumptions := cons }
    Except.ok { db with nextId := db.nextId + 1, runs := db.runs ++ [run] }

/-- Availability check of `complete_production_run` (lines 243-269): for each
consumption row, find the raw-material row (no shop filter); missing row is a
400, `available < planned_consumption` a 409 naming the material and the
available vs. required amounts. -/
def checkConsumptions (stocks : List StockItem) :
    List ProductionConsumption → Except ApiError Unit
  | [] => Except.ok Unit.unit
  | c :: rest =>
    match scalarOneOrNone (rawStockPred c.raw_material_id) stocks with
    | Except.error e => Except.error e
    | Except.ok none => Except.error (ApiError.noStockForItem c.raw_material_id)
    | Except.ok (some s) =>
      let avail := s.quantity - s.reserved_quantity
      if avail < c.planned_consumption then
        Except.error
          (ApiError.insufficientStock c.raw_material_id avail c.planned_consumption)
      else
        checkConsumptions stocks rest

/-- Consumption phase of `complete_production_run` (lines 271-305): deduct
each row's planned consumption, append a negative PRODUCTION_CONSUME
movement at shop 1 (the main warehouse), and accumulate
`unit_price * planned_consumption` into the raw-material cost. -/
def consumeMaterials (rid : Nat) :
    List ProductionConsumption → DBState → Rat → Except ApiError (DBState × Rat)
  | [], db, cost => Except.ok (db, cost)
  | c :: rest, db, cost =>
    match scalarOneOrNone (rawStockPred c.raw_material_id) db.stocks with
    | Except.error e => Except.error e
    | Except.ok none => Except.error ApiError.internalNone
    | Except.ok (some _) =>
      let stocks := updateFirst (rawStockPred c.raw_material_id)
        (fun s => { s with quantity := s.quantity - c.planned_consumption }) db.stocks
      let mv : StockMovement :=
        { shop_id := 1, item_type := ItemType.rawMaterial
        , product_id := none, raw_material_id := some c.raw_material_id
        , quantity := -c.planned_consumption
        , reason := MovementReason.productionConsume
        , reference_id := some rid, reference_type := some "production_run"
        , notes := none }
      match scalarOneOrNone
          (fun m : RawMaterial => decide (m.id = c.raw_material_id)) db.materials with
      | Except.error e => Except.error e
      | Except.ok none => Except.error ApiError.internalNone
      | Except.ok (some m) =>
        consumeMaterials rid rest
          { db with stocks := stocks, movements := db.movements ++ [mv] }
          (cost + m.unit_price * c.planned_consumption)

/-- Production phase of `complete_production_run` (lines 307-344): for each
production line, find the product row (no shop filter), add the planned
quantity or create the row at shop 1, and append a positive PRODUCTION_ADD
movement at shop 1. -/
def addProducts (rid : Nat) :
    List ProductionLine → DBState → Except ApiError DBState
  | [], db => Except.ok db
  | l :: rest, db =>
    let mv : StockMovement :=
      { shop_id := 1, item_type := ItemType.product
      , product_id := some l.product_id, raw_material_id := none
      , quantity := l.planned_quantity, reason := MovementReason.productionAdd
      , reference_id := some rid, reference_type := some "production_run"
      , notes := none }
    match scalarOneOrNone (prodAnyShopPred l.product_id) db.stocks with
    | Except.error e => Except.error e
    | Except.ok none =>
      let newItem : StockItem :=
        { shop_id := 1, item_type := ItemType.product
        , product_id := some l.product_id, raw_material_id := none
        , quantity := l.planned_quantity, reserved_quantity := 0
        , min_stock_level := 10 }
      let stocks := db.stocks ++ [newItem]
      addProducts rid rest
        { db with stocks := stocks, movements := db.movements ++ [mv] }
    | Except.ok (some _) =>
      let stocks := updateFirst (prodAnyShopPred l.product_id)
        (fun s => { s with quantity := s.quantity + l.planned_quantity }) db.stocks
      addProducts rid rest
        { db with stocks := stocks, movements := db.movements ++ [mv] }

/-- Embedding of `complete_production_run` (lines 183-355): 404 when the run
is missing, 400 when it is not PLANNED, availability check over every
consumption row, then consumption, production, cost computation
(`total_cost = raw_material_cost + labor + overhead`), `actual_quantity :=
planned_quantity` and status COMPLETED. -/
def complete_production_run (rid : Nat) (db : DBState) :
    Except ApiError DBState :=
  match scalarOneOrNone (fun r : ProductionRun => decide (r.id = rid)) db.runs with
  | Except.error e => Except.error e
  | Except.ok none => Except.error ApiError.documentNotFound
  | Except.ok (some run) =>
    if run.status = ProductionStatus.planned then
      match checkConsumptions db.stocks run.consumptions with
      | Except.error e => Except.error e
      | Except.ok _ =>
        match consumeMaterials rid run.consumptions db 0 with
        | Except.error e => Except.error e
        | Except.ok (db1, rawCost) =>
          match addProducts rid run.lines db1 with
          | Except.error e => Except.error e
          | Except.ok db2 =>
            let tc := rawCost + run.labor_cost + run.overhead_cost
            let fin := fun (r : ProductionRun) =>
              { r with total_cost := some tc
                     , actual_quantity := some r.planned_quantity
                     , status := ProductionStatus.completed }
            let runs := updateFirst
              (fun r : ProductionRun => decide (r.id = rid)) fin db2.runs
            Except.ok { db2 with runs := runs }
    else
      Except.error ApiError.notPlanned

/-! ### Return creation (`app/api/routes/returns.py`, `create_return`) -/

/-- Request body of `POST /returns/` restricted to the fields the ledger
workflow reads. -/
structure ReturnCreate where
  return_number : String
  sale_id : Option Nat
  product_id : Nat
  quantity : Rat
  unit_price : Rat
deriving DecidableEq

/-- Shop credited by a return (lines 122-130): the originating sale's shop
when `sale_id` is given and that sale exists, otherwise shop 1 (the default
warehouse). -/
def returnShop (db : DBState) (sale_id : Option Nat) : Nat :=
  match sale_id with
  | none => 1
  | some sid =>
    match db.sales.find? (fun s => decide (s.id = sid)) with
    | some sale => sale.shop_id
    | none => 1

/-- Embedding of `create_return` (lines 93-173): duplicate-number check,
total `quantity * unit_price`, header, shop resolution, stock increase
(creating the row when absent) and one positive RETURN movement. -/
def create_return (req : ReturnCreate) (db : DBState) :
    Except ApiError DBState :=
  if db.returns.any (fun r => decide (r.return_number = req.return_number)) then
    Except.error ApiError.duplicateNumber
  else
    let total := req.quantity * req.unit_price
    let rid := db.nextId
    let doc : ReturnDoc :=
      { id := rid, return_number := req.return_number, sale_id := req.sale_id
      , product_id := req.product_id, quantity := req.quantity
      , unit_price := req.unit_price, total_amount := total }
    let shop := returnShop db req.sale_id
    let mv : StockMovement :=
      { shop_id := shop, item_type := ItemType.product
      , product_id := some req.product_id, raw_material_id := none
      , quantity := req.quantity, reason := MovementReason.saleReturn
      , reference_id := some rid, reference_type := some "return"
      , notes := none }
    let stocks := match db.stocks.find? (prodStockPred shop req.product_id) with
      | none =>
        db.stocks ++
          [{ shop_id := shop, item_type := ItemType.product
           , product_id := some req.product_id, raw_material_id := none
           , quantity := req.quantity, reserved_quantity := 0
           , min_stock_level := 10 }]
      | some _ =>
        updateFirst (prodStockPred shop req.product_id)
          (fun s => { s with quantity := s.quantity + req.quantity }) db.stocks
    let docs := db.returns ++ [doc]
    let db1 := { db with nextId := db.nextId + 1, returns := docs }
    Except.ok { db1 with stocks := stocks, movements := db.movements ++ [mv] }

/-! ### Combined transition -/

/-- One committed workflow invocation. -/
inductive Op where
  | adjust (req : StockAdjustmentRequest)
  | saleCreate (req : SaleCreate)
  | transferCreate (req : TransferCreate)
  | transferReceive (tid : Nat)
  | purchaseCreate (req : PurchaseCreate)
  | runCreate (req : ProductionRunCreate)
  | runComplete (rid : Nat)
  | returnCreate (req : ReturnCreate)
deriving DecidableEq

/-- The transition function of the whole ledger: dispatch one operation. -/
def applyOp (db : DBState) : Op → Except ApiError DBState
  | Op.adjust req => adjust_stock req db
  | Op.saleCreate req => create_sale req db
  | Op.transferCreate req => create_transfer req db
  | Op.transferReceive tid => receive_transfer tid db
  | Op.purchaseCreate req => create_purchase req db
  | Op.runCreate req => create_production_run req db
  | Op.runComplete rid => complete_production_run rid db
  | Op.returnCreate req => create_return req db

/-- States reachable from `start` by committed operations each of which
satisfies the side condition `cond` at its pre-state.  A failed invocation
rolls back and leaves the state unchanged, so only successful invocations
appear as steps. -/
inductive ReachesFrom (cond : DBState → Op → Prop) (start : DBState) : DBState → Prop where
  | init : ReachesFrom cond start start
  | step {s s' : DBState} {op : Op} : ReachesFrom cond start s → cond s op →
      applyOp s op = Except.ok s' → ReachesFrom cond start s'

/-! ### Observations: per-(shop, item) totals -/

/-- Identity of a (shop, item-kind, item-id) ledger pair. -/
structure PairKey where
  shop : Nat
  kind : ItemType
  pid : Option Nat
  mid : Option Nat
deriving DecidableEq

/-- Pair a stock row belongs to. -/
def stockKey (s : StockItem) : PairKey :=
  { shop := s.shop_id, kind := s.item_type, pid := s.product_id, mid := s.raw_material_id }

/-- Pair a movement row belongs to. -/
def moveKey (m : StockMovement) : PairKey :=
  { shop := m.shop_id, kind := m.item_type, pid := m.product_id, mid := m.raw_material_id }

/-- Contribution of one stock row to a pair's on-hand quantity. -/
def keyQty (k : PairKey) (s : StockItem) : Rat :=
  if stockKey s = k then s.quantity else 0

/-- Contribution of one stock row to a pair's reserved quantity. -/
def keyRes (k : PairKey) (s : StockItem) : Rat :=
  if stockKey s = k then s.reserved_quantity else 0

/-- Contribution of one movement row to a pair's signed movement sum. -/
def keyMove (k : PairKey) (m : StockMovement) : Rat :=
  if moveKey m = k then m.quantity else 0

/-- On-hand quantity of a pair: the sum over all its stock rows. -/
def onHand (db : DBState) (k : PairKey) : Rat :=
  ratSum (db.stocks.map (keyQty k))

/-- Reserved quantity of a pair. -/
def resSum (db : DBState) (k : PairKey) : Rat :=
  ratSum (db.stocks.map (keyRes k))

/-- Signed sum of all movement deltas recorded for a pair. -/
def moveSum (db : DBState) (k : PairKey) : Rat :=
  ratSum (db.movements.map (keyMove k))

/-- Contribution of one transfer line at a source shop to a pair. -/
def lineOut (fromShop : Nat) (k : PairKey) (l : TransferLine) : Rat :=
  if k = { shop := fromShop, kind := ItemType.product
         , pid := some l.product_id, mid := none } then l.quantity else 0

/-- Outbound quantity a transfer still holds pending against a pair. -/
def transferPendingOut (k : PairKey) (t : Transfer) : Rat :=
  if t.status = TransferStatus.pending then
    ratSum (t.lines.map (lineOut t.from_shop_id k))
  else 0

/-- Total quantity pending in outbound transfers against a pair. -/
def pendingOut (db : DBState) (k : PairKey) : Rat :=
  ratSum (db.transfers.map (transferPendingOut k))

/-- The product pair at a shop. -/
def prodKey (shop pid : Nat) : PairKey :=
  { shop := shop, kind := ItemType.product, pid := some pid, mid := none }

/-- On-hand quantity of a product over all shops (the production route looks
product rows up without a shop filter). -/
def onHandProdAll (db : DBState) (pid : Nat) : Rat :=
  ratSum ((db.stocks.filter (prodAnyShopPred pid)).map (fun s => s.quantity))

/-- On-hand quantity of a raw material over all shops. -/
def onHandMatAll (db : DBState) (mid : Nat) : Rat :=
  ratSum ((db.stocks.filter (rawStockPred mid)).map (fun s => s.quantity))

/-- Decidable equality of transaction results, for concrete evaluation. -/
instance {ε α : Type} [DecidableEq ε] [DecidableEq α] : DecidableEq (Except ε α) :=
  fun a b =>
    match a, b with
    | Except.ok x, Except.ok y =>
      if h : x = y then isTrue (by rw [h]) else
        isFalse (by intro hc; cases hc; exact h rfl)
    | Except.error x, Except.error y =>
      if h : x = y then isTrue (by rw [h]) else
        isFalse (by intro hc; cases hc; exact h rfl)
    | Except.ok _, Except.error _ => isFalse (by intro hc; cases hc)
    | Except.error _, Except.ok _ => isFalse (by intro hc; cases hc)

/-- Whether a transaction committed. -/
def isOkE (r : Except ApiError DBState) : Bool :=
  match r with
  | Except.ok _ => true
  | Except.error _ => false

/-- Committed state of a transaction result (the empty database when it was
rolled back; used only to observe committed results of concrete runs). -/
def okD (r : Except ApiError DBState) : DBState :=
  match r with
  | Except.ok db => db
  | Except.error _ => emptyDB

/-! ### Concrete inputs used by counterexamples and witnesses -/

/-- A product stock row at shop 1: 5 on hand, none reserved. -/
def c1row : StockItem :=
  { shop_id := 1, item_type := ItemType.product, product_id := some 1
  , raw_material_id := none, quantity := 5, reserved_quantity := 0
  , min_stock_level := 0 }

/-- Database holding only `c1row`. -/
def c1db : DBState := { emptyDB with stocks := [c1row] }

/-- An outbound adjustment of 10 against the 5 on hand. -/
def c1req : StockAdjustmentRequest :=
  { shop_id := 1, item_type := ItemType.product, product_id := some 1
  , raw_material_id := none, quantity := -10
  , reason := MovementReason.adjustment, notes := none }

/-- Document tables and reference data untouched by the stock loops: only
`stocks` and `movements` may differ. -/
def SameDocs (db db' : DBState) : Prop :=
  db'.nextId = db.nextId ∧ db'.sales = db.sales ∧ db'.transfers = db.transfers ∧
  db'.purchases = db.purchases ∧ db'.runs = db.runs ∧ db'.returns = db.returns ∧
  db'.materials = db.materials ∧ db'.fabric_rules = db.fabric_rules

/-- A production run already COMPLETED (for the invalid-state claims). -/
def c6run : ProductionRun :=
  { id := 5, run_number := "PR-1", planned_quantity := 10, labor_cost := 0
  , overhead_cost := 0, total_cost := none, actual_quantity := none
  , status := ProductionStatus.completed, lines := [], consumptions := [] }

/-- A transfer already RECEIVED. -/
def c6transfer : Transfer :=
  { id := 7, transfer_number := "TR-1", from_shop_id := 1, to_shop_id := 2
  , status := TransferStatus.received, lines := [] }

/-- The same run, still PLANNED. -/
def c6run2 : ProductionRun := { c6run with status := ProductionStatus.planned }

/-- The same transfer, still PENDING. -/
def c6transfer2 : Transfer := { c6transfer with status := TransferStatus.pending }

/-- Database holding the finished documents. -/
def c6db : DBState := { emptyDB with runs := [c6run], transfers := [c6transfer] }

/-- Database holding the still-open documents. -/
def c6db2 : DBState := { emptyDB with runs := [c6run2], transfers := [c6transfer2] }

/-- Well-formedness every row created by the code satisfies: a PRODUCT row
carries no raw-material id. -/
def ProdRowsClean (stocks : List StockItem) : Prop :=
  ∀ s ∈ stocks, s.item_type = ItemType.product → s.raw_material_id = none

/-- Well-formedness every row created by the code satisfies: a RAW_MATERIAL
row lives at the main warehouse (shop 1) and carries no product id
(purchases, the only creator of raw rows, create them exactly so). -/
def RawRowsShop1 (stocks : List StockItem) : Prop :=
  ∀ s ∈ stocks, s.item_type = ItemType.rawMaterial →
    s.shop_id = 1 ∧ s.product_id = none

/-- Quantity a list of sale lines takes away from a pair. -/
def saleOutAt (shop : Nat) (ls : List SaleLine) (k : PairKey) : Rat :=
  ratSum (ls.map (fun l => if prodKey shop l.product_id = k then l.quantity else 0))

/-- A product stock row: 10 on hand at shop 1. -/
def c10row : StockItem :=
  { shop_id := 1, item_type := ItemType.product, product_id := some 1
  , raw_material_id := none, quantity := 10, reserved_quantity := 0
  , min_stock_level := 0 }

/-- Database for the discount claim. -/
def c10db : DBState := { emptyDB with stocks := [c10row] }

/-- A sale of 2 units at 25 with a 100 discount (more than the 50 total). -/
def c10req : SaleCreate :=
  { sale_number := "S-1", shop_id := 1, discount_amount := 100
  , sale_lines := [{ product_id := 1, quantity := 2, unit_price := 25 }] }

/-- A product stock row at shop 1 with 10 on hand, 2 reserved (8 available). -/
def c5row : StockItem :=
  { shop_id := 1, item_type := ItemType.product, product_id := some 1
  , raw_material_id := none, quantity := 10, reserved_quantity := 2
  , min_stock_level := 0 }

/-- Database for the availability-boundary claim. -/
def c5db : DBState := { emptyDB with stocks := [c5row] }

/-- A sale of exactly the available 8 units. -/
def c5reqA : SaleCreate :=
  { sale_number := "S-A", shop_id := 1, discount_amount := 0
  , sale_lines := [{ product_id := 1, quantity := 8, unit_price := 10 }] }

/-- A sale of available + 0.001 units. -/
def c5reqB : SaleCreate :=
  { sale_number := "S-B", shop_id := 1, discount_amount := 0
  , sale_lines := [{ product_id := 1, quantity := 8 + 1/1000, unit_price := 10 }] }

/-- On-hand quantity of a product's rows at one shop (the view the sale,
transfer and return routes query). -/
def onHandAt (db : DBState) (shop pid : Nat) : Rat :=
  ratSum ((db.stocks.filter (prodStockPred shop pid)).map (fun s => s.quantity))

/-- A completed sale at shop 3 (only its shop matters to the return). -/
def c9sale : Sale :=
  { id := 9, sale_number := "S-9", shop_id := 3, total_amount := 0
  , discount_amount := 0, final_amount := 0, status := SaleStatus.completed
  , lines := [] }

/-- Product 2 stock at shop 3: 15 on hand. -/
def c9row : StockItem :=
  { shop_id := 3, item_type := ItemType.product, product_id := some 2
  , raw_material_id := none, quantity := 15, reserved_quantity := 0
  , min_stock_level := 0 }

/-- Database for the return claim. -/
def c9db : DBState := { emptyDB with sales := [c9sale], stocks := [c9row] }

/-- A return of 2 units of product 2 at 30, tied to sale 9. -/
def c9req : ReturnCreate :=
  { return_number := "R-1", sale_id := some 9, product_id := 2
  , quantity := 2, unit_price := 30 }

/-- Reserved quantity of a product's rows at one shop. -/
def reservedAt (db : DBState) (shop pid : Nat) : Rat :=
  ratSum ((db.stocks.filter (prodStockPred shop pid)).map (fun s => s.reserved_quantity))

/-- Product 1 stock at shop 1: 30 on hand, none reserved. -/
def c4row : StockItem :=
  { shop_id := 1, item_type := ItemType.product, product_id := some 1
  , raw_material_id := none, quantity := 30, reserved_quantity := 0
  , min_stock_level := 0 }

/-- Database for the transfer claim. -/
def c4db : DBState := { emptyDB with stocks := [c4row] }

/-- A transfer of 8 units of product 1 from shop 1 to shop 2. -/
def c4req : TransferCreate :=
  { transfer_number := "T-1", from_shop_id := 1, to_shop_id := 2
  , transfer_lines := [{ product_id := 1, quantity := 8, unit_cost := 5 }] }

/-- Total planned consumption a list of consumption rows takes from one
material. -/
def consumedOf (cs : List ProductionConsumption) (m : Nat) : Rat :=
  ratSum (cs.map (fun c => if c.raw_material_id = m then c.planned_consumption else 0))

/-- Total planned quantity a list of production lines adds to one product. -/
def producedOf (ls : List ProductionLine) (p : Nat) : Rat :=
  ratSum (ls.map (fun l => if l.product_id = p then l.planned_quantity else 0))

/-- Raw-material cost `unit_price * planned_consumption` summed over the
consumption rows (0 for a missing material, a case the loop rejects). -/
def rawCostOf (mats : List RawMaterial) (cs : List ProductionConsumption) : Rat :=
  ratSum (cs.map (fun c =>
    (match mats.find? (fun m => decide (m.id = c.raw_material_id)) with
     | some m => m.unit_price
     | none => 0) * c.planned_consumption))

/-- Raw material 1 priced at 4 per unit. -/
def c7mat : RawMaterial := { id := 1, unit_price := 4 }

/-- Material 1 stock at the warehouse: 100 on hand. -/
def c7row : StockItem :=
  { shop_id := 1, item_type := ItemType.rawMaterial, product_id := none
  , raw_material_id := some 1, quantity := 100, reserved_quantity := 0
  , min_stock_level := 0 }

/-- A PLANNED run: 10 units of product 2, consuming 25 of material 1,
labor 5, overhead 3. -/
def c7run : ProductionRun :=
  { id := 1, run_number := "PR-7", planned_quantity := 10, labor_cost := 5
  , overhead_cost := 3, total_cost := none, actual_quantity := none
  , status := ProductionStatus.planned
  , lines := [{ product_id := 2, planned_quantity := 10 }]
  , consumptions := [{ raw_material_id := 1, planned_consumption := 25 }] }

/-- Database for the production claim. -/
def c7db : DBState :=
  { emptyDB with stocks := [c7row], runs := [c7run], materials := [c7mat] }

/-- A purchase line: 20 units of raw material 1 at 4. -/
def c8pline : PurchaseLine :=
  { raw_material_id := some 1, quantity := 20, unit_price := 4 }

/-- The purchase operation creating material 1's stock. -/
def c8op1 : Op := Op.purchaseCreate { supplier_name := "S", purchase_lines := [c8pline] }

/-- The run-creation operation: a run planning to consume 25 of material 1
(only 20 will be on hand). -/
def c8op2 : Op := Op.runCreate
  { run_number := "PR-8", planned_quantity := 10, labor_cost := 0
  , overhead_cost := 0, production_lines := []
  , production_consumptions := some [{ raw_material_id := 1, planned_consumption := 25 }] }

/-- The raw-material row the purchase creates: 20 on hand at shop 1. -/
def c8rowW : StockItem :=
  { shop_id := 1, item_type := ItemType.rawMaterial, product_id := none
  , raw_material_id := some 1, quantity := 20, reserved_quantity := 0
  , min_stock_level := 10 }

/-- The purchase movement. -/
def c8mv : StockMovement :=
  { shop_id := 1, item_type := ItemType.rawMaterial, product_id := none
  , raw_material_id := some 1, quantity := 20, reason := MovementReason.purchase
  , reference_id := some 1, reference_type := some "purchase", notes := none }

/-- The committed purchase document. -/
def c8purchase : Purchase :=
  { id := 1, total_amount := 80, status := PurchaseStatus.received
  , lines := [c8pline] }

/-- The created run. -/
def c8runW : ProductionRun :=
  { id := 2, run_number := "PR-8", planned_quantity := 10, labor_cost := 0
  , overhead_cost := 0, total_cost := none, actual_quantity := none
  , status := ProductionStatus.planned, lines := []
  , consumptions := [{ raw_material_id := 1, planned_consumption := 25 }] }

/-- State after the purchase commits. -/
def c8dbA : DBState :=
  { nextId := 2, stocks := [c8rowW], movements := [c8mv], sales := []
  , transfers := [], purchases := [c8purchase], runs := [], returns := []
  , materials := [], fabric_rules := [] }

/-- State after purchase and run creation: reachable from the empty
database. -/
def c8db : DBState := { c8dbA with nextId := 3, runs := [c8runW] }

/-- The per-row invariant of the spec: reservations stay between zero and
the on-hand quantity. -/
def RowInv (s : StockItem) : Prop :=
  0 ≤ s.reserved_quantity ∧ s.reserved_quantity ≤ s.quantity

/-- Every stock row satisfies the reservation invariant. -/
def StocksInv (db : DBState) : Prop := ∀ s ∈ db.stocks, RowInv s

/-- Every pending transfer carries only nonnegative line quantities. -/
def PendingNonneg (db : DBState) : Prop :=
  ∀ t ∈ db.transfers, t.status = TransferStatus.pending → ∀ l ∈ t.lines, 0 ≤ l.quantity

/-- Reservations are exactly the pending outbound transfer quantities,
pair by pair. -/
def ResEqPending (db : DBState) : Prop := ∀ k, resSum db k = pendingOut db k

/-- Auxiliary invariant carried through the reservation-bound induction. -/
def C2Inv (db : DBState) : Prop :=
  StocksInv db ∧ ResEqPending db ∧ PendingNonneg db ∧ ProdRowsClean db.stocks

/-- Side conditions under which the reservation invariant is preserved:
adjustments may not push a matched row's quantity below its reservation;
sale and transfer requests list each product at most once; transfer,
purchase, production and return quantities are nonnegative.  All other
operations are unrestricted. -/
def CondC2 (s : DBState) : Op → Prop
  | Op.adjust req => ∀ row ∈ s.stocks,
      adjustPred req.shop_id req.item_type req.product_id req.raw_material_id row
        = true →
      row.reserved_quantity ≤ row.quantity + req.quantity
  | Op.saleCreate req =>
      req.sale_lines.Pairwise (fun a b => a.product_id ≠ b.product_id)
  | Op.transferCreate req =>
      req.transfer_lines.Pairwise (fun a b => a.product_id ≠ b.product_id) ∧
      ∀ l ∈ req.transfer_lines, 0 ≤ l.quantity
  | Op.transferReceive _ => True
  | Op.purchaseCreate req => ∀ l ∈ req.purchase_lines, 0 ≤ l.quantity
  | Op.runCreate _ => True
  | Op.runComplete rid => ∀ run ∈ s.runs, run.id = rid →
      run.consumptions.Pairwise (fun a b => a.raw_material_id ≠ b.raw_material_id) ∧
      ∀ l ∈ run.lines, 0 ≤ l.planned_quantity
  | Op.returnCreate req => 0 ≤ req.quantity

/-- The stock row after the invariant-breaking adjustment. -/
def c2row : StockItem := { c1row with quantity := -5 }

/-- The movement the adjustment records. -/
def c2mv : StockMovement :=
  { shop_id := 1, item_type := ItemType.product, product_id := some 1
  , raw_material_id := none, quantity := -10, reason := MovementReason.adjustment
  , reference_id := none, reference_type := none, notes := none }

/-- The state the adjustment commits: quantity −5 under reservation 0. -/
def c2db : DBState := { c1db with stocks := [c2row], movements := [c2mv] }

/-- The reconciliation property of the spec, amended: a pair's signed
movement sum equals its on-hand quantity minus its pending outbound
transfer quantity (at transfer creation the code records the TRANSFER_OUT
movement but only reserves; the deduction happens at receive). -/
def Recon (db : DBState) : Prop :=
  ∀ k, moveSum db k = onHand db k - pendingOut db k

/-- Auxiliary invariant for the reconciliation induction. -/
def C3Inv (db : DBState) : Prop :=
  Recon db ∧ ProdRowsClean db.stocks ∧ RawRowsShop1 db.stocks

/-- Side conditions for the reconciliation induction: adjustment requests
fully identify their row (a product adjustment names a nonzero product and
no material; a raw-material adjustment names a nonzero material and no
product — the route drops falsy filters, so an under-specified request can
update one pair while recording the movement against another); production
completions only for runs whose products have no stock rows away from the
warehouse (the movement is recorded at shop 1 but the quantity lands on the
row wherever it is).  All other operations are unrestricted. -/
def CondC3 (s : DBState) : Op → Prop
  | Op.adjust req =>
      (req.item_type = ItemType.product ∧ req.raw_material_id = none ∧
        ∃ p, req.product_id = some p ∧ p ≠ 0) ∨
      (req.item_type = ItemType.rawMaterial ∧ req.product_id = none ∧
        ∃ m, req.raw_material_id = some m ∧ m ≠ 0)
  | Op.runComplete rid => ∀ run ∈ s.runs, run.id = rid →
      ∀ l ∈ run.lines, ∀ row ∈ s.stocks,
        prodAnyShopPred l.product_id row = true → row.shop_id = 1
  | _ => True

/-- Contribution of one purchase line to a pair (always at the warehouse's
raw-material pair of the line's material). -/
def purchAdd (k : PairKey) (l : PurchaseLine) : Rat :=
  if ({ shop := 1, kind := ItemType.rawMaterial, pid := none, mid := l.raw_material_id } : PairKey) = k then l.quantity else 0

/-- Contribution of one consumption row to a pair. -/
def consOut (k : PairKey) (c : ProductionConsumption) : Rat :=
  if ({ shop := 1, kind := ItemType.rawMaterial, pid := none, mid := some c.raw_material_id } : PairKey) = k then c.planned_consumption else 0

/-- Contribution of one production line to a pair. -/
def prodAddOut (k : PairKey) (l : ProductionLine) : Rat :=
  if prodKey 1 l.product_id = k then l.planned_quantity else 0

/-- The return operation of the reconciliation counterexample. -/
def c3op1 : Op := Op.returnCreate
  { return_number := "R-3", sale_id := none, product_id := 1, quantity := 10
  , unit_price := 5 }

/-- The transfer-creation operation of the reconciliation counterexample. -/
def c3op2 : Op := Op.transferCreate
  { transfer_number := "T-3", from_shop_id := 1, to_shop_id := 2
  , transfer_lines := [{ product_id := 1, quantity := 8, unit_cost := 0 }] }

/-- Product 1's row after the return: 10 on hand at shop 1. -/
def c3row : StockItem :=
  { shop_id := 1, item_type := ItemType.product, product_id := some 1
  , raw_material_id := none, quantity := 10, reserved_quantity := 0
  , min_stock_level := 10 }

/-- The RETURN movement. -/
def c3mv1 : StockMovement :=
  { shop_id := 1, item_type := ItemType.product, product_id := some 1
  , raw_material_id := none, quantity := 10, reason := MovementReason.saleReturn
  , reference_id := some 1, reference_type := some "return", notes := none }

/-- The committed return document. -/
def c3doc : ReturnDoc :=
  { id := 1, return_number := "R-3", sale_id := none, product_id := 1
  , quantity := 10, unit_price := 5, total_amount := 50 }

/-- State after the return. -/
def c3db1 : DBState :=
  { emptyDB with nextId := 2, stocks := [c3row], movements := [c3mv1], returns := [c3doc] }

/-- The row after the transfer reserves 8. -/
def c3row2 : StockItem := { c3row with reserved_quantity := 8 }

/-- The TRANSFER_OUT movement of −8 recorded at creation. -/
def c3mv2 : StockMovement :=
  { shop_id := 1, item_type := ItemType.product, product_id := some 1
  , raw_material_id := none, quantity := -8, reason := MovementReason.transferOut
  , reference_id := some 2, reference_type := some "transfer", notes := none }

/-- The pending transfer. -/
def c3t : Transfer :=
  { id := 2, transfer_number := "T-3", from_shop_id := 1, to_shop_id := 2
  , status := TransferStatus.pending
  , lines := [{ product_id := 1, quantity := 8, unit_cost := 0 }] }

/-- State after the transfer creation commits. -/
def c3db2 : DBState :=
  { c3db1 with nextId := 3, stocks := [c3row2], movements := [c3mv1, c3mv2], transfers := [c3t] }

/-! ### Generic list lemmas -/

theorem ratSum_append (l₁ l₂ : List Rat) :
    ratSum (l₁ ++ l₂) = ratSum l₁ + ratSum l₂ := by
  induction l₁ with
  | nil => simp [ratSum]
  | cons x xs ih => simp [ratSum, ih]; ring

theorem ratSum_map_append {α : Type} (g : α → Rat) (l₁ l₂ : List α) :
    ratSum ((l₁ ++ l₂).map g) = ratSum (l₁.map g) + ratSum (l₂.map g) := by
  rw [List.map_append, ratSum_append]

/-- Decomposition of a list whose filtering yields a single element. -/
theorem filter_single_decomp {α : Type} {p : α → Bool} {l : List α} {r : α}
    (h : l.filter p = [r]) :
    ∃ l₁ l₂, l = l₁ ++ r :: l₂ ∧ p r = true ∧
      (∀ x ∈ l₁, p x = false) ∧ (∀ x ∈ l₂, p x = false) := by
  induction l with
  | nil => simp [List.filter] at h
  | cons a as ih =>
    by_cases hpa : p a
    · rw [List.filter_cons_of_pos hpa] at h
      obtain ⟨h1, h2⟩ := List.cons_eq_cons.mp h
      refine ⟨[], as, by simp [h1], h1 ▸ hpa, by simp, ?_⟩
      intro x hx
      have : as.filter p = [] := h2
      by_contra hc
      have : x ∈ as.filter p := List.mem_filter.mpr ⟨hx, by simpa using hc⟩
      simp [h2] at this
    · rw [List.filter_cons_of_neg hpa] at h
      obtain ⟨l₁, l₂, he, hr, h₁, h₂⟩ := ih h
      exact ⟨a :: l₁, l₂, by simp [he], hr, by
        intro x hx
        rcases List.mem_cons.mp hx with rfl | hx'
        · simpa using hpa
        · exact h₁ x hx', h₂⟩

/-- `updateFirst` on a decomposed list whose prefix has no match. -/
theorem updateFirst_append {α : Type} {p : α → Bool} {l₁ : List α} {r : α}
    (l₂ : List α) (f : α → α) (h₁ : ∀ x ∈ l₁, p x = false) (hr : p r = true) :
    updateFirst p f (l₁ ++ r :: l₂) = l₁ ++ f r :: l₂ := by
  induction l₁ with
  | nil => simp [updateFirst, hr]
  | cons a as ih =>
    have ha : p a = false := h₁ a (by simp)
    have ih' := ih (fun x hx => h₁ x (by simp [hx]))
    simp only [List.cons_append, updateFirst, ha, Bool.false_eq_true, if_false]
    exact congrArg (a :: ·) ih'

/-- `find?` on a decomposed list whose prefix has no match. -/
theorem find?_append_single {α : Type} {p : α → Bool} {l₁ : List α} {r : α}
    (l₂ : List α) (h₁ : ∀ x ∈ l₁, p x = false) (hr : p r = true) :
    (l₁ ++ r :: l₂).find? p = some r := by
  induction l₁ with
  | nil => simp [List.find?, hr]
  | cons a as ih =>
    have ha : p a = false := h₁ a (by simp)
    simp only [List.cons_append, List.find?, ha]
    exact ih (fun x hx => h₁ x (by simp [hx]))

/-- Decomposition of a list at the first element `find?` returns. -/
theorem find?_eq_some_decomp {α : Type} {p : α → Bool} {l : List α} {r : α}
    (h : l.find? p = some r) :
    ∃ l₁ l₂, l = l₁ ++ r :: l₂ ∧ p r = true ∧ ∀ x ∈ l₁, p x = false := by
  induction l with
  | nil => simp [List.find?] at h
  | cons a as ih =>
    by_cases hpa : p a
    · rw [List.find?_cons_of_pos _ hpa] at h
      cases h
      exact ⟨[], as, by simp, hpa, by simp⟩
    · rw [List.find?_cons_of_neg _ hpa] at h
      obtain ⟨l₁, l₂, he, hr, h₁⟩ := ih h
      refine ⟨a :: l₁, l₂, by simp [he], hr, ?_⟩
      intro x hx
      rcases List.mem_cons.mp hx with rfl | hx'
      · simpa using hpa
      · exact h₁ x hx'

/-- Characterization of `scalarOneOrNone` returning a row. -/
theorem scalarOneOrNone_eq_some {α : Type} {p : α → Bool} {l : List α} {r : α} :
    scalarOneOrNone p l = Except.ok (some r) ↔ l.filter p = [r] := by
  unfold scalarOneOrNone
  rcases hf : l.filter p with _ | ⟨a, _ | ⟨b, t⟩⟩ <;> simp

/-- Characterization of `scalarOneOrNone` returning no row. -/
theorem scalarOneOrNone_eq_none {α : Type} {p : α → Bool} {l : List α} :
    scalarOneOrNone p l = Except.ok none ↔ l.filter p = [] := by
  unfold scalarOneOrNone
  rcases hf : l.filter p with _ | ⟨a, _ | ⟨b, t⟩⟩ <;> simp

/-- `updateFirst` leaves every other predicate's filtered view unchanged when
the update preserves the fields both predicates read. -/
theorem filter_updateFirst_of_preserved {α : Type} {p q : α → Bool} (f : α → α)
    (hf : ∀ x, q (f x) = q x) (l : List α)
    (hpq : ∀ x ∈ l, p x = true → q x = false) :
    (updateFirst p f l).filter q = l.filter q := by
  induction l with
  | nil => rfl
  | cons a as ih =>
    by_cases hpa : p a
    · have hqa : q a = false := hpq a (by simp) hpa
      simp [updateFirst, hpa, List.filter_cons, hf, hqa]
    · simp only [updateFirst, hpa, Bool.false_eq_true, if_false]
      rw [List.filter_cons, List.filter_cons,
        ih (fun x hx hpx => hpq x (by simp [hx]) hpx)]

/-- Filtering after `updateFirst` with the same predicate, when the update
keeps the predicate true. -/
theorem filter_updateFirst_single {α : Type} {p : α → Bool} {l : List α} {r : α}
    (f : α → α) (h : l.filter p = [r]) (hf : p (f r) = true) :
    (updateFirst p f l).filter p = [f r] := by
  obtain ⟨l₁, l₂, he, hpr, h₁, h₂⟩ := filter_single_decomp h
  rw [he, updateFirst_append l₂ f h₁ hpr, List.filter_append]
  rw [List.filter_cons_of_pos hf]
  have e₁ : l₁.filter p = [] := List.filter_eq_nil_iff.mpr (by
    intro x hx
    simp [h₁ x hx])
  have e₂ : l₂.filter p = [] := List.filter_eq_nil_iff.mpr (by
    intro x hx
    simp [h₂ x hx])
  rw [e₁, e₂]
  rfl

theorem SameDocs.rfl {db : DBState} : SameDocs db db :=
  ⟨Eq.refl _, Eq.refl _, Eq.refl _, Eq.refl _, Eq.refl _, Eq.refl _, Eq.refl _, Eq.refl _⟩

theorem SameDocs.trans {a b c : DBState} (h₁ : SameDocs a b) (h₂ : SameDocs b c) :
    SameDocs a c := by
  obtain ⟨e1, e2, e3, e4, e5, e6, e7, e8⟩ := h₁
  obtain ⟨f1, f2, f3, f4, f5, f6, f7, f8⟩ := h₂
  exact ⟨f1.trans e1, f2.trans e2, f3.trans e3, f4.trans e4, f5.trans e5,
    f6.trans e6, f7.trans e7, f8.trans e8⟩

theorem applySaleLines_sameDocs {shop sid : Nat} :
    ∀ (ls : List SaleLine) (db db' : DBState),
      applySaleLines shop sid ls db = Except.ok db' → SameDocs db db'
  | [], db, db', h => by
    cases h
    exact SameDocs.rfl
  | l :: rest, db, db', h => by
    simp only [applySaleLines] at h
    split at h
    · cases h
    · cases h
    · have hrec := applySaleLines_sameDocs rest _ db' h
      exact SameDocs.trans ⟨rfl, rfl, rfl, rfl, rfl, rfl, rfl, rfl⟩ hrec

theorem reserveTransferLines_sameDocs {shop tid : Nat} :
    ∀ (ls : List TransferLine) (db db' : DBState),
      reserveTransferLines shop tid ls db = Except.ok db' → SameDocs db db'
  | [], db, db', h => by
    cases h
    exact SameDocs.rfl
  | l :: rest, db, db', h => by
    simp only [reserveTransferLines] at h
    split at h
    · cases h
    · cases h
    · have hrec := reserveTransferLines_sameDocs rest _ db' h
      exact SameDocs.trans ⟨rfl, rfl, rfl, rfl, rfl, rfl, rfl, rfl⟩ hrec

theorem receiveTransferLine_sameDocs {fromShop toShop tid : Nat}
    {l : TransferLine} {db db' : DBState}
    (h : receiveTransferLine fromShop toShop tid l db = Except.ok db') :
    SameDocs db db' := by
  simp only [receiveTransferLine] at h
  split at h
  · cases h
  · cases h
  · split at h
    · cases h
    · cases h
      exact ⟨rfl, rfl, rfl, rfl, rfl, rfl, rfl, rfl⟩
    · cases h
      exact ⟨rfl, rfl, rfl, rfl, rfl, rfl, rfl, rfl⟩

theorem receiveTransferLines_sameDocs {fromShop toShop tid : Nat} :
    ∀ (ls : List TransferLine) (db db' : DBState),
      receiveTransferLines fromShop toShop tid ls db = Except.ok db' → SameDocs db db'
  | [], db, db', h => by
    cases h
    exact SameDocs.rfl
  | l :: rest, db, db', h => by
    simp only [receiveTransferLines] at h
    split at h
    · cases h
    · rename_i db₁ hline
      exact SameDocs.trans (receiveTransferLine_sameDocs hline)
        (receiveTransferLines_sameDocs rest db₁ db' h)

theorem applyPurchaseLines_sameDocs {pid : Nat} :
    ∀ (ls : List PurchaseLine) (db db' : DBState),
      applyPurchaseLines pid ls db = Except.ok db' → SameDocs db db'
  | [], db, db', h => by
    cases h
    exact SameDocs.rfl
  | l :: rest, db, db', h => by
    simp only [applyPurchaseLines] at h
    split at h
    · cases h
    · have hrec := applyPurchaseLines_sameDocs rest _ db' h
      exact SameDocs.trans ⟨rfl, rfl, rfl, rfl, rfl, rfl, rfl, rfl⟩ hrec
    · have hrec := applyPurchaseLines_sameDocs rest _ db' h
      exact SameDocs.trans ⟨rfl, rfl, rfl, rfl, rfl, rfl, rfl, rfl⟩ hrec

theorem consumeMaterials_sameDocs {rid : Nat} :
    ∀ (cs : List ProductionConsumption) (db : DBState) (cost : Rat)
      (db' : DBState) (cost' : Rat),
      consumeMaterials rid cs db cost = Except.ok (db', cost') → SameDocs db db'
  | [], db, cost, db', cost', h => by
    cases h
    exact SameDocs.rfl
  | c :: rest, db, cost, db', cost', h => by
    simp only [consumeMaterials] at h
    split at h
    · cases h
    · cases h
    · split at h
      · cases h
      · cases h
      · have hrec := consumeMaterials_sameDocs rest _ _ db' cost' h
        exact SameDocs.trans ⟨rfl, rfl, rfl, rfl, rfl, rfl, rfl, rfl⟩ hrec

theorem addProducts_sameDocs {rid : Nat} :
    ∀ (ls : List ProductionLine) (db db' : DBState),
      addProducts rid ls db = Except.ok db' → SameDocs db db'
  | [], db, db', h => by
    cases h
    exact SameDocs.rfl
  | l :: rest, db, db', h => by
    simp only [addProducts] at h
    split at h
    · cases h
    · have hrec := addProducts_sameDocs rest _ db' h
      exact SameDocs.trans ⟨rfl, rfl, rfl, rfl, rfl, rfl, rfl, rfl⟩ hrec
    · have hrec := addProducts_sameDocs rest _ db' h
      exact SameDocs.trans ⟨rfl, rfl, rfl, rfl, rfl, rfl, rfl, rfl⟩ hrec

/-- A committed transaction result equals `ok` of its committed state. -/
theorem okD_spec {r : Except ApiError DBState} (h : isOkE r = true) :
    r = Except.ok (okD r) := by
  cases r with
  | ok db => rfl
  | error e => simp [isOkE] at h

/-- Membership after `updateFirst`: every element is an old one or the image
of an old one. -/
theorem mem_updateFirst {α : Type} {p : α → Bool} {f : α → α} :
    ∀ {l : List α} {x : α}, x ∈ updateFirst p f l → x ∈ l ∨ ∃ y, y ∈ l ∧ x = f y
  | [], x, h => by simp [updateFirst] at h
  | a :: as, x, h => by
    by_cases hpa : p a
    · simp only [updateFirst, hpa, if_true] at h
      rcases List.mem_cons.mp h with rfl | hx
      · exact Or.inr ⟨a, by simp, rfl⟩
      · exact Or.inl (by simp [hx])
    · simp only [updateFirst, hpa, Bool.false_eq_true, if_false] at h
      rcases List.mem_cons.mp h with rfl | hx
      · exact Or.inl (by simp)
      · rcases mem_updateFirst hx with hy | ⟨y, hy, rfl⟩
        · exact Or.inl (by simp [hy])
        · exact Or.inr ⟨y, by simp [hy], rfl⟩

/-- The filtered length is unchanged by `updateFirst` when the update
preserves the filter predicate. -/
theorem filter_length_updateFirst {α : Type} (p q : α → Bool) (f : α → α)
    (hf : ∀ x, q (f x) = q x) :
    ∀ l : List α, ((updateFirst p f l).filter q).length = (l.filter q).length
  | [] => rfl
  | a :: as => by
    by_cases hpa : p a
    · simp only [updateFirst, hpa, if_true, List.filter_cons, hf a]
      by_cases hqa : q a <;> simp [hqa, hf a]
    · simp only [updateFirst, hpa, Bool.false_eq_true, if_false, List.filter_cons]
      by_cases hqa : q a <;>
        simp [hqa, filter_length_updateFirst p q f hf as]

/-- A list of length one is a singleton. -/
theorem length_one_singleton {α : Type} {l : List α} (h : l.length = 1) :
    ∃ r, l = [r] := by
  rcases l with _ | ⟨a, _ | ⟨b, t⟩⟩ <;> simp at h ⊢

/-- Effect of `updateFirst` (with a key-preserving update) on a pair's
on-hand sum. -/
theorem ratSum_keyQty_updateFirst {p : StockItem → Bool} {f : StockItem → StockItem}
    {stocks : List StockItem} {r : StockItem}
    (h : stocks.filter p = [r]) (k : PairKey) :
    ratSum ((updateFirst p f stocks).map (keyQty k))
      = ratSum (stocks.map (keyQty k)) - keyQty k r + keyQty k (f r) := by
  obtain ⟨l₁, l₂, he, hpr, h₁, h₂⟩ := filter_single_decomp h
  rw [he, updateFirst_append l₂ f h₁ hpr, ratSum_map_append, ratSum_map_append]
  simp only [List.map_cons, ratSum]
  ring

/-- Effect of `updateFirst` (with a key-preserving update) on a pair's
reserved sum. -/
theorem ratSum_keyRes_updateFirst {p : StockItem → Bool} {f : StockItem → StockItem}
    {stocks : List StockItem} {r : StockItem}
    (h : stocks.filter p = [r]) (k : PairKey) :
    ratSum ((updateFirst p f stocks).map (keyRes k))
      = ratSum (stocks.map (keyRes k)) - keyRes k r + keyRes k (f r) := by
  obtain ⟨l₁, l₂, he, hpr, h₁, h₂⟩ := filter_single_decomp h
  rw [he, updateFirst_append l₂ f h₁ hpr, ratSum_map_append, ratSum_map_append]
  simp only [List.map_cons, ratSum]
  ring

/-- Appending one row adds its contribution to a pair's on-hand sum. -/
theorem ratSum_keyQty_append (stocks : List StockItem) (s : StockItem) (k : PairKey) :
    ratSum ((stocks ++ [s]).map (keyQty k))
      = ratSum (stocks.map (keyQty k)) + keyQty k s := by
  rw [ratSum_map_append]
  simp [ratSum]

/-- Appending one row adds its contribution to a pair's reserved sum. -/
theorem ratSum_keyRes_append (stocks : List StockItem) (s : StockItem) (k : PairKey) :
    ratSum ((stocks ++ [s]).map (keyRes k))
      = ratSum (stocks.map (keyRes k)) + keyRes k s := by
  rw [ratSum_map_append]
  simp [ratSum]

/-- Appending one movement adds its contribution to a pair's movement sum. -/
theorem ratSum_keyMove_append (ms : List StockMovement) (mv : StockMovement) (k : PairKey) :
    ratSum ((ms ++ [mv]).map (keyMove k))
      = ratSum (ms.map (keyMove k)) + keyMove k mv := by
  rw [ratSum_map_append]
  simp [ratSum]

/-- Successful pre-check means each line has exactly one stock row. -/
theorem checkSaleLines_singleton {shop : Nat} {stocks : List StockItem} :
    ∀ {ls : List SaleLine}, checkSaleLines shop stocks ls = Except.ok Unit.unit →
      ∀ l ∈ ls, (stocks.filter (prodStockPred shop l.product_id)).length = 1
  | [], _, l, hl => by simp at hl
  | l₀ :: rest, h, l, hl => by
    simp only [checkSaleLines] at h
    split at h
    · cases h
    · cases h
    · rename_i s heq
      split at h
      · cases h
      · rcases List.mem_cons.mp hl with rfl | hl'
        · rw [scalarOneOrNone_eq_some.mp heq]
          rfl
        · exact checkSaleLines_singleton h l hl'

/-- The write loop of a sale succeeds whenever each line has exactly one
stock row (the pre-check guarantees this; deduction has no check of its
own). -/
theorem applySaleLines_ok {shop sid : Nat} :
    ∀ (ls : List SaleLine) (db : DBState),
      (∀ l ∈ ls, (db.stocks.filter (prodStockPred shop l.product_id)).length = 1) →
      ∃ db', applySaleLines shop sid ls db = Except.ok db'
  | [], db, _ => ⟨db, rfl⟩
  | l :: rest, db, h => by
    obtain ⟨r, hr⟩ := length_one_singleton (h l (by simp))
    have hone := scalarOneOrNone_eq_some.mpr hr
    simp only [applySaleLines, hone]
    refine applySaleLines_ok rest _ ?_
    intro l' hl'
    have := filter_length_updateFirst (prodStockPred shop l.product_id)
      (prodStockPred shop l'.product_id)
      (fun s => { s with quantity := s.quantity - l.quantity })
      (fun x => rfl) db.stocks
    exact this.trans (h l' (by simp [hl']))

/-- Ledger effect of a committed sale write loop: every pair's on-hand and
movement sums drop by the lines' quantity at that pair, reservations are
untouched, and product-row cleanliness is preserved. -/
theorem applySaleLines_spec {shop sid : Nat} :
    ∀ (ls : List SaleLine) (db db' : DBState),
      applySaleLines shop sid ls db = Except.ok db' →
      ProdRowsClean db.stocks →
      ProdRowsClean db'.stocks ∧
      (∀ k, onHand db' k = onHand db k - saleOutAt shop ls k) ∧
      (∀ k, resSum db' k = resSum db k) ∧
      (∀ k, moveSum db' k = moveSum db k - saleOutAt shop ls k)
  | [], db, db', h, hc => by
    cases h
    refine ⟨hc, ?_, ?_, ?_⟩ <;> intro k <;> simp [saleOutAt, ratSum]
  | l :: rest, db, db', h, hc => by
    simp only [applySaleLines] at h
    split at h
    · cases h
    · cases h
    · rename_i r heq
      have hr : db.stocks.filter (prodStockPred shop l.product_id) = [r] :=
        scalarOneOrNone_eq_some.mp heq
      have hrmem : r ∈ db.stocks := by
        obtain ⟨l₁, l₂, hde, hpr, h₁, h₂⟩ := filter_single_decomp hr
        rw [hde]
        simp
      have hpr : prodStockPred shop l.product_id r = true :=
        (filter_single_decomp hr).choose_spec.choose_spec.2.1
      simp only [prodStockPred, Bool.and_eq_true, decide_eq_true_eq] at hpr
      obtain ⟨⟨hshop, hpid⟩, hity⟩ := hpr
      have hmid : r.raw_material_id = none := hc r hrmem hity
      have hclean₂ : ProdRowsClean (updateFirst (prodStockPred shop l.product_id)
          (fun s => { s with quantity := s.quantity - l.quantity }) db.stocks) := by
        intro x hx hty
        rcases mem_updateFirst hx with hx' | ⟨y, hy, rfl⟩
        · exact hc x hx' hty
        · exact hc y hy hty
      obtain ⟨hc', hq, hres, hmov⟩ := applySaleLines_spec rest _ db' h hclean₂
      have houtc : ∀ k, saleOutAt shop (l :: rest) k
          = (if prodKey shop l.product_id = k then l.quantity else 0)
            + saleOutAt shop rest k := by
        intro k
        simp [saleOutAt, ratSum]
      refine ⟨hc', ?_, ?_, ?_⟩
      · intro k
        rw [hq k, houtc k]
        simp only [onHand]
        rw [ratSum_keyQty_updateFirst hr k]
        simp only [keyQty, stockKey, hshop, hpid, hity, hmid, prodKey]
        by_cases hk : (PairKey.mk shop ItemType.product (some l.product_id) none) = k
        · simp only [if_pos hk]
          ring
        · simp only [if_neg hk]
          ring
      · intro k
        rw [hres k]
        simp only [resSum]
        rw [ratSum_keyRes_updateFirst hr k]
        simp only [keyRes, stockKey, hshop, hpid, hity, hmid]
        by_cases hk : (PairKey.mk shop ItemType.product (some l.product_id) none) = k
        · simp only [if_pos hk]
          ring
        · simp only [if_neg hk]
          ring
      · intro k
        rw [hmov k, houtc k]
        simp only [moveSum]
        rw [ratSum_keyMove_append]
        simp only [keyMove, moveKey, prodKey]
        by_cases hk : (PairKey.mk shop ItemType.product (some l.product_id) none) = k
        · simp only [if_pos hk]
          ring
        · simp only [if_neg hk]
          ring

/-- The availability pre-check passes when every line (all on one product)
asks for at most the available quantity of that product's unique row. -/
theorem checkSaleLines_ok_of_le {shop p : Nat} {stocks : List StockItem}
    {row : StockItem} (hrow : stocks.filter (prodStockPred shop p) = [row]) :
    ∀ ls : List SaleLine, (∀ l ∈ ls, l.product_id = p) →
      (∀ l ∈ ls, l.quantity ≤ row.quantity - row.reserved_quantity) →
      checkSaleLines shop stocks ls = Except.ok Unit.unit
  | [], _, _ => rfl
  | l :: rest, hp, hle => by
    have hpl : l.product_id = p := hp l (by simp)
    have hone : scalarOneOrNone (prodStockPred shop l.product_id) stocks
        = Except.ok (some row) := by
      rw [hpl]
      exact scalarOneOrNone_eq_some.mpr hrow
    simp only [checkSaleLines, hone]
    rw [if_neg (not_lt.mpr (hle l (by simp)))]
    exact checkSaleLines_ok_of_le hrow rest
      (fun x hx => hp x (by simp [hx])) (fun x hx => hle x (by simp [hx]))

/-- The availability pre-check fails with `insufficientStock` naming the
product, the available amount and the first excessive line's quantity, when
some line (all on one product) asks for more than what is available. -/
theorem checkSaleLines_first_fail {shop p : Nat} {stocks : List StockItem}
    {row : StockItem} (hrow : stocks.filter (prodStockPred shop p) = [row]) :
    ∀ ls : List SaleLine, (∀ l ∈ ls, l.product_id = p) →
      (∃ l ∈ ls, row.quantity - row.reserved_quantity < l.quantity) →
      ∃ q₀, row.quantity - row.reserved_quantity < q₀ ∧
        checkSaleLines shop stocks ls = Except.error
          (ApiError.insufficientStock p (row.quantity - row.reserved_quantity) q₀)
  | [], _, hex => by simp at hex
  | l :: rest, hp, hex => by
    have hpl : l.product_id = p := hp l (by simp)
    have hone : scalarOneOrNone (prodStockPred shop l.product_id) stocks
        = Except.ok (some row) := by
      rw [hpl]
      exact scalarOneOrNone_eq_some.mpr hrow
    by_cases hlt : row.quantity - row.reserved_quantity < l.quantity
    · refine ⟨l.quantity, hlt, ?_⟩
      simp only [checkSaleLines, hone]
      rw [if_pos hlt, hpl]
    · rcases hex with ⟨x, hx, hxlt⟩
      rcases List.mem_cons.mp hx with rfl | hx'
      · exact absurd hxlt hlt
      · obtain ⟨q₀, hq₀, hrec⟩ := checkSaleLines_first_fail hrow rest
          (fun y hy => hp y (by simp [hy])) ⟨x, hx', hxlt⟩
        refine ⟨q₀, hq₀, ?_⟩
        simp only [checkSaleLines, hone]
        rw [if_neg hlt]
        exact hrec

/-- Lines all on one product take away exactly their total quantity from
that product's pair. -/
theorem saleOutAt_single_product (shop p : Nat) :
    ∀ ls : List SaleLine, (∀ l ∈ ls, l.product_id = p) →
      saleOutAt shop ls (prodKey shop p) = ratSum (ls.map (fun l => l.quantity))
  | [], _ => rfl
  | l :: rest, hp => by
    have hpl : l.product_id = p := hp l (by simp)
    have hr := saleOutAt_single_product shop p rest (fun x hx => hp x (by simp [hx]))
    simp only [saleOutAt, List.map_cons, ratSum, hpl, eq_self_iff_true, if_true] at hr ⊢
    rw [hr]

/-- Quantity sum over a predicate's rows after updating the first match. -/
theorem filterSum_updateFirst_find (f : StockItem → StockItem)
    {p : StockItem → Bool} {l : List StockItem} {r : StockItem}
    (hfind : l.find? p = some r) (hpf : p (f r) = true) :
    ratSum (((updateFirst p f l).filter p).map (fun s => s.quantity))
      = ratSum ((l.filter p).map (fun s => s.quantity)) - r.quantity
        + (f r).quantity := by
  obtain ⟨l₁, l₂, he, hpr, h₁⟩ := find?_eq_some_decomp hfind
  have e₁ : l₁.filter p = [] := List.filter_eq_nil_iff.mpr (by
    intro x hx
    simp [h₁ x hx])
  rw [he, updateFirst_append l₂ f h₁ hpr, List.filter_append, List.filter_append,
    List.filter_cons_of_pos hpf, List.filter_cons_of_pos hpr, e₁]
  simp only [List.nil_append, List.map_cons, ratSum]
  ring

/-- Quantity sum over a predicate's rows after appending a matching row to a
list with no match. -/
theorem filterSum_append_new {p : StockItem → Bool} {l : List StockItem}
    {new : StockItem} (hnone : l.find? p = none) (hp : p new = true) :
    ratSum (((l ++ [new]).filter p).map (fun s => s.quantity))
      = ratSum ((l.filter p).map (fun s => s.quantity)) + new.quantity := by
  have e₁ : l.filter p = [] := List.filter_eq_nil_iff.mpr (by
    intro x hx
    simpa using List.find?_eq_none.mp hnone x hx)
  rw [List.filter_append, e₁, List.filter_cons_of_pos hp]
  simp [ratSum]

/-- A singleton filter result is also the `find?` result. -/
theorem filter_single_find? {α : Type} {p : α → Bool} {l : List α} {r : α}
    (h : l.filter p = [r]) : l.find? p = some r := by
  obtain ⟨l₁, l₂, he, hpr, h₁, h₂⟩ := filter_single_decomp h
  rw [he]
  exact find?_append_single l₂ h₁ hpr

/-- Sum of any field over a predicate's rows after updating the first
match. -/
theorem filterMapSum_updateFirst_find (g : StockItem → Rat)
    (f : StockItem → StockItem) {p : StockItem → Bool} {l : List StockItem}
    {r : StockItem} (hfind : l.find? p = some r) (hpf : p (f r) = true) :
    ratSum (((updateFirst p f l).filter p).map g)
      = ratSum ((l.filter p).map g) - g r + g (f r) := by
  obtain ⟨l₁, l₂, he, hpr, h₁⟩ := find?_eq_some_decomp hfind
  have e₁ : l₁.filter p = [] := List.filter_eq_nil_iff.mpr (by
    intro x hx
    simp [h₁ x hx])
  rw [he, updateFirst_append l₂ f h₁ hpr, List.filter_append, List.filter_append,
    List.filter_cons_of_pos hpf, List.filter_cons_of_pos hpr, e₁]
  simp only [List.nil_append, List.map_cons, ratSum]
  ring

/-- Sum of any field over a predicate's rows is untouched by updating the
first match of a disjoint predicate, when the update preserves the fields
both predicates read. -/
theorem filterMapSum_updateFirst_other (g : StockItem → Rat)
    {p q : StockItem → Bool} (f : StockItem → StockItem)
    (hf : ∀ x, q (f x) = q x) (hg : ∀ x, q x = true → g (f x) = g x) :
    ∀ l : List StockItem,
      ratSum (((updateFirst p f l).filter q).map g)
        = ratSum ((l.filter q).map g)
  | [] => rfl
  | a :: as => by
    by_cases hpa : p a
    · simp only [updateFirst, hpa, if_true, List.filter_cons, hf a]
      by_cases hqa : q a
      · simp only [hqa, if_true, List.map_cons, ratSum, hg a hqa]
      · simp only [hqa, Bool.false_eq_true, if_false]
    · simp only [updateFirst, hpa, Bool.false_eq_true, if_false, List.filter_cons]
      by_cases hqa : q a
      · simp only [hqa, if_true, List.map_cons, ratSum,
          filterMapSum_updateFirst_other g f hf hg as]
      · simp only [hqa, Bool.false_eq_true, if_false,
          filterMapSum_updateFirst_other g f hf hg as]

/-- Completing a run whose unique row is not PLANNED yields the
InvalidStateError (400). -/
theorem complete_run_not_planned {db : DBState} {rid : Nat} {run : ProductionRun}
    (hf : db.runs.filter (fun r : ProductionRun => decide (r.id = rid)) = [run])
    (hs : run.status ≠ ProductionStatus.planned) :
    complete_production_run rid db = Except.error ApiError.notPlanned := by
  have hone : scalarOneOrNone (fun r : ProductionRun => decide (r.id = rid)) db.runs
      = Except.ok (some run) := scalarOneOrNone_eq_some.mpr hf
  simp only [complete_production_run, hone]
  rw [if_neg hs]

/-- Receiving a transfer whose unique row is not PENDING yields the
InvalidStateError (400). -/
theorem receive_not_pending {db : DBState} {tid : Nat} {t : Transfer}
    (hf : db.transfers.filter (fun x : Transfer => decide (x.id = tid)) = [t])
    (hs : t.status ≠ TransferStatus.pending) :
    receive_transfer tid db = Except.error ApiError.notPending := by
  have hone : scalarOneOrNone (fun x : Transfer => decide (x.id = tid)) db.transfers
      = Except.ok (some t) := scalarOneOrNone_eq_some.mpr hf
  simp only [receive_transfer, hone]
  rw [if_neg hs]

/-- A successful completion rewrites the run's row to status COMPLETED and
changes no other run row. -/
theorem complete_run_sets_completed {db db' : DBState} {rid : Nat}
    {run : ProductionRun}
    (hf : db.runs.filter (fun r : ProductionRun => decide (r.id = rid)) = [run])
    (h : complete_production_run rid db = Except.ok db') :
    ∃ run', db'.runs.filter (fun r : ProductionRun => decide (r.id = rid)) = [run'] ∧
      run'.status = ProductionStatus.completed := by
  have hone : scalarOneOrNone (fun r : ProductionRun => decide (r.id = rid)) db.runs
      = Except.ok (some run) := scalarOneOrNone_eq_some.mpr hf
  simp only [complete_production_run, hone] at h
  by_cases hs : run.status = ProductionStatus.planned
  · rw [if_pos hs] at h
    split at h
    · cases h
    · split at h
      · cases h
      · rename_i db1 rawCost hcons
        split at h
        · cases h
        · rename_i db2 hadd
          cases h
          have e1 : db1.runs = db.runs := (consumeMaterials_sameDocs _ _ _ _ _ hcons).2.2.2.2.1
          have e2 : db2.runs = db1.runs := (addProducts_sameDocs _ _ _ hadd).2.2.2.2.1
          have hpr : (fun r : ProductionRun => decide (r.id = rid)) run = true := by
            have := filter_single_decomp hf
            exact this.choose_spec.choose_spec.2.1
          refine ⟨{ run with total_cost := some (rawCost + run.labor_cost + run.overhead_cost), actual_quantity := some run.planned_quantity, status := ProductionStatus.completed }, ?_, rfl⟩
          show (updateFirst _ _ db2.runs).filter _ = _
          rw [e2, e1]
          exact filter_updateFirst_single _ hf (by simpa using hpr)
  · rw [if_neg hs] at h
    cases h

/-- A successful receive rewrites the transfer's row to status RECEIVED. -/
theorem receive_sets_received {db db' : DBState} {tid : Nat} {t : Transfer}
    (hf : db.transfers.filter (fun x : Transfer => decide (x.id = tid)) = [t])
    (h : receive_transfer tid db = Except.ok db') :
    db'.transfers.filter (fun x : Transfer => decide (x.id = tid))
      = [{ t with status := TransferStatus.received }] := by
  have hone : scalarOneOrNone (fun x : Transfer => decide (x.id = tid)) db.transfers
      = Except.ok (some t) := scalarOneOrNone_eq_some.mpr hf
  simp only [receive_transfer, hone] at h
  by_cases hs : t.status = TransferStatus.pending
  · rw [if_pos hs] at h
    split at h
    · cases h
    · rename_i db1 hrec
      cases h
      have e1 : db1.transfers = db.transfers :=
        (receiveTransferLines_sameDocs _ _ _ hrec).2.2.1
      have hpr : (fun x : Transfer => decide (x.id = tid)) t = true := by
        have := filter_single_decomp hf
        exact this.choose_spec.choose_spec.2.1
      show (updateFirst _ _ db1.transfers).filter _ = _
      rw [e1]
      exact filter_updateFirst_single _ hf (by simpa using hpr)
  · rw [if_neg hs] at h
    cases h

/-- Successful consumption pre-check means each row's material has exactly
one stock row. -/
theorem checkConsumptions_singleton {stocks : List StockItem} :
    ∀ {cs : List ProductionConsumption},
      checkConsumptions stocks cs = Except.ok Unit.unit →
      ∀ c ∈ cs, (stocks.filter (rawStockPred c.raw_material_id)).length = 1
  | [], _, c, hc => by simp at hc
  | c₀ :: rest, h, c, hc => by
    simp only [checkConsumptions] at h
    split at h
    · cases h
    · cases h
    · rename_i s heq
      split at h
      · cases h
      · rcases List.mem_cons.mp hc with rfl | hc'
        · rw [scalarOneOrNone_eq_some.mp heq]
          rfl
        · exact checkConsumptions_singleton h c hc'

/-- Effect of a committed consumption loop: each material's total on-hand
(over all shops) drops by its planned consumption, products are untouched,
product filter multiplicities are preserved, the accumulated cost grows by
the raw-material cost, and the document tables are unchanged. -/
theorem consumeMaterials_spec (rid : Nat) :
    ∀ (cs : List ProductionConsumption) (db : DBState) (cost : Rat),
      (∀ c ∈ cs, (db.stocks.filter (rawStockPred c.raw_material_id)).length = 1) →
      (∀ c ∈ cs, ∃ m, db.materials.filter
        (fun m : RawMaterial => decide (m.id = c.raw_material_id)) = [m]) →
      ∃ db', consumeMaterials rid cs db cost
          = Except.ok (db', cost + rawCostOf db.materials cs) ∧
        (∀ m, onHandMatAll db' m = onHandMatAll db m - consumedOf cs m) ∧
        (∀ p, onHandProdAll db' p = onHandProdAll db p) ∧
        (∀ p, (db'.stocks.filter (prodAnyShopPred p)).length
          = (db.stocks.filter (prodAnyShopPred p)).length) ∧
        SameDocs db db'
  | [], db, cost, _, _ => by
    refine ⟨db, ?_, ?_, ?_, ?_, SameDocs.rfl⟩
    · show Except.ok (db, cost) = _
      rw [show cost + rawCostOf db.materials [] = cost by simp [rawCostOf, ratSum]]
    · intro m
      simp [consumedOf, ratSum]
    · intro p
      rfl
    · intro p
      rfl
  | c :: rest, db, cost, hlen, hmat => by
    obtain ⟨r, hr⟩ := length_one_singleton (hlen c (by simp))
    have hone := scalarOneOrNone_eq_some.mpr hr
    obtain ⟨m, hm⟩ := hmat c (by simp)
    have honeM := scalarOneOrNone_eq_some.mpr hm
    simp only [consumeMaterials, hone, honeM]
    have hrest := consumeMaterials_spec rid rest
      { db with stocks := updateFirst (rawStockPred c.raw_material_id) (fun s => { s with quantity := s.quantity - c.planned_consumption }) db.stocks, movements := db.movements ++ [{ shop_id := 1, item_type := ItemType.rawMaterial, product_id := none, raw_material_id := some c.raw_material_id, quantity := -c.planned_consumption, reason := MovementReason.productionConsume, reference_id := some rid, reference_type := some "production_run", notes := none }] }
      (cost + m.unit_price * c.planned_consumption)
      (fun c' hc' => by
        have := filter_length_updateFirst (rawStockPred c.raw_material_id)
          (rawStockPred c'.raw_material_id)
          (fun s => { s with quantity := s.quantity - c.planned_consumption })
          (fun x => rfl) db.stocks
        exact this.trans (hlen c' (by simp [hc'])))
      (fun c' hc' => hmat c' (by simp [hc']))
    obtain ⟨db', hok, hmats, hprods, hlens, hdocs⟩ := hrest
    have hcost : cost + m.unit_price * c.planned_consumption
        + rawCostOf db.materials rest
        = cost + rawCostOf db.materials (c :: rest) := by
      simp only [rawCostOf, List.map_cons, ratSum, filter_single_find? hm]
      ring
    refine ⟨db', by rw [hok, hcost], ?_, ?_, ?_,
      SameDocs.trans ⟨rfl, rfl, rfl, rfl, rfl, rfl, rfl, rfl⟩ hdocs⟩
    · intro m'
      rw [hmats m']
      have hpf : ∀ x : StockItem, rawStockPred c.raw_material_id { x with quantity := x.quantity - c.planned_consumption } = rawStockPred c.raw_material_id x := fun x => rfl
      by_cases hmm : c.raw_material_id = m'
      · subst hmm
        show ratSum (List.map _ ((updateFirst _ _ db.stocks).filter _)) - _ = _
        rw [filterMapSum_updateFirst_find (fun s => s.quantity)
          (fun s => { s with quantity := s.quantity - c.planned_consumption })
          (filter_single_find? hr) ((hpf _).trans (List.find?_some (filter_single_find? hr)))]
        simp only [onHandMatAll, consumedOf, List.map_cons, ratSum,
          eq_self_iff_true, if_true]
        ring
      · have hdisj : ∀ x : StockItem, rawStockPred c.raw_material_id x = true →
            rawStockPred m' x = false := by
          intro x hx
          simp only [rawStockPred, rawStockPredOpt, Bool.and_eq_true,
            decide_eq_true_eq] at hx
          simp [rawStockPred, rawStockPredOpt, hx.1, hmm]
        show ratSum (List.map _ ((updateFirst _ _ db.stocks).filter _)) - _ = _
        rw [filter_updateFirst_of_preserved
          (fun s => { s with quantity := s.quantity - c.planned_consumption })
          (fun x => rfl) db.stocks (fun x hx hpx => hdisj x hpx)]
        simp only [onHandMatAll, consumedOf, List.map_cons, ratSum, hmm,
          Bool.false_eq_true, if_false]
        ring
    · intro p
      rw [hprods p]
      have hdisj : ∀ x : StockItem, rawStockPred c.raw_material_id x = true →
          prodAnyShopPred p x = false := by
        intro x hx
        simp only [rawStockPred, rawStockPredOpt, Bool.and_eq_true,
          decide_eq_true_eq] at hx
        simp [prodAnyShopPred, hx.2]
      show ratSum (List.map _ ((updateFirst _ _ db.stocks).filter _)) = _
      rw [filter_updateFirst_of_preserved
        (fun s => { s with quantity := s.quantity - c.planned_consumption })
        (fun x => rfl) db.stocks (fun x hx hpx => hdisj x hpx)]
      rfl
    · intro p
      rw [hlens p]
      exact filter_length_updateFirst (rawStockPred c.raw_material_id)
        (prodAnyShopPred p)
        (fun s => { s with quantity := s.quantity - c.planned_consumption })
        (fun x => rfl) db.stocks

/-- Effect of a committed production-add loop: each product's total on-hand
(over all shops) grows by its planned quantity — creating the row at shop 1
when the product had none — raw materials are untouched, and the document
tables are unchanged. -/
theorem addProducts_spec (rid : Nat) :
    ∀ (ls : List ProductionLine) (db : DBState),
      (∀ l ∈ ls, (db.stocks.filter (prodAnyShopPred l.product_id)).length ≤ 1) →
      ∃ db', addProducts rid ls db = Except.ok db' ∧
        (∀ p, onHandProdAll db' p = onHandProdAll db p + producedOf ls p) ∧
        (∀ m, onHandMatAll db' m = onHandMatAll db m) ∧
        SameDocs db db'
  | [], db, _ => by
    refine ⟨db, rfl, ?_, fun m => rfl, SameDocs.rfl⟩
    intro p
    simp [producedOf, ratSum]
  | l :: rest, db, hlen => by
    rcases hc : db.stocks.filter (prodAnyShopPred l.product_id) with _ | ⟨r, rest2⟩
    · have honeP : scalarOneOrNone (prodAnyShopPred l.product_id) db.stocks
          = Except.ok none := scalarOneOrNone_eq_none.mpr hc
      simp only [addProducts, honeP]
      have hfnone : db.stocks.find? (prodAnyShopPred l.product_id) = none := by
        apply List.find?_eq_none.mpr
        intro x hx
        have := List.filter_eq_nil_iff.mp hc x hx
        simpa using this
      obtain ⟨db', hok, hprods, hmats, hdocs⟩ := addProducts_spec rid rest
        { db with stocks := db.stocks ++ [{ shop_id := 1, item_type := ItemType.product, product_id := some l.product_id, raw_material_id := none, quantity := l.planned_quantity, reserved_quantity := 0, min_stock_level := 10 }], movements := db.movements ++ [{ shop_id := 1, item_type := ItemType.product, product_id := some l.product_id, raw_material_id := none, quantity := l.planned_quantity, reason := MovementReason.productionAdd, reference_id := some rid, reference_type := some "production_run", notes := none }] }
        (fun l' hl' => by
          show ((db.stocks ++ [_]).filter (prodAnyShopPred l'.product_id)).length ≤ 1
          rw [List.filter_append, List.length_append]
          by_cases hpp : l'.product_id = l.product_id
          · have h0 : (db.stocks.filter (prodAnyShopPred l'.product_id)).length = 0 := by
              rw [hpp, hc]
              rfl
            rw [h0]
            simp [prodAnyShopPred, hpp]
          · have h1 : (List.filter (prodAnyShopPred l'.product_id) [({ shop_id := 1, item_type := ItemType.product, product_id := some l.product_id, raw_material_id := none, quantity := l.planned_quantity, reserved_quantity := 0, min_stock_level := 10 } : StockItem)]).length = 0 := by
              rw [List.length_eq_zero]
              apply List.filter_eq_nil_iff.mpr
              intro x hx
              cases List.mem_singleton.mp hx
              simp [prodAnyShopPred]
              exact fun h => hpp h.symm
            rw [h1]
            simpa using hlen l' (by simp [hl']))
      refine ⟨db', hok, ?_, ?_, SameDocs.trans ⟨rfl, rfl, rfl, rfl, rfl, rfl, rfl, rfl⟩ hdocs⟩
      · intro p
        rw [hprods p]
        simp only [onHandProdAll, producedOf, List.map_cons, ratSum]
        by_cases hpp : l.product_id = p
        · subst hpp
          rw [filterSum_append_new hfnone (by simp [prodAnyShopPred])]
          rw [if_pos rfl]
          ring
        · rw [List.filter_append, List.filter_cons_of_neg (by
            simp [prodAnyShopPred]
            exact hpp),
            List.filter_nil, List.append_nil, if_neg hpp]
          ring
      · intro m
        rw [hmats m]
        simp only [onHandMatAll]
        rw [List.filter_append, List.filter_cons_of_neg (by
          simp [rawStockPred, rawStockPredOpt]), List.filter_nil, List.append_nil]
    · have hr2 : rest2 = [] := by
        have := hlen l (by simp)
        rw [hc] at this
        simpa using this
      subst hr2
      have honeP : scalarOneOrNone (prodAnyShopPred l.product_id) db.stocks
          = Except.ok (some r) := scalarOneOrNone_eq_some.mpr hc
      simp only [addProducts, honeP]
      have hpfP : ∀ x : StockItem, prodAnyShopPred l.product_id { x with quantity := x.quantity + l.planned_quantity } = prodAnyShopPred l.product_id x := fun x => rfl
      obtain ⟨db', hok, hprods, hmats, hdocs⟩ := addProducts_spec rid rest
        { db with stocks := updateFirst (prodAnyShopPred l.product_id) (fun s => { s with quantity := s.quantity + l.planned_quantity }) db.stocks, movements := db.movements ++ [{ shop_id := 1, item_type := ItemType.product, product_id := some l.product_id, raw_material_id := none, quantity := l.planned_quantity, reason := MovementReason.productionAdd, reference_id := some rid, reference_type := some "production_run", notes := none }] }
        (fun l' hl' => by
          have := filter_length_updateFirst (prodAnyShopPred l.product_id)
            (prodAnyShopPred l'.product_id)
            (fun s => { s with quantity := s.quantity + l.planned_quantity })
            (fun x => rfl) db.stocks
          exact this.trans_le (hlen l' (by simp [hl'])))
      refine ⟨db', hok, ?_, ?_, SameDocs.trans ⟨rfl, rfl, rfl, rfl, rfl, rfl, rfl, rfl⟩ hdocs⟩
      · intro p
        rw [hprods p]
        simp only [onHandProdAll, producedOf, List.map_cons, ratSum]
        by_cases hpp : l.product_id = p
        · subst hpp
          rw [filterMapSum_updateFirst_find (fun s => s.quantity)
            (fun s => { s with quantity := s.quantity + l.planned_quantity })
            (filter_single_find? hc)
            ((hpfP _).trans (List.find?_some (filter_single_find? hc)))]
          rw [if_pos rfl]
          ring
        · have hdisj : ∀ x : StockItem, prodAnyShopPred l.product_id x = true →
              prodAnyShopPred p x = false := by
            intro x hx
            simp only [prodAnyShopPred, Bool.and_eq_true, decide_eq_true_eq] at hx
            simp [prodAnyShopPred, hx.1, hpp]
          rw [filter_updateFirst_of_preserved
            (fun s => { s with quantity := s.quantity + l.planned_quantity })
            (fun x => rfl) db.stocks (fun x hx hpx => hdisj x hpx), if_neg hpp]
          ring
      · intro m
        rw [hmats m]
        simp only [onHandMatAll]
        have hdisj : ∀ x : StockItem, prodAnyShopPred l.product_id x = true →
            rawStockPred m x = false := by
          intro x hx
          simp only [prodAnyShopPred, Bool.and_eq_true, decide_eq_true_eq] at hx
          simp [rawStockPred, rawStockPredOpt, hx.2]
        rw [filter_updateFirst_of_preserved
          (fun s => { s with quantity := s.quantity + l.planned_quantity })
          (fun x => rfl) db.stocks (fun x hx hpx => hdisj x hpx)]

/-! ### Claim C1 -/

/-- C1, counterexample.  The claim states that an adjustment whose delta
would make the on-hand quantity negative fails with `InsufficientStockError`
and leaves the quantity unchanged.  On the code it is false: adjusting the
position (shop 1, product 1, quantity 5, reserved 0) by -10 commits
successfully and leaves the on-hand quantity at -5. -/
theorem C1_counterexample :
    (0 ≤ c1row.reserved_quantity ∧ c1row.reserved_quantity ≤ c1row.quantity) ∧
    isOkE (adjust_stock c1req c1db) = true ∧
    onHand (okD (adjust_stock c1req c1db)) (prodKey 1 1) = -5 := by
  refine ⟨⟨by norm_num [c1row], by norm_num [c1row]⟩, ?_, ?_⟩ <;>
    norm_num [c1req, c1db, c1row, emptyDB, adjust_stock, adjustPred, truthy,
      updateFirst, onHand, okD, isOkE, keyQty, stockKey, prodKey, ratSum,
      List.find?]

/-- C1, amended: a stock adjustment applied to an existing position never
fails with `InsufficientStockError` — the only failure the route can produce
is a 404 for a missing position.  On an existing position it commits
unconditionally, setting `quantity := quantity + delta` (even when the
result is negative) and appending exactly one movement carrying the delta;
no non-negativity or availability check of any kind is performed. -/
theorem C1_adjust_applies_delta_unconditionally
    (req : StockAdjustmentRequest) (db : DBState) :
    (∀ e, adjust_stock req db = Except.error e → e = ApiError.stockNotFound) ∧
    (∀ r, db.stocks.find?
        (adjustPred req.shop_id req.item_type req.product_id req.raw_material_id)
        = some r →
      isOkE (adjust_stock req db) = true ∧
      ∃ l₁ l₂ mv, db.stocks = l₁ ++ r :: l₂ ∧
        (okD (adjust_stock req db)).stocks
          = l₁ ++ { r with quantity := r.quantity + req.quantity } :: l₂ ∧
        (okD (adjust_stock req db)).movements = db.movements ++ [mv] ∧
        mv.quantity = req.quantity ∧ mv.reason = req.reason ∧
        mv.shop_id = req.shop_id) := by
  constructor
  · intro e he
    simp only [adjust_stock] at he
    rcases hf : db.stocks.find?
        (adjustPred req.shop_id req.item_type req.product_id req.raw_material_id)
      with _ | r
    · rw [hf] at he
      injection he with h
      exact h.symm
    · rw [hf] at he
      cases he
  · intro r hr
    obtain ⟨l₁, l₂, hdec, hpr, h₁⟩ := find?_eq_some_decomp hr
    have hstep : adjust_stock req db = Except.ok { db with
        stocks := updateFirst
          (adjustPred req.shop_id req.item_type req.product_id req.raw_material_id)
          (fun s => { s with quantity := s.quantity + req.quantity }) db.stocks
      , movements := db.movements ++
          [{ shop_id := req.shop_id, item_type := req.item_type
           , product_id := req.product_id, raw_material_id := req.raw_material_id
           , quantity := req.quantity, reason := req.reason
           , reference_id := none, reference_type := none, notes := req.notes }] } := by
      simp only [adjust_stock, hr]
    rw [hstep]
    refine ⟨rfl, l₁, l₂, _, ?_, ?_, rfl, rfl, rfl, rfl⟩
    · exact hdec
    · show updateFirst _ _ db.stocks = _
      rw [hdec]
      exact updateFirst_append l₂ _ h₁ hpr

/-- C1, witness: both parts of the amended theorem at concrete inputs — the
404 on an empty database, and the unconditional delta application on the
5-on-hand position adjusted by -10. -/
theorem C1_adjust_applies_delta_unconditionally_witness :
    ApiError.stockNotFound = ApiError.stockNotFound ∧
    (isOkE (adjust_stock c1req c1db) = true ∧
      ∃ l₁ l₂ mv, c1db.stocks = l₁ ++ c1row :: l₂ ∧
        (okD (adjust_stock c1req c1db)).stocks
          = l₁ ++ { c1row with quantity := c1row.quantity + c1req.quantity } :: l₂ ∧
        (okD (adjust_stock c1req c1db)).movements = c1db.movements ++ [mv] ∧
        mv.quantity = c1req.quantity ∧ mv.reason = c1req.reason ∧
        mv.shop_id = c1req.shop_id) :=
  ⟨(C1_adjust_applies_delta_unconditionally c1req emptyDB).1 ApiError.stockNotFound rfl,
   (C1_adjust_applies_delta_unconditionally c1req c1db).2 c1row rfl⟩

/-! ### Claim C6 -/

/-- C6: invoking completion on a production run that is not in PLANNED
status fails with the InvalidStateError (HTTP 400) and, the transaction
aborting, no ledger state changes (an error result models a full rollback);
receiving a transfer that is not PENDING likewise fails with a 400; and
since a successful completion sets COMPLETED and a successful receive sets
RECEIVED, completing a run twice or receiving a transfer twice fails on the
second call. -/
theorem C6_invalid_state_conflicts :
    (∀ (db : DBState) (rid : Nat) (run : ProductionRun),
      db.runs.filter (fun r : ProductionRun => decide (r.id = rid)) = [run] →
      run.status ≠ ProductionStatus.planned →
      complete_production_run rid db = Except.error ApiError.notPlanned) ∧
    (∀ (db : DBState) (tid : Nat) (t : Transfer),
      db.transfers.filter (fun x : Transfer => decide (x.id = tid)) = [t] →
      t.status ≠ TransferStatus.pending →
      receive_transfer tid db = Except.error ApiError.notPending) ∧
    (∀ (db : DBState) (rid : Nat) (run : ProductionRun) (db' : DBState),
      db.runs.filter (fun r : ProductionRun => decide (r.id = rid)) = [run] →
      complete_production_run rid db = Except.ok db' →
      complete_production_run rid db' = Except.error ApiError.notPlanned) ∧
    (∀ (db : DBState) (tid : Nat) (t : Transfer) (db' : DBState),
      db.transfers.filter (fun x : Transfer => decide (x.id = tid)) = [t] →
      receive_transfer tid db = Except.ok db' →
      receive_transfer tid db' = Except.error ApiError.notPending) ∧
    ApiError.notPlanned.httpStatus = 400 ∧ ApiError.notPending.httpStatus = 400 := by
  refine ⟨?_, ?_, ?_, ?_, rfl, rfl⟩
  · intro db rid run hf hs
    exact complete_run_not_planned hf hs
  · intro db tid t hf hs
    exact receive_not_pending hf hs
  · intro db rid run db' hf h
    obtain ⟨run', hf', hs'⟩ := complete_run_sets_completed hf h
    refine complete_run_not_planned hf' ?_
    rw [hs']
    intro hc
    cases hc
  · intro db tid t db' hf h
    have hf' := receive_sets_received hf h
    refine receive_not_pending hf' ?_
    intro hc
    cases hc

/-- C6, witness: a COMPLETED run and a RECEIVED transfer reject their
workflow with the 400s, and a PLANNED run / PENDING transfer processed once
reject the second invocation. -/
theorem C6_invalid_state_conflicts_witness :
    complete_production_run 5 c6db = Except.error ApiError.notPlanned ∧
    receive_transfer 7 c6db = Except.error ApiError.notPending ∧
    complete_production_run 5 (okD (complete_production_run 5 c6db2))
      = Except.error ApiError.notPlanned ∧
    receive_transfer 7 (okD (receive_transfer 7 c6db2))
      = Except.error ApiError.notPending :=
  ⟨C6_invalid_state_conflicts.1 c6db 5 c6run rfl (by decide),
   C6_invalid_state_conflicts.2.1 c6db 7 c6transfer rfl (by decide),
   C6_invalid_state_conflicts.2.2.1 c6db2 5 c6run2 _ rfl (okD_spec rfl),
   C6_invalid_state_conflicts.2.2.2.1 c6db2 7 c6transfer2 _ rfl (okD_spec rfl)⟩

/-! ### Claim C10 -/

/-- C10: a sale-creation request that passes the duplicate-number check and
the availability pre-check commits a sale with
`final_amount = total_amount - discount_amount` where `total_amount` is the
sum of `quantity * unit_price` over the lines, and status COMPLETED.  No
lower bound of any kind is applied to `final_amount`; the witness exhibits a
committed sale with `final_amount = -50`. -/
theorem C10_sale_final_amount_unbounded (req : SaleCreate) (db : DBState)
    (hfresh : ∀ s ∈ db.sales, s.sale_number ≠ req.sale_number)
    (hcheck : checkSaleLines req.shop_id db.stocks req.sale_lines
      = Except.ok Unit.unit) :
    ∃ db' s, create_sale req db = Except.ok db' ∧ db'.sales = db.sales ++ [s] ∧
      s.total_amount = ratSum (req.sale_lines.map (fun l => l.quantity * l.unit_price)) ∧
      s.discount_amount = req.discount_amount ∧
      s.final_amount = s.total_amount - req.discount_amount ∧
      s.status = SaleStatus.completed := by
  have hany : db.sales.any (fun s => decide (s.sale_number = req.sale_number)) = false := by
    simp only [List.any_eq_false, decide_eq_true_eq]
    exact fun s hs => hfresh s hs
  simp only [create_sale, hany, Bool.false_eq_true, if_false, hcheck]
  obtain ⟨db', hok⟩ := applySaleLines_ok req.sale_lines { db with nextId := db.nextId + 1, sales := db.sales ++ [{ id := db.nextId, sale_number := req.sale_number, shop_id := req.shop_id, total_amount := ratSum (req.sale_lines.map (fun l => l.quantity * l.unit_price)), discount_amount := req.discount_amount, final_amount := ratSum (req.sale_lines.map (fun l => l.quantity * l.unit_price)) - req.discount_amount, status := SaleStatus.completed, lines := req.sale_lines }] } (fun l hl => checkSaleLines_singleton hcheck l hl)
  refine ⟨db', { id := db.nextId, sale_number := req.sale_number, shop_id := req.shop_id, total_amount := ratSum (req.sale_lines.map (fun l => l.quantity * l.unit_price)), discount_amount := req.discount_amount, final_amount := ratSum (req.sale_lines.map (fun l => l.quantity * l.unit_price)) - req.discount_amount, status := SaleStatus.completed, lines := req.sale_lines }, hok, ?_, rfl, rfl, rfl, rfl⟩
  exact (applySaleLines_sameDocs _ _ _ hok).2.1

/-- C10, witness: selling 2 units at price 25 with discount 100 from a
10-on-hand position commits a COMPLETED sale whose final amount is the
negative value -50. -/
theorem C10_sale_final_amount_unbounded_witness :
    (∃ db' s, create_sale c10req c10db = Except.ok db' ∧
      db'.sales = c10db.sales ++ [s] ∧
      s.total_amount = ratSum (c10req.sale_lines.map (fun l => l.quantity * l.unit_price)) ∧
      s.discount_amount = c10req.discount_amount ∧
      s.final_amount = s.total_amount - c10req.discount_amount ∧
      s.status = SaleStatus.completed) ∧
    (okD (create_sale c10req c10db)).sales.map (fun s => s.final_amount) = [-50] :=
  ⟨C10_sale_final_amount_unbounded c10req c10db
      (by intro s hs; simp [c10db, emptyDB] at hs)
      (by norm_num [checkSaleLines, scalarOneOrNone, c10db, c10row, c10req,
        emptyDB, prodStockPred, List.filter]),
   by norm_num [create_sale, c10req, c10db, c10row, emptyDB, checkSaleLines,
     applySaleLines, scalarOneOrNone, prodStockPred, updateFirst, okD,
     ratSum, List.filter]⟩

/-! ### Claim C5 -/

/-- C5: against a shop's product position with available quantity
a = quantity - reserved (its unique stock row), a sale-creation request all
of whose lines ask for at most a commits, deducts the requested total from
the position's on-hand quantity and appends the sale, while a request any of
whose lines asks for strictly more than a — even by 0.001, as the witness
shows — fails with InsufficientStockError (409) reporting the available and
requested amounts.  The failure comes from the pre-check phase, which runs
before any write; an error result models the rolled-back transaction, so
every stock position, movement record and sale is left unchanged. -/
theorem C5_sale_availability_boundary (req : SaleCreate) (db : DBState)
    (p : Nat) (row : StockItem)
    (hclean : ProdRowsClean db.stocks)
    (hrow : db.stocks.filter (prodStockPred req.shop_id p) = [row])
    (hlines : ∀ l ∈ req.sale_lines, l.product_id = p)
    (hfresh : ∀ s ∈ db.sales, s.sale_number ≠ req.sale_number) :
    ((∀ l ∈ req.sale_lines, l.quantity ≤ row.quantity - row.reserved_quantity) →
      ∃ db', create_sale req db = Except.ok db' ∧
        onHand db' (prodKey req.shop_id p)
          = onHand db (prodKey req.shop_id p)
            - ratSum (req.sale_lines.map (fun l => l.quantity)) ∧
        resSum db' (prodKey req.shop_id p) = resSum db (prodKey req.shop_id p) ∧
        ∃ s, db'.sales = db.sales ++ [s]) ∧
    ((∃ l ∈ req.sale_lines, row.quantity - row.reserved_quantity < l.quantity) →
      ∃ q₀, row.quantity - row.reserved_quantity < q₀ ∧
        create_sale req db = Except.error
          (ApiError.insufficientStock p (row.quantity - row.reserved_quantity) q₀) ∧
        (ApiError.insufficientStock p (row.quantity - row.reserved_quantity) q₀).httpStatus
          = 409) := by
  have hany : db.sales.any (fun s => decide (s.sale_number = req.sale_number)) = false := by
    simp only [List.any_eq_false, decide_eq_true_eq]
    exact fun s hs => hfresh s hs
  constructor
  · intro hle
    have hcheck := checkSaleLines_ok_of_le hrow req.sale_lines hlines hle
    simp only [create_sale, hany, Bool.false_eq_true, if_false, hcheck]
    obtain ⟨db', hok⟩ := applySaleLines_ok req.sale_lines { db with nextId := db.nextId + 1, sales := db.sales ++ [{ id := db.nextId, sale_number := req.sale_number, shop_id := req.shop_id, total_amount := ratSum (req.sale_lines.map (fun l => l.quantity * l.unit_price)), discount_amount := req.discount_amount, final_amount := ratSum (req.sale_lines.map (fun l => l.quantity * l.unit_price)) - req.discount_amount, status := SaleStatus.completed, lines := req.sale_lines }] } (fun l hl => by
      have hfl : (db.stocks.filter (prodStockPred req.shop_id l.product_id)).length = 1 := by
        rw [hlines l hl, hrow]
        rfl
      exact hfl)
    have hspec := applySaleLines_spec req.sale_lines _ db' hok hclean
    refine ⟨db', hok, ?_, ?_, ?_⟩
    · rw [hspec.2.1 (prodKey req.shop_id p),
        saleOutAt_single_product req.shop_id p req.sale_lines hlines]
      rfl
    · rw [hspec.2.2.1 (prodKey req.shop_id p)]
      rfl
    · exact ⟨_, (applySaleLines_sameDocs _ _ _ hok).2.1⟩
  · intro hex
    obtain ⟨q₀, hq₀, hcheck⟩ := checkSaleLines_first_fail hrow req.sale_lines hlines hex
    refine ⟨q₀, hq₀, ?_, rfl⟩
    simp only [create_sale, hany, Bool.false_eq_true, if_false, hcheck]

/-- C5, witness: with 10 on hand and 2 reserved (8 available), selling
exactly 8 commits and leaves on-hand 2, while selling 8.001 fails with
InsufficientStockError reporting available 8 against the requested 8.001. -/
theorem C5_sale_availability_boundary_witness :
    (∃ db', create_sale c5reqA c5db = Except.ok db' ∧
      onHand db' (prodKey c5reqA.shop_id 1)
        = onHand c5db (prodKey c5reqA.shop_id 1)
          - ratSum (c5reqA.sale_lines.map (fun l => l.quantity)) ∧
      resSum db' (prodKey c5reqA.shop_id 1) = resSum c5db (prodKey c5reqA.shop_id 1) ∧
      ∃ s, db'.sales = c5db.sales ++ [s]) ∧
    (∃ q₀, c5row.quantity - c5row.reserved_quantity < q₀ ∧
      create_sale c5reqB c5db = Except.error
        (ApiError.insufficientStock 1 (c5row.quantity - c5row.reserved_quantity) q₀) ∧
      (ApiError.insufficientStock 1 (c5row.quantity - c5row.reserved_quantity) q₀).httpStatus
        = 409) :=
  ⟨(C5_sale_availability_boundary c5reqA c5db 1 c5row
      (by intro s hs hty; simp [c5db, emptyDB, c5row] at hs; rw [hs])
      rfl
      (by intro l hl; simp [c5reqA] at hl; rw [hl])
      (by intro s hs; simp [c5db, emptyDB] at hs)).1
    (by intro l hl; simp [c5reqA] at hl; rw [hl]; norm_num [c5row]),
   (C5_sale_availability_boundary c5reqB c5db 1 c5row
      (by intro s hs hty; simp [c5db, emptyDB, c5row] at hs; rw [hs])
      rfl
      (by intro l hl; simp [c5reqB] at hl; rw [hl])
      (by intro s hs; simp [c5db, emptyDB] at hs)).2
    ⟨{ product_id := 1, quantity := 8 + 1/1000, unit_price := 10 }, by simp [c5reqB],
      by norm_num [c5row]⟩⟩

/-! ### Claim C9 -/

/-- C9: a return-creation request with a fresh return number commits; the
shop credited is the originating sale's shop when `sale_id` is given and the
sale exists, and the default warehouse (shop 1) otherwise (no `sale_id`, or
a dangling one); that shop's stock of the returned product increases by the
returned quantity, creating the position if absent; exactly one RETURN
movement of +quantity is appended; and the return document's total equals
quantity * unit price. -/
theorem C9_return_credits_origin_shop (req : ReturnCreate) (db : DBState)
    (hfresh : ∀ r ∈ db.returns, r.return_number ≠ req.return_number) :
    ∃ db' mv doc, create_return req db = Except.ok db' ∧
      db'.movements = db.movements ++ [mv] ∧
      mv.reason = MovementReason.saleReturn ∧ mv.quantity = req.quantity ∧
      mv.item_type = ItemType.product ∧ mv.product_id = some req.product_id ∧
      (∀ sid sale, req.sale_id = some sid →
        db.sales.find? (fun s => decide (s.id = sid)) = some sale →
        mv.shop_id = sale.shop_id) ∧
      (req.sale_id = none → mv.shop_id = 1) ∧
      (∀ sid, req.sale_id = some sid →
        db.sales.find? (fun s => decide (s.id = sid)) = none → mv.shop_id = 1) ∧
      onHandAt db' mv.shop_id req.product_id
        = onHandAt db mv.shop_id req.product_id + req.quantity ∧
      db'.returns = db.returns ++ [doc] ∧
      doc.total_amount = req.quantity * req.unit_price := by
  have hany : db.returns.any (fun r => decide (r.return_number = req.return_number))
      = false := by
    simp only [List.any_eq_false, decide_eq_true_eq]
    exact fun r hr => hfresh r hr
  simp only [create_return, hany, Bool.false_eq_true, if_false]
  rcases hf : db.stocks.find?
      (prodStockPred (returnShop db req.sale_id) req.product_id) with _ | r
  · refine ⟨_, _, _, rfl, rfl, rfl, rfl, rfl, rfl, ?_, ?_, ?_, ?_, rfl, rfl⟩
    · intro sid sale hsid hfind
      simp [returnShop, hsid, hfind]
    · intro hnone
      simp [returnShop, hnone]
    · intro sid hsid hfind
      simp [returnShop, hsid, hfind]
    · show ratSum (List.map _ (List.filter _ (db.stocks ++ [_]))) = _
      rw [filterSum_append_new hf (by simp [prodStockPred])]
      rfl
  · refine ⟨_, _, _, rfl, rfl, rfl, rfl, rfl, rfl, ?_, ?_, ?_, ?_, rfl, rfl⟩
    · intro sid sale hsid hfind
      simp [returnShop, hsid, hfind]
    · intro hnone
      simp [returnShop, hnone]
    · intro sid hsid hfind
      simp [returnShop, hsid, hfind]
    · show ratSum (List.map _ (List.filter _ (updateFirst _ _ db.stocks))) = _
      have hpr : prodStockPred (returnShop db req.sale_id) req.product_id r = true :=
        List.find?_some hf
      rw [filterSum_updateFirst_find
        (fun s => { s with quantity := s.quantity + req.quantity }) hf hpr]
      show _ - r.quantity + (r.quantity + req.quantity) = _ + req.quantity
      simp only [onHandAt]
      ring

/-- C9, witness: a return of 2 units of product 2, tied to a sale at shop 3
whose stock is 15, credits shop 3 and brings its stock to 17. -/
theorem C9_return_credits_origin_shop_witness :
    (∃ db' mv doc, create_return c9req c9db = Except.ok db' ∧
      db'.movements = c9db.movements ++ [mv] ∧
      mv.reason = MovementReason.saleReturn ∧ mv.quantity = c9req.quantity ∧
      mv.item_type = ItemType.product ∧ mv.product_id = some c9req.product_id ∧
      (∀ sid sale, c9req.sale_id = some sid →
        c9db.sales.find? (fun s => decide (s.id = sid)) = some sale →
        mv.shop_id = sale.shop_id) ∧
      (c9req.sale_id = none → mv.shop_id = 1) ∧
      (∀ sid, c9req.sale_id = some sid →
        c9db.sales.find? (fun s => decide (s.id = sid)) = none → mv.shop_id = 1) ∧
      onHandAt db' mv.shop_id c9req.product_id
        = onHandAt c9db mv.shop_id c9req.product_id + c9req.quantity ∧
      db'.returns = c9db.returns ++ [doc] ∧
      doc.total_amount = c9req.quantity * c9req.unit_price) ∧
    onHandAt (okD (create_return c9req c9db)) 3 2 = 17 :=
  ⟨C9_return_credits_origin_shop c9req c9db
      (by intro r hr; simp [c9db, emptyDB] at hr),
   by norm_num [create_return, c9req, c9db, c9row, c9sale, emptyDB, returnShop,
     okD, onHandAt, prodStockPred, updateFirst, ratSum, List.filter, List.find?]⟩

/-! ### Claim C4 -/

/-- C4, counterexample.  The claim states that after creating a transfer of
8 units from a source holding 30 on hand (0 reserved), the source position
shows on-hand 22.  On the code it is false: transfer creation only
increments `reserved_quantity`; after the create commit the source still
shows 30 on hand with 8 reserved. -/
theorem C4_counterexample :
    isOkE (create_transfer c4req c4db) = true ∧
    onHandAt (okD (create_transfer c4req c4db)) 1 1 = 30 ∧
    reservedAt (okD (create_transfer c4req c4db)) 1 1 = 8 := by
  refine ⟨?_, ?_, ?_⟩ <;>
    norm_num [c4req, c4db, c4row, emptyDB, create_transfer, checkTransferLines,
      reserveTransferLines, scalarOneOrNone, prodStockPred, updateFirst,
      onHandAt, reservedAt, okD, isOkE, ratSum, List.filter]

/-- C4, amended: creating a transfer of q units of product p from a source
shop whose unique position holds s on hand with 0 reserved (s ≥ q) does not
deduct on-hand at create time: after the create commit the source still
shows on-hand s with reserved q, and a TRANSFER_OUT movement of -q is
recorded at the source; after the receive commit the source shows on-hand
s - q with reserved 0, and the destination's on-hand increases by q. -/
theorem C4_transfer_reserves_without_deducting (req : TransferCreate)
    (db : DBState) (p : Nat) (l : TransferLine) (row : StockItem)
    (hlines : req.transfer_lines = [l])
    (hlp : l.product_id = p)
    (hrow : db.stocks.filter (prodStockPred req.from_shop_id p) = [row])
    (hres0 : row.reserved_quantity = 0)
    (hq : l.quantity ≤ row.quantity)
    (hfresh : ∀ t ∈ db.transfers, t.transfer_number ≠ req.transfer_number)
    (hid : ∀ t ∈ db.transfers, t.id ≠ db.nextId)
    (hdest : (db.stocks.filter (prodStockPred req.to_shop_id p)).length ≤ 1)
    (hshops : req.from_shop_id ≠ req.to_shop_id) :
    ∃ db₁, create_transfer req db = Except.ok db₁ ∧
      onHandAt db₁ req.from_shop_id p = row.quantity ∧
      reservedAt db₁ req.from_shop_id p = l.quantity ∧
      (∃ mv, db₁.movements = db.movements ++ [mv] ∧
        mv.quantity = -l.quantity ∧ mv.reason = MovementReason.transferOut ∧
        mv.shop_id = req.from_shop_id) ∧
      (∃ db₂, receive_transfer db.nextId db₁ = Except.ok db₂ ∧
        onHandAt db₂ req.from_shop_id p = row.quantity - l.quantity ∧
        reservedAt db₂ req.from_shop_id p = 0 ∧
        onHandAt db₂ req.to_shop_id p
          = onHandAt db req.to_shop_id p + l.quantity) := by
  subst hlp
  have hany : db.transfers.any
      (fun t => decide (t.transfer_number = req.transfer_number)) = false := by
    simp only [List.any_eq_false, decide_eq_true_eq]
    exact fun t ht => hfresh t ht
  have hone : scalarOneOrNone (prodStockPred req.from_shop_id l.product_id) db.stocks
      = Except.ok (some row) := scalarOneOrNone_eq_some.mpr hrow
  have hnl : ¬(row.quantity - row.reserved_quantity < l.quantity) := by
    rw [hres0, sub_zero]
    exact not_lt.mpr hq
  have hpr : prodStockPred req.from_shop_id l.product_id row = true :=
    (filter_single_decomp hrow).choose_spec.choose_spec.2.1
  have hdisjFT : ∀ x : StockItem,
      prodStockPred req.from_shop_id l.product_id x = true →
      prodStockPred req.to_shop_id l.product_id x = false := by
    intro x hx
    simp only [prodStockPred, Bool.and_eq_true, decide_eq_true_eq] at hx
    obtain ⟨⟨hsh, hpid⟩, hty⟩ := hx
    simp [prodStockPred, hsh, hshops]
  simp only [create_transfer, hany, Bool.false_eq_true, if_false, hlines,
    checkTransferLines, hone, hnl, if_false, reserveTransferLines]
  refine ⟨_, rfl, ?_, ?_, ?_, ?_⟩
  · simp only [onHandAt]
    rw [filterMapSum_updateFirst_find (fun s => s.quantity)
      (fun s => { s with reserved_quantity := s.reserved_quantity + l.quantity })
      (filter_single_find? hrow) (by exact hpr), hrow]
    simp [ratSum]
  · simp only [reservedAt]
    rw [filterMapSum_updateFirst_find (fun s => s.reserved_quantity)
      (fun s => { s with reserved_quantity := s.reserved_quantity + l.quantity })
      (filter_single_find? hrow) (by exact hpr), hrow]
    simp [ratSum, hres0]
  · exact ⟨_, rfl, rfl, rfl, rfl⟩
  · have hdisjTF : ∀ x : StockItem,
        prodStockPred req.to_shop_id l.product_id x = true →
        prodStockPred req.from_shop_id l.product_id x = false := by
      intro x hx
      simp only [prodStockPred, Bool.and_eq_true, decide_eq_true_eq] at hx
      obtain ⟨⟨hsh, hpid⟩, hty⟩ := hx
      simp [prodStockPred, hsh, Ne.symm hshops]
    have hTfilter : (db.transfers ++ [({ id := db.nextId, transfer_number := req.transfer_number, from_shop_id := req.from_shop_id, to_shop_id := req.to_shop_id, status := TransferStatus.pending, lines := [l] } : Transfer)]).filter (fun t : Transfer => decide (t.id = db.nextId)) = [{ id := db.nextId, transfer_number := req.transfer_number, from_shop_id := req.from_shop_id, to_shop_id := req.to_shop_id, status := TransferStatus.pending, lines := [l] }] := by
      rw [List.filter_append, List.filter_eq_nil_iff.mpr (fun t ht => by simpa using hid t ht)]
      simp
    have honeT := scalarOneOrNone_eq_some.mpr hTfilter
    have hrow1 : (updateFirst (prodStockPred req.from_shop_id l.product_id) (fun s => { s with reserved_quantity := s.reserved_quantity + l.quantity }) db.stocks).filter (prodStockPred req.from_shop_id l.product_id) = [{ row with reserved_quantity := row.reserved_quantity + l.quantity }] :=
      filter_updateFirst_single _ hrow (by exact hpr)
    have honeS := scalarOneOrNone_eq_some.mpr hrow1
    have hS1to : (updateFirst (prodStockPred req.from_shop_id l.product_id) (fun s => { s with reserved_quantity := s.reserved_quantity + l.quantity }) db.stocks).filter (prodStockPred req.to_shop_id l.product_id) = db.stocks.filter (prodStockPred req.to_shop_id l.product_id) :=
      filter_updateFirst_of_preserved (fun s => { s with reserved_quantity := s.reserved_quantity + l.quantity }) (fun x => rfl) db.stocks (fun x hx hpx => hdisjFT x hpx)
    have hS2to : (updateFirst (prodStockPred req.from_shop_id l.product_id) (fun s => { s with quantity := s.quantity - l.quantity, reserved_quantity := s.reserved_quantity - l.quantity }) (updateFirst (prodStockPred req.from_shop_id l.product_id) (fun s => { s with reserved_quantity := s.reserved_quantity + l.quantity }) db.stocks)).filter (prodStockPred req.to_shop_id l.product_id) = (updateFirst (prodStockPred req.from_shop_id l.product_id) (fun s => { s with reserved_quantity := s.reserved_quantity + l.quantity }) db.stocks).filter (prodStockPred req.to_shop_id l.product_id) :=
      filter_updateFirst_of_preserved (fun s => { s with quantity := s.quantity - l.quantity, reserved_quantity := s.reserved_quantity - l.quantity }) (fun x => rfl) _ (fun x hx hpx => hdisjFT x hpx)
    have hfindS : (updateFirst (prodStockPred req.from_shop_id l.product_id) (fun s => { s with reserved_quantity := s.reserved_quantity + l.quantity }) db.stocks).find? (prodStockPred req.from_shop_id l.product_id) = some { row with reserved_quantity := row.reserved_quantity + l.quantity } :=
      filter_single_find? hrow1
    have hpfS : ∀ x : StockItem, prodStockPred req.from_shop_id l.product_id { x with quantity := x.quantity - l.quantity, reserved_quantity := x.reserved_quantity - l.quantity } = prodStockPred req.from_shop_id l.product_id x := fun x => rfl
    have hpfD : ∀ x : StockItem, prodStockPred req.to_shop_id l.product_id { x with quantity := x.quantity + l.quantity } = prodStockPred req.to_shop_id l.product_id x := fun x => rfl
    rcases hcase : db.stocks.filter (prodStockPred req.to_shop_id l.product_id) with _ | ⟨d, rest⟩
    · have honeD : scalarOneOrNone (prodStockPred req.to_shop_id l.product_id) (updateFirst (prodStockPred req.from_shop_id l.product_id) (fun s => { s with quantity := s.quantity - l.quantity, reserved_quantity := s.reserved_quantity - l.quantity }) (updateFirst (prodStockPred req.from_shop_id l.product_id) (fun s => { s with reserved_quantity := s.reserved_quantity + l.quantity }) db.stocks)) = Except.ok none :=
        scalarOneOrNone_eq_none.mpr (by rw [hS2to, hS1to, hcase])
      simp only [receive_transfer, honeT, eq_self_iff_true, if_true,
        receiveTransferLines, receiveTransferLine, honeS, honeD]
      refine ⟨_, rfl, ?_, ?_, ?_⟩
      · simp only [onHandAt, List.filter_append]
        rw [List.filter_cons_of_neg (by simp [prodStockPred, Ne.symm hshops])]
        simp only [List.filter_nil, List.append_nil]
        rw [filterMapSum_updateFirst_find (fun s => s.quantity) (fun s => { s with quantity := s.quantity - l.quantity, reserved_quantity := s.reserved_quantity - l.quantity }) hfindS ((hpfS _).trans (List.find?_some hfindS)), hrow1]
        simp [ratSum]
      · simp only [reservedAt, List.filter_append]
        rw [List.filter_cons_of_neg (by simp [prodStockPred, Ne.symm hshops])]
        simp only [List.filter_nil, List.append_nil]
        rw [filterMapSum_updateFirst_find (fun s => s.reserved_quantity) (fun s => { s with quantity := s.quantity - l.quantity, reserved_quantity := s.reserved_quantity - l.quantity }) hfindS ((hpfS _).trans (List.find?_some hfindS)), hrow1]
        simp [ratSum, hres0]
      · simp only [onHandAt, List.filter_append]
        rw [List.filter_cons_of_pos (by simp [prodStockPred]), hS2to, hS1to, hcase]
        simp [ratSum]
    · have hrest : rest = [] := by
        rw [hcase] at hdest
        simpa using hdest
      subst hrest
      have honeD : scalarOneOrNone (prodStockPred req.to_shop_id l.product_id) (updateFirst (prodStockPred req.from_shop_id l.product_id) (fun s => { s with quantity := s.quantity - l.quantity, reserved_quantity := s.reserved_quantity - l.quantity }) (updateFirst (prodStockPred req.from_shop_id l.product_id) (fun s => { s with reserved_quantity := s.reserved_quantity + l.quantity }) db.stocks)) = Except.ok (some d) :=
        scalarOneOrNone_eq_some.mpr (by rw [hS2to, hS1to, hcase])
      have hfindD : (updateFirst (prodStockPred req.from_shop_id l.product_id) (fun s => { s with quantity := s.quantity - l.quantity, reserved_quantity := s.reserved_quantity - l.quantity }) (updateFirst (prodStockPred req.from_shop_id l.product_id) (fun s => { s with reserved_quantity := s.reserved_quantity + l.quantity }) db.stocks)).find? (prodStockPred req.to_shop_id l.product_id) = some d :=
        filter_single_find? (by rw [hS2to, hS1to, hcase])
      simp only [receive_transfer, honeT, eq_self_iff_true, if_true,
        receiveTransferLines, receiveTransferLine, honeS, honeD]
      refine ⟨_, rfl, ?_, ?_, ?_⟩
      · simp only [onHandAt]
        rw [filter_updateFirst_of_preserved (fun s => { s with quantity := s.quantity + l.quantity }) (fun x => rfl) _ (fun x hx hpx => hdisjTF x hpx),
          filterMapSum_updateFirst_find (fun s => s.quantity) (fun s => { s with quantity := s.quantity - l.quantity, reserved_quantity := s.reserved_quantity - l.quantity }) hfindS ((hpfS _).trans (List.find?_some hfindS)), hrow1]
        simp [ratSum]
      · simp only [reservedAt]
        rw [filter_updateFirst_of_preserved (fun s => { s with quantity := s.quantity + l.quantity }) (fun x => rfl) _ (fun x hx hpx => hdisjTF x hpx),
          filterMapSum_updateFirst_find (fun s => s.reserved_quantity) (fun s => { s with quantity := s.quantity - l.quantity, reserved_quantity := s.reserved_quantity - l.quantity }) hfindS ((hpfS _).trans (List.find?_some hfindS)), hrow1]
        simp [ratSum, hres0]
      · simp only [onHandAt]
        rw [filterMapSum_updateFirst_find (fun s => s.quantity) (fun s => { s with quantity := s.quantity + l.quantity }) hfindD ((hpfD _).trans (List.find?_some hfindD)), hS2to, hS1to, hcase]
        simp [ratSum]

/-- C4, witness: the amended theorem at the concrete transfer of 8 units of
product 1 from shop 1 (30 on hand, 0 reserved) to shop 2. -/
theorem C4_transfer_reserves_without_deducting_witness :
    ∃ db₁, create_transfer c4req c4db = Except.ok db₁ ∧
      onHandAt db₁ c4req.from_shop_id 1 = c4row.quantity ∧
      reservedAt db₁ c4req.from_shop_id 1
        = (⟨1, 8, 5⟩ : TransferLine).quantity ∧
      (∃ mv, db₁.movements = c4db.movements ++ [mv] ∧
        mv.quantity = -(⟨1, 8, 5⟩ : TransferLine).quantity ∧
        mv.reason = MovementReason.transferOut ∧
        mv.shop_id = c4req.from_shop_id) ∧
      (∃ db₂, receive_transfer c4db.nextId db₁ = Except.ok db₂ ∧
        onHandAt db₂ c4req.from_shop_id 1
          = c4row.quantity - (⟨1, 8, 5⟩ : TransferLine).quantity ∧
        reservedAt db₂ c4req.from_shop_id 1 = 0 ∧
        onHandAt db₂ c4req.to_shop_id 1
          = onHandAt c4db c4req.to_shop_id 1 + (⟨1, 8, 5⟩ : TransferLine).quantity) :=
  C4_transfer_reserves_without_deducting c4req c4db 1 ⟨1, 8, 5⟩ c4row
    rfl rfl rfl rfl (by norm_num [c4row])
    (by intro t ht; simp [c4db, emptyDB] at ht)
    (by intro t ht; simp [c4db, emptyDB] at ht)
    (by decide) (by decide)

/-! ### Claim C7 -/

/-- C7: completing a PLANNED production run whose consumption checks all
pass (with well-formed reference data: each consumed material has a price
row and each produced product at most one stock row) deducts every
consumption's planned amount from that raw material's stock, adds every
line's planned quantity to the product's stock — creating the position if
absent — sets `total_cost` to the raw-material cost (unit price times
planned consumption, summed) plus labor plus overhead, sets
`actual_quantity := planned_quantity`, and sets status COMPLETED. -/
theorem C7_complete_production_run_effects (rid : Nat) (db : DBState)
    (run : ProductionRun)
    (hfrun : db.runs.filter (fun r : ProductionRun => decide (r.id = rid)) = [run])
    (hplanned : run.status = ProductionStatus.planned)
    (hcheck : checkConsumptions db.stocks run.consumptions = Except.ok Unit.unit)
    (hmat : ∀ c ∈ run.consumptions, ∃ m, db.materials.filter
      (fun m : RawMaterial => decide (m.id = c.raw_material_id)) = [m])
    (hprod : ∀ l ∈ run.lines,
      (db.stocks.filter (prodAnyShopPred l.product_id)).length ≤ 1) :
    ∃ db', complete_production_run rid db = Except.ok db' ∧
      (∀ m, onHandMatAll db' m = onHandMatAll db m - consumedOf run.consumptions m) ∧
      (∀ p, onHandProdAll db' p = onHandProdAll db p + producedOf run.lines p) ∧
      (∃ run', db'.runs.filter (fun r : ProductionRun => decide (r.id = rid)) = [run'] ∧
        run'.status = ProductionStatus.completed ∧
        run'.actual_quantity = some run.planned_quantity ∧
        run'.total_cost = some (rawCostOf db.materials run.consumptions
          + run.labor_cost + run.overhead_cost)) := by
  have honeR := scalarOneOrNone_eq_some.mpr hfrun
  obtain ⟨db1, hcons, hmats1, hprods1, hlens1, hdocs1⟩ :=
    consumeMaterials_spec rid run.consumptions db 0
      (fun c hc => checkConsumptions_singleton hcheck c hc) hmat
  obtain ⟨db2, hadd, hprods2, hmats2, hdocs2⟩ :=
    addProducts_spec rid run.lines db1
      (fun l hl => by rw [hlens1 l.product_id]; exact hprod l hl)
  simp only [complete_production_run, honeR]
  rw [if_pos hplanned, hcheck]
  simp only [hcons, hadd]
  refine ⟨_, rfl, ?_, ?_, ?_⟩
  · intro m
    show onHandMatAll db2 m = _
    rw [hmats2 m, hmats1 m]
  · intro p
    show onHandProdAll db2 p = _
    rw [hprods2 p, hprods1 p]
  · have hruns : db2.runs = db.runs := by
      rw [(hdocs2).2.2.2.2.1, (hdocs1).2.2.2.2.1]
    have hpr : (fun r : ProductionRun => decide (r.id = rid)) run = true :=
      (filter_single_decomp hfrun).choose_spec.choose_spec.2.1
    refine ⟨{ run with total_cost := some (0 + rawCostOf db.materials run.consumptions + run.labor_cost + run.overhead_cost), actual_quantity := some run.planned_quantity, status := ProductionStatus.completed }, ?_, rfl, rfl, ?_⟩
    · show (updateFirst _ _ db2.runs).filter _ = _
      rw [hruns]
      exact filter_updateFirst_single _ hfrun (by simpa using hpr)
    · show some (0 + rawCostOf db.materials run.consumptions
        + run.labor_cost + run.overhead_cost) = _
      norm_num

/-- C7, witness: a run producing 10 of product 2 while consuming 25 of
material 1 (stock 100, price 4, labor 5, overhead 3) completes with
material stock 75, product stock 10 and total cost 25*4 + 5 + 3 = 108. -/
theorem C7_complete_production_run_effects_witness :
    (∃ db', complete_production_run 1 c7db = Except.ok db' ∧
      (∀ m, onHandMatAll db' m = onHandMatAll c7db m - consumedOf c7run.consumptions m) ∧
      (∀ p, onHandProdAll db' p = onHandProdAll c7db p + producedOf c7run.lines p) ∧
      (∃ run', db'.runs.filter (fun r : ProductionRun => decide (r.id = 1)) = [run'] ∧
        run'.status = ProductionStatus.completed ∧
        run'.actual_quantity = some c7run.planned_quantity ∧
        run'.total_cost = some (rawCostOf c7db.materials c7run.consumptions
          + c7run.labor_cost + c7run.overhead_cost))) ∧
    onHandMatAll (okD (complete_production_run 1 c7db)) 1 = 75 ∧
    onHandProdAll (okD (complete_production_run 1 c7db)) 2 = 10 ∧
    rawCostOf c7db.materials c7run.consumptions + c7run.labor_cost
      + c7run.overhead_cost = 108 :=
  ⟨C7_complete_production_run_effects 1 c7db c7run rfl rfl
      (by norm_num [checkConsumptions, scalarOneOrNone, rawStockPred,
        rawStockPredOpt, c7db, c7row, c7run, c7mat, emptyDB, List.filter])
      (by
        intro c hc
        simp [c7run] at hc
        rw [hc]
        exact ⟨c7mat, rfl⟩)
      (by
        intro l hl
        simp [c7run] at hl
        rw [hl]
        decide),
   by norm_num [complete_production_run, c7db, c7row, c7run, c7mat, emptyDB,
     checkConsumptions, consumeMaterials, addProducts, scalarOneOrNone,
     rawStockPred, rawStockPredOpt, prodAnyShopPred, updateFirst, okD,
     onHandMatAll, ratSum, List.filter],
   by norm_num [complete_production_run, c7db, c7row, c7run, c7mat, emptyDB,
     checkConsumptions, consumeMaterials, addProducts, scalarOneOrNone,
     rawStockPred, rawStockPredOpt, prodAnyShopPred, updateFirst, okD,
     onHandProdAll, ratSum, List.filter],
   by norm_num [rawCostOf, c7db, c7run, c7mat, emptyDB, ratSum, List.find?]⟩

/-! ### Claim C8: reachability invariant and shortfall behaviour -/

/-- `RawRowsShop1` is stable under an update that keeps a row's identity
fields. -/
theorem rawRowsShop1_updateFirst (p : StockItem → Bool) (f : StockItem → StockItem)
    (hf : ∀ s, (f s).item_type = s.item_type ∧ (f s).shop_id = s.shop_id
      ∧ (f s).product_id = s.product_id)
    {stocks : List StockItem} (h : RawRowsShop1 stocks) :
    RawRowsShop1 (updateFirst p f stocks) := by
  intro s hs hraw
  rcases mem_updateFirst hs with hmem | ⟨y, hy, rfl⟩
  · exact h s hmem hraw
  · obtain ⟨h1, h2, h3⟩ := hf y
    rw [h1] at hraw
    rw [h2, h3]
    exact h y hy hraw

/-- `RawRowsShop1` is stable under appending rows that satisfy it. -/
theorem rawRowsShop1_append {stocks new : List StockItem}
    (h : RawRowsShop1 stocks) (hnew : RawRowsShop1 new) :
    RawRowsShop1 (stocks ++ new) := by
  intro s hs hraw
  rcases List.mem_append.mp hs with h1 | h2
  · exact h s h1 hraw
  · exact hnew s h2 hraw

theorem applySaleLines_rawRows {shop sid : Nat} :
    ∀ (ls : List SaleLine) (db db' : DBState),
      applySaleLines shop sid ls db = Except.ok db' →
      RawRowsShop1 db.stocks → RawRowsShop1 db'.stocks
  | [], db, db', h, hr => by
    cases h
    exact hr
  | l :: rest, db, db', h, hr => by
    simp only [applySaleLines] at h
    split at h
    · cases h
    · cases h
    · have hrec := applySaleLines_rawRows rest _ db' h
      refine hrec (rawRowsShop1_updateFirst _ _ ?_ hr)
      exact fun s => ⟨rfl, rfl, rfl⟩

theorem reserveTransferLines_rawRows {shop tid : Nat} :
    ∀ (ls : List TransferLine) (db db' : DBState),
      reserveTransferLines shop tid ls db = Except.ok db' →
      RawRowsShop1 db.stocks → RawRowsShop1 db'.stocks
  | [], db, db', h, hr => by
    cases h
    exact hr
  | l :: rest, db, db', h, hr => by
    simp only [reserveTransferLines] at h
    split at h
    · cases h
    · cases h
    · have hrec := reserveTransferLines_rawRows rest _ db' h
      refine hrec (rawRowsShop1_updateFirst _ _ ?_ hr)
      exact fun s => ⟨rfl, rfl, rfl⟩

theorem receiveTransferLine_rawRows {fromShop toShop tid : Nat}
    {l : TransferLine} {db db' : DBState}
    (h : receiveTransferLine fromShop toShop tid l db = Except.ok db')
    (hr : RawRowsShop1 db.stocks) : RawRowsShop1 db'.stocks := by
  simp only [receiveTransferLine] at h
  split at h
  · cases h
  · cases h
  · split at h
    · cases h
    · cases h
      refine rawRowsShop1_append (rawRowsShop1_updateFirst _ _ ?_ hr) ?_
      · exact fun s => ⟨rfl, rfl, rfl⟩
      · intro s hs hraw
        simp at hs
        rw [hs] at hraw
        simp at hraw
    · cases h
      refine rawRowsShop1_updateFirst _ _ ?_ (rawRowsShop1_updateFirst _ _ ?_ hr)
      · exact fun s => ⟨rfl, rfl, rfl⟩
      · exact fun s => ⟨rfl, rfl, rfl⟩

theorem receiveTransferLines_rawRows {fromShop toShop tid : Nat} :
    ∀ (ls : List TransferLine) (db db' : DBState),
      receiveTransferLines fromShop toShop tid ls db = Except.ok db' →
      RawRowsShop1 db.stocks → RawRowsShop1 db'.stocks
  | [], db, db', h, hr => by
    cases h
    exact hr
  | l :: rest, db, db', h, hr => by
    simp only [receiveTransferLines] at h
    split at h
    · cases h
    · rename_i db₁ hline
      exact receiveTransferLines_rawRows rest db₁ db' h
        (receiveTransferLine_rawRows hline hr)

theorem applyPurchaseLines_rawRows {pid : Nat} :
    ∀ (ls : List PurchaseLine) (db db' : DBState),
      applyPurchaseLines pid ls db = Except.ok db' →
      RawRowsShop1 db.stocks → RawRowsShop1 db'.stocks
  | [], db, db', h, hr => by
    cases h
    exact hr
  | l :: rest, db, db', h, hr => by
    simp only [applyPurchaseLines] at h
    split at h
    · cases h
    · have hrec := applyPurchaseLines_rawRows rest _ db' h
      refine hrec (rawRowsShop1_append hr ?_)
      intro s hs _
      simp at hs
      rw [hs]
      exact ⟨rfl, rfl⟩
    · have hrec := applyPurchaseLines_rawRows rest _ db' h
      refine hrec (rawRowsShop1_updateFirst _ _ ?_ hr)
      exact fun s => ⟨rfl, rfl, rfl⟩

theorem consumeMaterials_rawRows {rid : Nat} :
    ∀ (cs : List ProductionConsumption) (db : DBState) (cost : Rat)
      (db' : DBState) (cost' : Rat),
      consumeMaterials rid cs db cost = Except.ok (db', cost') →
      RawRowsShop1 db.stocks → RawRowsShop1 db'.stocks
  | [], db, cost, db', cost', h, hr => by
    cases h
    exact hr
  | c :: rest, db, cost, db', cost', h, hr => by
    simp only [consumeMaterials] at h
    split at h
    · cases h
    · cases h
    · split at h
      · cases h
      · cases h
      · have hrec := consumeMaterials_rawRows rest _ _ db' cost' h
        refine hrec (rawRowsShop1_updateFirst _ _ ?_ hr)
        exact fun s => ⟨rfl, rfl, rfl⟩

theorem addProducts_rawRows {rid : Nat} :
    ∀ (ls : List ProductionLine) (db db' : DBState),
      addProducts rid ls db = Except.ok db' →
      RawRowsShop1 db.stocks → RawRowsShop1 db'.stocks
  | [], db, db', h, hr => by
    cases h
    exact hr
  | l :: rest, db, db', h, hr => by
    simp only [addProducts] at h
    split at h
    · cases h
    · have hrec := addProducts_rawRows rest _ db' h
      refine hrec (rawRowsShop1_append hr ?_)
      intro s hs hraw
      simp at hs
      rw [hs] at hraw
      simp at hraw
    · have hrec := addProducts_rawRows rest _ db' h
      refine hrec (rawRowsShop1_updateFirst _ _ ?_ hr)
      exact fun s => ⟨rfl, rfl, rfl⟩

/-- No committed operation creates a raw-material row away from shop 1 or
moves one there: purchases (the sole creator of raw rows) create them at
shop 1 with no product id, and every other write keeps a row's identity
fields. -/
theorem applyOp_rawRows {db db' : DBState} {op : Op}
    (h : applyOp db op = Except.ok db') (hr : RawRowsShop1 db.stocks) :
    RawRowsShop1 db'.stocks := by
  cases op with
  | adjust req =>
    simp only [applyOp, adjust_stock] at h
    split at h
    · cases h
    · cases h
      refine rawRowsShop1_updateFirst _ _ ?_ hr
      exact fun s => ⟨rfl, rfl, rfl⟩
  | saleCreate req =>
    simp only [applyOp, create_sale] at h
    split at h
    · cases h
    · split at h
      · cases h
      · have hrec := applySaleLines_rawRows req.sale_lines _ db' h
        exact hrec hr
  | transferCreate req =>
    simp only [applyOp, create_transfer] at h
    split at h
    · cases h
    · split at h
      · cases h
      · have hrec := reserveTransferLines_rawRows req.transfer_lines _ db' h
        exact hrec hr
  | transferReceive tid =>
    simp only [applyOp, receive_transfer] at h
    split at h
    · cases h
    · cases h
    · split at h
      · split at h
        · cases h
        · rename_i db₁ hlines
          cases h
          exact receiveTransferLines_rawRows _ _ db₁ hlines hr
      · cases h
  | purchaseCreate req =>
    simp only [applyOp, create_purchase] at h
    have hrec := applyPurchaseLines_rawRows req.purchase_lines _ db' h
    exact hrec hr
  | runCreate req =>
    simp only [applyOp, create_production_run] at h
    split at h
    · cases h
    · cases h
      exact hr
  | runComplete rid =>
    simp only [applyOp, complete_production_run] at h
    split at h
    · cases h
    · cases h
    · split at h
      · split at h
        · cases h
        · split at h
          · cases h
          · rename_i pr hcons
            split at h
            · cases h
            · rename_i db₂ hadd
              cases h
              exact addProducts_rawRows _ _ db₂ hadd
                (consumeMaterials_rawRows _ _ _ _ _ hcons hr)
      · cases h
  | returnCreate req =>
    simp only [applyOp, create_return] at h
    split at h
    · cases h
    · rcases hfind : db.stocks.find?
        (prodStockPred (returnShop db req.sale_id) req.product_id) with _ | s0
      · rw [hfind] at h
        cases h
        refine rawRowsShop1_append hr ?_
        intro s hs hraw
        simp at hs
        rw [hs] at hraw
        simp at hraw
      · rw [hfind] at h
        cases h
        refine rawRowsShop1_updateFirst _ _ ?_ hr
        exact fun s => ⟨rfl, rfl, rfl⟩

/-- In every state reachable from the empty database, raw-material rows live
only at the main warehouse (shop 1). -/
theorem reach_rawRowsShop1 {db : DBState}
    (h : ReachesFrom (fun _ _ => True) emptyDB db) : RawRowsShop1 db.stocks := by
  induction h with
  | init =>
    intro s hs
    simp [emptyDB] at hs
  | step hprev hcond hop ih => exact applyOp_rawRows hop ih

/-- Consumption rows that all pass are skipped by the availability check. -/
theorem checkConsumptions_skip {stocks : List StockItem} :
    ∀ (pre rest : List ProductionConsumption),
      (∀ c ∈ pre, ∃ s, stocks.filter (rawStockPred c.raw_material_id) = [s] ∧
        ¬ s.quantity - s.reserved_quantity < c.planned_consumption) →
      checkConsumptions stocks (pre ++ rest) = checkConsumptions stocks rest
  | [], rest, _ => rfl
  | c :: pre, rest, hpre => by
    obtain ⟨s, hs, hok⟩ := hpre c (by simp)
    have hone := scalarOneOrNone_eq_some.mpr hs
    simp only [List.cons_append, checkConsumptions, hone]
    rw [if_neg hok]
    exact checkConsumptions_skip pre rest (fun x hx => hpre x (by simp [hx]))

/-- A shortfall at the head of the consumption list aborts the check with
the insufficient-stock conflict naming the material and the amounts. -/
theorem checkConsumptions_fail_head {stocks : List StockItem}
    {bad : ProductionConsumption} {row : StockItem}
    (hrow : stocks.filter (rawStockPred bad.raw_material_id) = [row])
    (hshort : row.quantity - row.reserved_quantity < bad.planned_consumption)
    (rest : List ProductionConsumption) :
    checkConsumptions stocks (bad :: rest) = Except.error
      (ApiError.insufficientStock bad.raw_material_id
        (row.quantity - row.reserved_quantity) bad.planned_consumption) := by
  have hone := scalarOneOrNone_eq_some.mpr hrow
  simp only [checkConsumptions, hone]
  rw [if_pos hshort]

/-- C8: completing a PLANNED run in a reachable state checks each
consumption row against the raw material's single stock position — which,
by the reachability invariant, sits at the production warehouse (shop 1) —
and the first shortfall aborts the whole completion with a 409 conflict
naming the deficient material and the available vs. required amounts.  The
error result is an aborted transaction, so no ledger mutation persists. -/
theorem C8_completion_first_shortfall_conflict (db : DBState)
    (hreach : ReachesFrom (fun _ _ => True) emptyDB db)
    (rid : Nat) (run : ProductionRun)
    (hfrun : db.runs.filter (fun r : ProductionRun => decide (r.id = rid)) = [run])
    (hplanned : run.status = ProductionStatus.planned)
    (pre rest : List ProductionConsumption) (bad : ProductionConsumption)
    (hsplit : run.consumptions = pre ++ bad :: rest)
    (hpre : ∀ c ∈ pre, ∃ s, db.stocks.filter (rawStockPred c.raw_material_id) = [s] ∧
      ¬ s.quantity - s.reserved_quantity < c.planned_consumption)
    (row : StockItem)
    (hrow : db.stocks.filter (rawStockPred bad.raw_material_id) = [row])
    (hshort : row.quantity - row.reserved_quantity < bad.planned_consumption) :
    complete_production_run rid db = Except.error
      (ApiError.insufficientStock bad.raw_material_id
        (row.quantity - row.reserved_quantity) bad.planned_consumption) ∧
    (ApiError.insufficientStock bad.raw_material_id
      (row.quantity - row.reserved_quantity) bad.planned_consumption).httpStatus = 409 ∧
    row.shop_id = 1 := by
  have honeR := scalarOneOrNone_eq_some.mpr hfrun
  have hcheck : checkConsumptions db.stocks run.consumptions = Except.error
      (ApiError.insufficientStock bad.raw_material_id
        (row.quantity - row.reserved_quantity) bad.planned_consumption) := by
    rw [hsplit, checkConsumptions_skip pre (bad :: rest) hpre,
      checkConsumptions_fail_head hrow hshort rest]
  refine ⟨?_, rfl, ?_⟩
  · simp only [complete_production_run, honeR]
    rw [if_pos hplanned, hcheck]
  · have hmemf : row ∈ db.stocks.filter (rawStockPred bad.raw_material_id) := by
      rw [hrow]
      exact List.mem_singleton.mpr rfl
    have hmem := List.mem_filter.mp hmemf
    have hp := hmem.2
    simp [rawStockPred, rawStockPredOpt] at hp
    exact (reach_rawRowsShop1 hreach row hmem.1 hp.2).1

/-- The purchase step of the shared two-step scenario commits. -/
theorem c8_step1 : applyOp emptyDB c8op1 = Except.ok c8dbA := by
  norm_num [applyOp, c8op1, create_purchase, applyPurchaseLines, scalarOneOrNone,
    emptyDB, c8dbA, c8pline, c8rowW, c8mv, c8purchase, ratSum, List.filter]

/-- The run-creation step of the shared two-step scenario commits. -/
theorem c8_step2 : applyOp c8dbA c8op2 = Except.ok c8db := by
  norm_num [applyOp, c8op2, create_production_run, c8dbA, c8db, c8runW,
    c8purchase, c8mv, c8rowW, c8pline, emptyDB]

/-- C8, witness: from the empty database, purchase 20 units of material 1,
create a run consuming 25, then complete it: the completion aborts with the
409 insufficient-stock conflict naming material 1, available 20, required
25, and the checked row sits at shop 1. -/
theorem C8_completion_first_shortfall_conflict_witness :
    complete_production_run 2 c8db = Except.error
      (ApiError.insufficientStock 1
        (c8rowW.quantity - c8rowW.reserved_quantity) 25) ∧
    (ApiError.insufficientStock 1
      (c8rowW.quantity - c8rowW.reserved_quantity) 25).httpStatus = 409 ∧
    c8rowW.shop_id = 1 := by
  exact C8_completion_first_shortfall_conflict c8db
    (ReachesFrom.step (ReachesFrom.step ReachesFrom.init trivial c8_step1)
      trivial c8_step2)
    2 c8runW rfl rfl [] [] { raw_material_id := 1, planned_consumption := 25 }
    rfl (by simp) c8rowW rfl (by norm_num [c8rowW])

/-! ### Claim C2: generic machinery -/

/-- Membership after `updateFirst`, remembering that an updated element
satisfied the predicate. -/
theorem mem_updateFirstP {α : Type} {p : α → Bool} {f : α → α} :
    ∀ {l : List α} {x : α}, x ∈ updateFirst p f l →
      x ∈ l ∨ ∃ y, y ∈ l ∧ p y = true ∧ x = f y
  | [], x, h => by simp [updateFirst] at h
  | a :: as, x, h => by
    by_cases hpa : p a
    · simp only [updateFirst, hpa, if_true] at h
      rcases List.mem_cons.mp h with rfl | hx
      · exact Or.inr ⟨a, by simp, hpa, rfl⟩
      · exact Or.inl (by simp [hx])
    · simp only [updateFirst, hpa, Bool.false_eq_true, if_false] at h
      rcases List.mem_cons.mp h with rfl | hx
      · exact Or.inl (by simp)
      · rcases mem_updateFirstP hx with hy | ⟨y, hy, hpy, rfl⟩
        · exact Or.inl (by simp [hy])
        · exact Or.inr ⟨y, by simp [hy], hpy, rfl⟩

/-- `updateFirst` leaves a mapped sum unchanged when the update preserves
the mapped value. -/
theorem ratSum_map_updateFirst_congr {α : Type} (p : α → Bool) (f : α → α)
    (g : α → Rat) (hf : ∀ x, g (f x) = g x) :
    ∀ l : List α, ratSum ((updateFirst p f l).map g) = ratSum (l.map g)
  | [] => rfl
  | a :: as => by
    by_cases hpa : p a
    · simp [updateFirst, hpa, ratSum, hf a]
    · simp [updateFirst, hpa, ratSum,
        ratSum_map_updateFirst_congr p f g hf as]

/-- Effect of `updateFirst` on a mapped sum, via the first match. -/
theorem ratSum_map_updateFirst_find {α : Type} (p : α → Bool) (f : α → α)
    (g : α → Rat) :
    ∀ (l : List α) (r : α), l.find? p = some r →
      ratSum ((updateFirst p f l).map g) = ratSum (l.map g) - g r + g (f r)
  | [], r, h => by simp at h
  | a :: as, r, h => by
    by_cases hpa : p a
    · rw [List.find?_cons_of_pos _ hpa] at h
      cases h
      simp only [updateFirst, hpa, if_true, List.map_cons, ratSum]
      ring
    · rw [List.find?_cons_of_neg _ hpa] at h
      simp only [updateFirst, hpa, Bool.false_eq_true, if_false, List.map_cons,
        ratSum, ratSum_map_updateFirst_find p f g as r h]
      ring

/-- A sum of nonnegative contributions is nonnegative. -/
theorem ratSum_nonneg {α : Type} (g : α → Rat) :
    ∀ l : List α, (∀ x ∈ l, 0 ≤ g x) → 0 ≤ ratSum (l.map g)
  | [], _ => le_refl 0
  | a :: as, h => by
    simp only [List.map_cons, ratSum]
    have hr := ratSum_nonneg g as (fun x hx => h x (by simp [hx]))
    have ha := h a (by simp)
    linarith

/-- A member's contribution bounds a sum of nonnegative contributions. -/
theorem ratSum_ge_member {α : Type} (g : α → Rat) :
    ∀ (l : List α) (x : α), x ∈ l → (∀ y ∈ l, 0 ≤ g y) → g x ≤ ratSum (l.map g)
  | [], x, hx, _ => by simp at hx
  | a :: as, x, hx, h => by
    simp only [List.map_cons, ratSum]
    rcases List.mem_cons.mp hx with rfl | hx'
    · have hr := ratSum_nonneg g as (fun y hy => h y (by simp [hy]))
      linarith
    · have hr := ratSum_ge_member g as x hx' (fun y hy => h y (by simp [hy]))
      have ha := h a (by simp)
      linarith

/-- A clean product row matching the sale/transfer predicate has exactly
the product pair as its key. -/
theorem stockKey_eq_prodKey {shop pid : Nat} {s : StockItem}
    (hclean : s.item_type = ItemType.product → s.raw_material_id = none)
    (hp : prodStockPred shop pid s = true) : stockKey s = prodKey shop pid := by
  simp only [prodStockPred, Bool.and_eq_true, decide_eq_true_eq] at hp
  obtain ⟨⟨h1, h2⟩, h3⟩ := hp
  simp [stockKey, prodKey, h1, h2, h3, hclean h3]

/-- Conversely, a row keyed at the product pair matches the predicate. -/
theorem prodStockPred_of_key {shop pid : Nat} {s : StockItem}
    (h : stockKey s = prodKey shop pid) : prodStockPred shop pid s = true := by
  simp only [stockKey, prodKey, PairKey.mk.injEq] at h
  simp [prodStockPred, h.1, h.2.1, h.2.2.1]

/-- A pair's reserved sum read off the rows keyed at it. -/
theorem ratSum_keyRes_eq_filter (k : PairKey) :
    ∀ l : List StockItem,
      ratSum (l.map (keyRes k)) =
        ratSum ((l.filter (fun s => decide (stockKey s = k))).map
          (fun s => s.reserved_quantity))
  | [] => rfl
  | a :: as => by
    by_cases hk : stockKey a = k
    · simp [List.filter_cons, hk, keyRes, ratSum, ratSum_keyRes_eq_filter k as]
    · simp [List.filter_cons, hk, keyRes, ratSum, ratSum_keyRes_eq_filter k as]

/-- When a product pair has exactly one (clean) row, the pair's reserved sum
is that row's reservation. -/
theorem resSum_of_unique_row {db : DBState} {shop pid : Nat} {row : StockItem}
    (hclean : ProdRowsClean db.stocks)
    (hfilter : db.stocks.filter (prodStockPred shop pid) = [row]) :
    resSum db (prodKey shop pid) = row.reserved_quantity := by
  have hcongr : db.stocks.filter (fun s => decide (stockKey s = prodKey shop pid))
      = db.stocks.filter (prodStockPred shop pid) := by
    apply List.filter_congr
    intro s hs
    by_cases hp : prodStockPred shop pid s = true
    · simp [hp, stockKey_eq_prodKey (hclean s hs) hp]
    · have hk : ¬ stockKey s = prodKey shop pid :=
        fun hk => hp (prodStockPred_of_key hk)
      simp only [Bool.not_eq_true] at hp
      simp [hk, hp]
  rw [resSum, ratSum_keyRes_eq_filter, hcongr, hfilter]
  simp [ratSum]

/-- A pending transfer's outbound contribution is bounded by the pair's
total pending quantity (pending lines being nonnegative). -/
theorem pendingOut_ge_transfer {db : DBState} {t : Transfer} (k : PairKey)
    (ht : t ∈ db.transfers) (hnn : PendingNonneg db) :
    transferPendingOut k t ≤ pendingOut db k := by
  apply ratSum_ge_member (transferPendingOut k) db.transfers t ht
  intro t' ht'
  by_cases hp : t'.status = TransferStatus.pending
  · simp only [transferPendingOut, if_pos hp]
    apply ratSum_nonneg
    intro l hl
    simp only [lineOut]
    split
    · exact hnn t' ht' hp l hl
    · exact le_refl 0
  · simp [transferPendingOut, hp]

/-- Successful pre-check means each line's single row covers the quantity. -/
theorem checkSaleLines_pass {shop : Nat} {stocks : List StockItem} :
    ∀ {ls : List SaleLine}, checkSaleLines shop stocks ls = Except.ok Unit.unit →
      ∀ l ∈ ls, ∀ s, stocks.filter (prodStockPred shop l.product_id) = [s] →
        l.quantity ≤ s.quantity - s.reserved_quantity
  | [], _, l, hl => by simp at hl
  | l₀ :: rest, h, l, hl => by
    simp only [checkSaleLines] at h
    split at h
    · cases h
    · cases h
    · rename_i s₀ heq
      split at h
      · cases h
      · rename_i hlt
        rcases List.mem_cons.mp hl with rfl | hl'
        · intro s hs
          rw [scalarOneOrNone_eq_some.mp heq] at hs
          simp at hs
          rw [← hs]
          exact not_lt.mp hlt
        · exact checkSaleLines_pass h l hl'

/-- Successful transfer pre-check: each line has exactly one source row. -/
theorem checkTransferLines_singleton {shop : Nat} {stocks : List StockItem} :
    ∀ {ls : List TransferLine},
      checkTransferLines shop stocks ls = Except.ok Unit.unit →
      ∀ l ∈ ls, (stocks.filter (prodStockPred shop l.product_id)).length = 1
  | [], _, l, hl => by simp at hl
  | l₀ :: rest, h, l, hl => by
    simp only [checkTransferLines] at h
    split at h
    · cases h
    · cases h
    · rename_i s heq
      split at h
      · cases h
      · rcases List.mem_cons.mp hl with rfl | hl'
        · rw [scalarOneOrNone_eq_some.mp heq]
          rfl
        · exact checkTransferLines_singleton h l hl'

/-- Successful transfer pre-check: each line's single row covers it. -/
theorem checkTransferLines_pass {shop : Nat} {stocks : List StockItem} :
    ∀ {ls : List TransferLine},
      checkTransferLines shop stocks ls = Except.ok Unit.unit →
      ∀ l ∈ ls, ∀ s, stocks.filter (prodStockPred shop l.product_id) = [s] →
        l.quantity ≤ s.quantity - s.reserved_quantity
  | [], _, l, hl => by simp at hl
  | l₀ :: rest, h, l, hl => by
    simp only [checkTransferLines] at h
    split at h
    · cases h
    · cases h
    · rename_i s₀ heq
      split at h
      · cases h
      · rename_i hlt
        rcases List.mem_cons.mp hl with rfl | hl'
        · intro s hs
          rw [scalarOneOrNone_eq_some.mp heq] at hs
          simp at hs
          rw [← hs]
          exact not_lt.mp hlt
        · exact checkTransferLines_pass h l hl'

/-- Successful consumption check: each row's single stock position covers
its planned consumption. -/
theorem checkConsumptions_pass {stocks : List StockItem} :
    ∀ {cs : List ProductionConsumption},
      checkConsumptions stocks cs = Except.ok Unit.unit →
      ∀ c ∈ cs, ∀ s, stocks.filter (rawStockPred c.raw_material_id) = [s] →
        c.planned_consumption ≤ s.quantity - s.reserved_quantity
  | [], _, c, hc => by simp at hc
  | c₀ :: rest, h, c, hc => by
    simp only [checkConsumptions] at h
    split at h
    · cases h
    · cases h
    · rename_i s₀ heq
      split at h
      · cases h
      · rename_i hlt
        rcases List.mem_cons.mp hc with rfl | hc'
        · intro s hs
          rw [scalarOneOrNone_eq_some.mp heq] at hs
          simp at hs
          rw [← hs]
          exact not_lt.mp hlt
        · exact checkConsumptions_pass h c hc'

/-- A quantity-only update leaves every pair's reserved sum unchanged. -/
theorem ratSum_keyRes_updFirst_qty (p : StockItem → Bool) (g : StockItem → Rat)
    (k : PairKey) (l : List StockItem) :
    ratSum ((updateFirst p (fun s => { s with quantity := g s }) l).map (keyRes k))
      = ratSum (l.map (keyRes k)) := by
  apply ratSum_map_updateFirst_congr
  intro x
  rfl

/-- A reservation-only update leaves every pair's on-hand sum unchanged. -/
theorem ratSum_keyQty_updFirst_res (p : StockItem → Bool) (g : StockItem → Rat)
    (k : PairKey) (l : List StockItem) :
    ratSum ((updateFirst p
      (fun s => { s with reserved_quantity := g s }) l).map (keyQty k))
      = ratSum (l.map (keyQty k)) := by
  apply ratSum_map_updateFirst_congr
  intro x
  rfl

/-- Quantity/reservation updates never change which rows a product predicate
selects. -/
theorem filter_length_updFirst_qtyres (p : StockItem → Bool)
    (g1 g2 : StockItem → Rat) (shop pid : Nat) (l : List StockItem) :
    ((updateFirst p (fun s => { s with quantity := g1 s, reserved_quantity := g2 s })
      l).filter (prodStockPred shop pid)).length
      = (l.filter (prodStockPred shop pid)).length := by
  apply filter_length_updateFirst
  intro x
  rfl

/-- The sale write loop preserves the reservation invariant and all reserved
sums when each line's quantity is covered by every matching row and the
lines touch pairwise distinct products. -/
theorem applySaleLines_inv {shop sid : Nat} :
    ∀ (ls : List SaleLine) (db db' : DBState),
      applySaleLines shop sid ls db = Except.ok db' →
      StocksInv db → ProdRowsClean db.stocks →
      (∀ l ∈ ls, ∀ row ∈ db.stocks, prodStockPred shop l.product_id row = true →
        l.quantity ≤ row.quantity - row.reserved_quantity) →
      ls.Pairwise (fun a b => a.product_id ≠ b.product_id) →
      StocksInv db' ∧ ProdRowsClean db'.stocks ∧ (∀ k, resSum db' k = resSum db k)
  | [], db, db', h, hinv, hclean, _, _ => by
    cases h
    exact ⟨hinv, hclean, fun k => rfl⟩
  | l :: rest, db, db', h, hinv, hclean, hav, hpw => by
    simp only [applySaleLines] at h
    split at h
    · cases h
    · cases h
    · have hinv1 : ∀ s ∈ updateFirst (prodStockPred shop l.product_id)
          (fun s => { s with quantity := s.quantity - l.quantity }) db.stocks,
          RowInv s := by
        intro s hs
        rcases mem_updateFirstP hs with hmem | ⟨y, hy, hpy, rfl⟩
        · exact hinv s hmem
        · have hq := hav l (by simp) y hy hpy
          have hb := hinv y hy
          refine ⟨hb.1, ?_⟩
          show y.reserved_quantity ≤ y.quantity - l.quantity
          have h2 := hb.2
          linarith
      have hclean1 : ∀ s ∈ updateFirst (prodStockPred shop l.product_id)
          (fun s => { s with quantity := s.quantity - l.quantity }) db.stocks,
          s.item_type = ItemType.product → s.raw_material_id = none := by
        intro s hs
        rcases mem_updateFirstP hs with hmem | ⟨y, hy, _, rfl⟩
        · exact hclean s hmem
        · exact hclean y hy
      have hav1 : ∀ l' ∈ rest, ∀ row ∈ updateFirst (prodStockPred shop l.product_id)
          (fun s => { s with quantity := s.quantity - l.quantity }) db.stocks,
          prodStockPred shop l'.product_id row = true →
          l'.quantity ≤ row.quantity - row.reserved_quantity := by
        intro l' hl' row hrow hpred
        rcases mem_updateFirstP hrow with hmem | ⟨y, hy, hpy, rfl⟩
        · exact hav l' (by simp [hl']) row hmem hpred
        · exfalso
          have hpred' : prodStockPred shop l'.product_id y = true := hpred
          simp only [prodStockPred, Bool.and_eq_true, decide_eq_true_eq] at hpy hpred'
          have e2 := hpred'.1.2
          rw [hpy.1.2] at e2
          exact (List.pairwise_cons.mp hpw).1 l' hl' (Option.some.inj e2)
      have hrec := applySaleLines_inv rest _ db' h hinv1 hclean1 hav1
        (List.pairwise_cons.mp hpw).2
      refine ⟨hrec.1, hrec.2.1, fun k => ?_⟩
      rw [hrec.2.2 k]
      exact ratSum_keyRes_updFirst_qty _ _ k db.stocks

/-- The transfer reservation loop preserves the reservation invariant
(nonnegative, distinct, covered lines) and adds exactly the lines' outbound
quantities to the per-pair reserved sums. -/
theorem reserveTransferLines_inv {shop tid : Nat} :
    ∀ (ls : List TransferLine) (db db' : DBState),
      reserveTransferLines shop tid ls db = Except.ok db' →
      StocksInv db → ProdRowsClean db.stocks →
      (∀ l ∈ ls, ∀ row ∈ db.stocks, prodStockPred shop l.product_id row = true →
        l.quantity ≤ row.quantity - row.reserved_quantity) →
      (∀ l ∈ ls, 0 ≤ l.quantity) →
      ls.Pairwise (fun a b => a.product_id ≠ b.product_id) →
      StocksInv db' ∧ ProdRowsClean db'.stocks ∧
        (∀ k, resSum db' k = resSum db k + ratSum (ls.map (lineOut shop k)))
  | [], db, db', h, hinv, hclean, _, _, _ => by
    cases h
    exact ⟨hinv, hclean, fun k => by simp [ratSum]⟩
  | l :: rest, db, db', h, hinv, hclean, hav, hnn, hpw => by
    simp only [reserveTransferLines] at h
    split at h
    · cases h
    · cases h
    · rename_i s₀ heq
      have hfilter := scalarOneOrNone_eq_some.mp heq
      have hs0memf : s₀ ∈ db.stocks.filter (prodStockPred shop l.product_id) := by
        rw [hfilter]
        exact List.mem_singleton.mpr rfl
      have hs0mem := (List.mem_filter.mp hs0memf).1
      have hs0pred := (List.mem_filter.mp hs0memf).2
      have hkey := stockKey_eq_prodKey (hclean s₀ hs0mem) hs0pred
      have hinv1 : ∀ s ∈ updateFirst (prodStockPred shop l.product_id)
          (fun s => { s with reserved_quantity := s.reserved_quantity + l.quantity })
          db.stocks, RowInv s := by
        intro s hs
        rcases mem_updateFirstP hs with hmem | ⟨y, hy, hpy, rfl⟩
        · exact hinv s hmem
        · have hq := hav l (by simp) y hy hpy
          have hb := hinv y hy
          have hb1 := hb.1
          have hql := hnn l (by simp)
          constructor
          · show 0 ≤ y.reserved_quantity + l.quantity
            linarith
          · show y.reserved_quantity + l.quantity ≤ y.quantity
            linarith
      have hclean1 : ∀ s ∈ updateFirst (prodStockPred shop l.product_id)
          (fun s => { s with reserved_quantity := s.reserved_quantity + l.quantity })
          db.stocks, s.item_type = ItemType.product → s.raw_material_id = none := by
        intro s hs
        rcases mem_updateFirstP hs with hmem | ⟨y, hy, _, rfl⟩
        · exact hclean s hmem
        · exact hclean y hy
      have hav1 : ∀ l' ∈ rest, ∀ row ∈ updateFirst (prodStockPred shop l.product_id)
          (fun s => { s with reserved_quantity := s.reserved_quantity + l.quantity })
          db.stocks, prodStockPred shop l'.product_id row = true →
          l'.quantity ≤ row.quantity - row.reserved_quantity := by
        intro l' hl' row hrow hpred
        rcases mem_updateFirstP hrow with hmem | ⟨y, hy, hpy, rfl⟩
        · exact hav l' (by simp [hl']) row hmem hpred
        · exfalso
          have hpred' : prodStockPred shop l'.product_id y = true := hpred
          simp only [prodStockPred, Bool.and_eq_true, decide_eq_true_eq] at hpy hpred'
          have e2 := hpred'.1.2
          rw [hpy.1.2] at e2
          exact (List.pairwise_cons.mp hpw).1 l' hl' (Option.some.inj e2)
      have hrec := reserveTransferLines_inv rest _ db' h hinv1 hclean1 hav1
        (fun x hx => hnn x (by simp [hx])) (List.pairwise_cons.mp hpw).2
      refine ⟨hrec.1, hrec.2.1, fun k => ?_⟩
      rw [hrec.2.2 k]
      have hmid : ratSum ((updateFirst (prodStockPred shop l.product_id)
          (fun s => { s with reserved_quantity := s.reserved_quantity + l.quantity })
          db.stocks).map (keyRes k))
          = ratSum (db.stocks.map (keyRes k)) + lineOut shop k l := by
        rw [ratSum_keyRes_updateFirst hfilter k]
        have hkf : stockKey
            { s₀ with reserved_quantity := s₀.reserved_quantity + l.quantity }
            = prodKey shop l.product_id := hkey
        rw [show lineOut shop k l
          = if k = prodKey shop l.product_id then l.quantity else 0 from rfl]
        simp only [keyRes, hkf, hkey]
        by_cases hk : k = prodKey shop l.product_id
        · subst hk
          simp only [eq_self_iff_true, if_true]
          ring
        · have hk1 : ¬ prodKey shop l.product_id = k := fun hc => hk hc.symm
          rw [if_neg hk1, if_neg hk1, if_neg hk]
          ring
      simp only [resSum]
      rw [hmid]
      simp only [List.map_cons, ratSum]
      ring

/-- The purchase stock loop (nonnegative lines) preserves the reservation
invariant, cleanliness and all reserved sums. -/
theorem applyPurchaseLines_inv {pid : Nat} :
    ∀ (ls : List PurchaseLine) (db db' : DBState),
      applyPurchaseLines pid ls db = Except.ok db' →
      StocksInv db → ProdRowsClean db.stocks →
      (∀ l ∈ ls, 0 ≤ l.quantity) →
      StocksInv db' ∧ ProdRowsClean db'.stocks ∧ (∀ k, resSum db' k = resSum db k)
  | [], db, db', h, hinv, hclean, _ => by
    cases h
    exact ⟨hinv, hclean, fun k => rfl⟩
  | l :: rest, db, db', h, hinv, hclean, hnn => by
    simp only [applyPurchaseLines] at h
    split at h
    · cases h
    · have hinv1 : ∀ s ∈ db.stocks ++
          [{ shop_id := 1, item_type := ItemType.rawMaterial, product_id := none
           , raw_material_id := l.raw_material_id, quantity := l.quantity
           , reserved_quantity := 0, min_stock_level := 10 }], RowInv s := by
        intro s hs
        rcases List.mem_append.mp hs with hm | hm
        · exact hinv s hm
        · simp at hm
          rw [hm]
          exact ⟨le_refl 0, hnn l (by simp)⟩
      have hclean1 : ∀ s ∈ db.stocks ++
          [{ shop_id := 1, item_type := ItemType.rawMaterial, product_id := none
           , raw_material_id := l.raw_material_id, quantity := l.quantity
           , reserved_quantity := 0, min_stock_level := 10 }],
          s.item_type = ItemType.product → s.raw_material_id = none := by
        intro s hs
        rcases List.mem_append.mp hs with hm | hm
        · exact hclean s hm
        · simp at hm
          rw [hm]
          intro hty
          exact ItemType.noConfusion hty
      have hrec := applyPurchaseLines_inv rest _ db' h hinv1 hclean1
        (fun x hx => hnn x (by simp [hx]))
      refine ⟨hrec.1, hrec.2.1, fun k => ?_⟩
      rw [hrec.2.2 k]
      simp only [resSum]
      rw [ratSum_map_append]
      simp [ratSum, keyRes]
    · have hinv1 : ∀ s ∈ updateFirst (rawStockPredOpt l.raw_material_id)
          (fun s => { s with quantity := s.quantity + l.quantity }) db.stocks,
          RowInv s := by
        intro s hs
        rcases mem_updateFirstP hs with hmem | ⟨y, hy, _, rfl⟩
        · exact hinv s hmem
        · have hb := hinv y hy
          have hb1 := hb.1
          have hb2 := hb.2
          have hql := hnn l (by simp)
          refine ⟨hb1, ?_⟩
          show y.reserved_quantity ≤ y.quantity + l.quantity
          linarith
      have hclean1 : ∀ s ∈ updateFirst (rawStockPredOpt l.raw_material_id)
          (fun s => { s with quantity := s.quantity + l.quantity }) db.stocks,
          s.item_type = ItemType.product → s.raw_material_id = none := by
        intro s hs
        rcases mem_updateFirstP hs with hmem | ⟨y, hy, _, rfl⟩
        · exact hclean s hmem
        · exact hclean y hy
      have hrec := applyPurchaseLines_inv rest _ db' h hinv1 hclean1
        (fun x hx => hnn x (by simp [hx]))
      refine ⟨hrec.1, hrec.2.1, fun k => ?_⟩
      rw [hrec.2.2 k]
      exact ratSum_keyRes_updFirst_qty _ _ k db.stocks

/-- The consumption loop (covered, pairwise-distinct materials) preserves
the reservation invariant, cleanliness and all reserved sums. -/
theorem consumeMaterials_inv {rid : Nat} :
    ∀ (cs : List ProductionConsumption) (db : DBState) (cost : Rat)
      (db' : DBState) (cost' : Rat),
      consumeMaterials rid cs db cost = Except.ok (db', cost') →
      StocksInv db → ProdRowsClean db.stocks →
      (∀ c ∈ cs, ∀ row ∈ db.stocks, rawStockPred c.raw_material_id row = true →
        c.planned_consumption ≤ row.quantity - row.reserved_quantity) →
      cs.Pairwise (fun a b => a.raw_material_id ≠ b.raw_material_id) →
      StocksInv db' ∧ ProdRowsClean db'.stocks ∧ (∀ k, resSum db' k = resSum db k)
  | [], db, cost, db', cost', h, hinv, hclean, _, _ => by
    cases h
    exact ⟨hinv, hclean, fun k => rfl⟩
  | c :: rest, db, cost, db', cost', h, hinv, hclean, hav, hpw => by
    simp only [consumeMaterials] at h
    split at h
    · cases h
    · cases h
    · split at h
      · cases h
      · cases h
      · have hinv1 : ∀ s ∈ updateFirst (rawStockPred c.raw_material_id)
            (fun s => { s with quantity := s.quantity - c.planned_consumption })
            db.stocks, RowInv s := by
          intro s hs
          rcases mem_updateFirstP hs with hmem | ⟨y, hy, hpy, rfl⟩
          · exact hinv s hmem
          · have hq := hav c (by simp) y hy hpy
            have hb := hinv y hy
            refine ⟨hb.1, ?_⟩
            show y.reserved_quantity ≤ y.quantity - c.planned_consumption
            linarith
        have hclean1 : ∀ s ∈ updateFirst (rawStockPred c.raw_material_id)
            (fun s => { s with quantity := s.quantity - c.planned_consumption })
            db.stocks, s.item_type = ItemType.product → s.raw_material_id = none := by
          intro s hs
          rcases mem_updateFirstP hs with hmem | ⟨y, hy, _, rfl⟩
          · exact hclean s hmem
          · exact hclean y hy
        have hav1 : ∀ c' ∈ rest, ∀ row ∈ updateFirst (rawStockPred c.raw_material_id)
            (fun s => { s with quantity := s.quantity - c.planned_consumption })
            db.stocks, rawStockPred c'.raw_material_id row = true →
            c'.planned_consumption ≤ row.quantity - row.reserved_quantity := by
          intro c' hc' row hrow hpred
          rcases mem_updateFirstP hrow with hmem | ⟨y, hy, hpy, rfl⟩
          · exact hav c' (by simp [hc']) row hmem hpred
          · exfalso
            have hpred' : rawStockPred c'.raw_material_id y = true := hpred
            simp only [rawStockPred, rawStockPredOpt, Bool.and_eq_true,
              decide_eq_true_eq] at hpy hpred'
            have e2 := hpred'.1
            rw [hpy.1] at e2
            exact (List.pairwise_cons.mp hpw).1 c' hc' (Option.some.inj e2)
        have hrec := consumeMaterials_inv rest _ _ db' cost' h hinv1 hclean1 hav1
          (List.pairwise_cons.mp hpw).2
        refine ⟨hrec.1, hrec.2.1, fun k => ?_⟩
        rw [hrec.2.2 k]
        exact ratSum_keyRes_updFirst_qty _ _ k db.stocks

/-- The production stock loop (nonnegative lines) preserves the reservation
invariant, cleanliness and all reserved sums. -/
theorem addProducts_inv {rid : Nat} :
    ∀ (ls : List ProductionLine) (db db' : DBState),
      addProducts rid ls db = Except.ok db' →
      StocksInv db → ProdRowsClean db.stocks →
      (∀ l ∈ ls, 0 ≤ l.planned_quantity) →
      StocksInv db' ∧ ProdRowsClean db'.stocks ∧ (∀ k, resSum db' k = resSum db k)
  | [], db, db', h, hinv, hclean, _ => by
    cases h
    exact ⟨hinv, hclean, fun k => rfl⟩
  | l :: rest, db, db', h, hinv, hclean, hnn => by
    simp only [addProducts] at h
    split at h
    · cases h
    · have hinv1 : ∀ s ∈ db.stocks ++
          [{ shop_id := 1, item_type := ItemType.product
           , product_id := some l.product_id, raw_material_id := none
           , quantity := l.planned_quantity, reserved_quantity := 0
           , min_stock_level := 10 }], RowInv s := by
        intro s hs
        rcases List.mem_append.mp hs with hm | hm
        · exact hinv s hm
        · simp at hm
          rw [hm]
          exact ⟨le_refl 0, hnn l (by simp)⟩
      have hclean1 : ∀ s ∈ db.stocks ++
          [{ shop_id := 1, item_type := ItemType.product
           , product_id := some l.product_id, raw_material_id := none
           , quantity := l.planned_quantity, reserved_quantity := 0
           , min_stock_level := 10 }],
          s.item_type = ItemType.product → s.raw_material_id = none := by
        intro s hs
        rcases List.mem_append.mp hs with hm | hm
        · exact hclean s hm
        · simp at hm
          rw [hm]
          intro _
          rfl
      have hrec := addProducts_inv rest _ db' h hinv1 hclean1
        (fun x hx => hnn x (by simp [hx]))
      refine ⟨hrec.1, hrec.2.1, fun k => ?_⟩
      rw [hrec.2.2 k]
      simp only [resSum]
      rw [ratSum_map_append]
      simp [ratSum, keyRes]
    · have hinv1 : ∀ s ∈ updateFirst (prodAnyShopPred l.product_id)
          (fun s => { s with quantity := s.quantity + l.planned_quantity }) db.stocks,
          RowInv s := by
        intro s hs
        rcases mem_updateFirstP hs with hmem | ⟨y, hy, _, rfl⟩
        · exact hinv s hmem
        · have hb := hinv y hy
          have hb1 := hb.1
          have hb2 := hb.2
          have hql := hnn l (by simp)
          refine ⟨hb1, ?_⟩
          show y.reserved_quantity ≤ y.quantity + l.planned_quantity
          linarith
      have hclean1 : ∀ s ∈ updateFirst (prodAnyShopPred l.product_id)
          (fun s => { s with quantity := s.quantity + l.planned_quantity }) db.stocks,
          s.item_type = ItemType.product → s.raw_material_id = none := by
        intro s hs
        rcases mem_updateFirstP hs with hmem | ⟨y, hy, _, rfl⟩
        · exact hclean s hmem
        · exact hclean y hy
      have hrec := addProducts_inv rest _ db' h hinv1 hclean1
        (fun x hx => hnn x (by simp [hx]))
      refine ⟨hrec.1, hrec.2.1, fun k => ?_⟩
      rw [hrec.2.2 k]
      exact ratSum_keyRes_updFirst_qty _ _ k db.stocks

/-- One receive step never shrinks the row count a product predicate
selects (a destination row may be created, source rows are only updated). -/
theorem receiveTransferLine_filter_mono {fromShop toShop tid : Nat}
    {l : TransferLine} {db db' : DBState}
    (h : receiveTransferLine fromShop toShop tid l db = Except.ok db')
    (shop pid : Nat) :
    (db.stocks.filter (prodStockPred shop pid)).length ≤
      (db'.stocks.filter (prodStockPred shop pid)).length := by
  simp only [receiveTransferLine] at h
  split at h
  · cases h
  · cases h
  · split at h
    · cases h
    · cases h
      simp only [List.filter_append, List.length_append]
      rw [filter_length_updFirst_qtyres (prodStockPred fromShop l.product_id)
        _ _ shop pid]
      exact Nat.le_add_right _ _
    · cases h
      rw [filter_length_updFirst_qtyres (prodStockPred toShop l.product_id)
        _ _ shop pid,
        filter_length_updFirst_qtyres (prodStockPred fromShop l.product_id)
        _ _ shop pid]

/-- When a receive loop commits, each line's source predicate matched at
most one row already at the loop's entry state. -/
theorem receiveTransferLines_pred_bound {fromShop toShop tid : Nat} :
    ∀ (ls : List TransferLine) (db db' : DBState),
      receiveTransferLines fromShop toShop tid ls db = Except.ok db' →
      ∀ l ∈ ls, (db.stocks.filter (prodStockPred fromShop l.product_id)).length ≤ 1
  | [], db, db', h, l, hl => by simp at hl
  | l₀ :: rest, db, db', h, l, hl => by
    simp only [receiveTransferLines] at h
    split at h
    · cases h
    · rename_i db₁ hline
      rcases List.mem_cons.mp hl with rfl | hl'
      · have hline' := hline
        simp only [receiveTransferLine] at hline'
        split at hline'
        · cases hline'
        · cases hline'
        · rename_i s₀ heq
          rw [scalarOneOrNone_eq_some.mp heq]
          exact le_refl 1
      · exact le_trans (receiveTransferLine_filter_mono hline fromShop l.product_id)
          (receiveTransferLines_pred_bound rest db₁ db' h l hl')

/-- The receive loop preserves the reservation invariant and cleanliness and
removes exactly the lines' outbound quantities from the per-pair reserved
sums, provided lines are nonnegative and every matching source row's
reservation covers the loop's total outbound quantity at its pair. -/
theorem receiveTransferLines_inv {fromShop toShop tid : Nat} :
    ∀ (ls : List TransferLine) (db db' : DBState),
      receiveTransferLines fromShop toShop tid ls db = Except.ok db' →
      StocksInv db → ProdRowsClean db.stocks →
      (∀ l ∈ ls, 0 ≤ l.quantity) →
      (∀ l ∈ ls, ∀ row ∈ db.stocks, prodStockPred fromShop l.product_id row = true →
        ratSum (ls.map (lineOut fromShop (stockKey row))) ≤ row.reserved_quantity) →
      StocksInv db' ∧ ProdRowsClean db'.stocks ∧
        (∀ k, resSum db' k = resSum db k - ratSum (ls.map (lineOut fromShop k)))
  | [], db, db', h, hinv, hclean, _, _ => by
    cases h
    exact ⟨hinv, hclean, fun k => by simp [ratSum]⟩
  | l :: rest, db, db', h, hinv, hclean, hnn, hcov => by
    simp only [receiveTransferLines] at h
    split at h
    · cases h
    · rename_i db₁ hline
      simp only [receiveTransferLine] at hline
      split at hline
      · cases hline
      · cases hline
      · rename_i s₀ heq
        have hfilter := scalarOneOrNone_eq_some.mp heq
        have hs0memf : s₀ ∈ db.stocks.filter (prodStockPred fromShop l.product_id) := by
          rw [hfilter]
          exact List.mem_singleton.mpr rfl
        have hs0mem := (List.mem_filter.mp hs0memf).1
        have hs0pred := (List.mem_filter.mp hs0memf).2
        have hkey := stockKey_eq_prodKey (hclean s₀ hs0mem) hs0pred
        have hql := hnn l (by simp)
        have hhead : lineOut fromShop (stockKey s₀) l = l.quantity := by
          rw [show lineOut fromShop (stockKey s₀) l
            = if stockKey s₀ = prodKey fromShop l.product_id then l.quantity else 0
            from rfl, if_pos hkey]
        have hsum : l.quantity + ratSum (rest.map (lineOut fromShop (stockKey s₀)))
            ≤ s₀.reserved_quantity := by
          have hc := hcov l (by simp) s₀ hs0mem hs0pred
          simp only [List.map_cons, ratSum, hhead] at hc
          exact hc
        have hrestnn : 0 ≤ ratSum (rest.map (lineOut fromShop (stockKey s₀))) := by
          apply ratSum_nonneg
          intro x hx
          rw [show lineOut fromShop (stockKey s₀) x
            = if stockKey s₀ = prodKey fromShop x.product_id then x.quantity else 0
            from rfl]
          split
          · exact hnn x (by simp [hx])
          · exact le_refl 0
        have hqle : l.quantity ≤ s₀.reserved_quantity := by linarith
        have hinvmid : ∀ s ∈ updateFirst (prodStockPred fromShop l.product_id)
            (fun s => { s with quantity := s.quantity - l.quantity, reserved_quantity := s.reserved_quantity - l.quantity })
            db.stocks, RowInv s := by
          intro s hs
          rcases mem_updateFirstP hs with hmem | ⟨y, hy, hpy, rfl⟩
          · exact hinv s hmem
          · have hys : y = s₀ := by
              have hm : y ∈ db.stocks.filter (prodStockPred fromShop l.product_id) :=
                List.mem_filter.mpr ⟨hy, hpy⟩
              rw [hfilter] at hm
              simpa using hm
            constructor
            · show 0 ≤ y.reserved_quantity - l.quantity
              rw [hys]
              linarith
            · show y.reserved_quantity - l.quantity ≤ y.quantity - l.quantity
              have h2 := (hinv y hy).2
              linarith
        have hcleanmid : ∀ s ∈ updateFirst (prodStockPred fromShop l.product_id)
            (fun s => { s with quantity := s.quantity - l.quantity, reserved_quantity := s.reserved_quantity - l.quantity })
            db.stocks, s.item_type = ItemType.product → s.raw_material_id = none := by
          intro s hs
          rcases mem_updateFirstP hs with hmem | ⟨y, hy, _, rfl⟩
          · exact hclean s hmem
          · exact hclean y hy
        have hcovmid : ∀ l' ∈ rest,
            ∀ row ∈ updateFirst (prodStockPred fromShop l.product_id)
              (fun s => { s with quantity := s.quantity - l.quantity, reserved_quantity := s.reserved_quantity - l.quantity })
              db.stocks,
            prodStockPred fromShop l'.product_id row = true →
            ratSum (rest.map (lineOut fromShop (stockKey row))) ≤ row.reserved_quantity := by
          intro l' hl' row hrow hpred
          rcases mem_updateFirstP hrow with hmem | ⟨y, hy, hpy, rfl⟩
          · have hc := hcov l' (by simp [hl']) row hmem hpred
            by_cases hkr : stockKey row = prodKey fromShop l.product_id
            · have hm : row ∈ db.stocks.filter (prodStockPred fromShop l.product_id) :=
                List.mem_filter.mpr ⟨hmem, prodStockPred_of_key hkr⟩
              rw [hfilter] at hm
              have hrs : row = s₀ := by simpa using hm
              rw [hrs]
              linarith
            · have hz : lineOut fromShop (stockKey row) l = 0 := by
                rw [show lineOut fromShop (stockKey row) l
                  = if stockKey row = prodKey fromShop l.product_id then l.quantity else 0
                  from rfl, if_neg hkr]
              simp only [List.map_cons, ratSum, hz, zero_add] at hc
              exact hc
          · have hys : y = s₀ := by
              have hm : y ∈ db.stocks.filter (prodStockPred fromShop l.product_id) :=
                List.mem_filter.mpr ⟨hy, hpy⟩
              rw [hfilter] at hm
              simpa using hm
            show ratSum (rest.map (lineOut fromShop (stockKey y))) ≤
              y.reserved_quantity - l.quantity
            rw [hys]
            linarith
        have hkf : stockKey { s₀ with quantity := s₀.quantity - l.quantity, reserved_quantity := s₀.reserved_quantity - l.quantity }
            = prodKey fromShop l.product_id := hkey
        have hmid : ∀ k, ratSum ((updateFirst (prodStockPred fromShop l.product_id)
            (fun s => { s with quantity := s.quantity - l.quantity, reserved_quantity := s.reserved_quantity - l.quantity })
            db.stocks).map (keyRes k))
            = ratSum (db.stocks.map (keyRes k)) - lineOut fromShop k l := by
          intro k
          rw [ratSum_keyRes_updateFirst hfilter k]
          rw [show lineOut fromShop k l
            = if k = prodKey fromShop l.product_id then l.quantity else 0 from rfl]
          simp only [keyRes, hkf, hkey]
          by_cases hk : k = prodKey fromShop l.product_id
          · subst hk
            simp only [eq_self_iff_true, if_true]
            ring
          · have hk1 : ¬ prodKey fromShop l.product_id = k := fun hc => hk hc.symm
            rw [if_neg hk1, if_neg hk1, if_neg hk]
            ring
        split at hline
        · cases hline
        · rename_i heq2
          cases hline
          have hinv1 : ∀ s ∈ updateFirst (prodStockPred fromShop l.product_id)
              (fun s => { s with quantity := s.quantity - l.quantity, reserved_quantity := s.reserved_quantity - l.quantity })
              db.stocks ++
              [{ shop_id := toShop, item_type := ItemType.product, product_id := some l.product_id, raw_material_id := none, quantity := l.quantity, reserved_quantity := 0, min_stock_level := 10 }], RowInv s := by
            intro s hs
            rcases List.mem_append.mp hs with hm | hm
            · exact hinvmid s hm
            · simp at hm
              rw [hm]
              exact ⟨le_refl 0, hql⟩
          have hclean1 : ∀ s ∈ updateFirst (prodStockPred fromShop l.product_id)
              (fun s => { s with quantity := s.quantity - l.quantity, reserved_quantity := s.reserved_quantity - l.quantity })
              db.stocks ++
              [{ shop_id := toShop, item_type := ItemType.product, product_id := some l.product_id, raw_material_id := none, quantity := l.quantity, reserved_quantity := 0, min_stock_level := 10 }],
              s.item_type = ItemType.product → s.raw_material_id = none := by
            intro s hs
            rcases List.mem_append.mp hs with hm | hm
            · exact hcleanmid s hm
            · simp at hm
              rw [hm]
              intro _
              rfl
          have hcov1 : ∀ l' ∈ rest,
              ∀ row ∈ updateFirst (prodStockPred fromShop l.product_id)
                (fun s => { s with quantity := s.quantity - l.quantity, reserved_quantity := s.reserved_quantity - l.quantity })
                db.stocks ++
                [{ shop_id := toShop, item_type := ItemType.product, product_id := some l.product_id, raw_material_id := none, quantity := l.quantity, reserved_quantity := 0, min_stock_level := 10 }],
              prodStockPred fromShop l'.product_id row = true →
              ratSum (rest.map (lineOut fromShop (stockKey row))) ≤ row.reserved_quantity := by
            intro l' hl' row hrow hpred
            rcases List.mem_append.mp hrow with hm | hm
            · exact hcovmid l' hl' row hm hpred
            · exfalso
              simp at hm
              subst hm
              have hsh : toShop = fromShop := by
                simp only [prodStockPred, Bool.and_eq_true, decide_eq_true_eq] at hpred
                exact hpred.1.1
              have hsrc := filter_updateFirst_single
                (fun s => { s with quantity := s.quantity - l.quantity, reserved_quantity := s.reserved_quantity - l.quantity })
                hfilter hs0pred
              have hn := scalarOneOrNone_eq_none.mp heq2
              rw [hsh] at hn
              rw [hsrc] at hn
              exact List.cons_ne_nil _ _ hn
          have hrec := receiveTransferLines_inv rest _ db' h hinv1 hclean1
            (fun x hx => hnn x (by simp [hx])) hcov1
          refine ⟨hrec.1, hrec.2.1, fun k => ?_⟩
          rw [hrec.2.2 k]
          simp only [resSum]
          rw [ratSum_map_append, hmid k]
          have hz : keyRes k { shop_id := toShop, item_type := ItemType.product, product_id := some l.product_id, raw_material_id := none, quantity := l.quantity, reserved_quantity := 0, min_stock_level := 10 } = 0 := by simp [keyRes]
          simp only [List.map_cons, List.map_nil, ratSum, hz]
          ring
        · rename_i s₁ heq2
          cases hline
          have hinv1 : ∀ s ∈ updateFirst (prodStockPred toShop l.product_id)
              (fun s => { s with quantity := s.quantity + l.quantity })
              (updateFirst (prodStockPred fromShop l.product_id)
                (fun s => { s with quantity := s.quantity - l.quantity, reserved_quantity := s.reserved_quantity - l.quantity })
                db.stocks), RowInv s := by
            intro s hs
            rcases mem_updateFirstP hs with hm | ⟨y, hy, _, rfl⟩
            · exact hinvmid s hm
            · have hb := hinvmid y hy
              have hb1 := hb.1
              have hb2 := hb.2
              refine ⟨hb1, ?_⟩
              show y.reserved_quantity ≤ y.quantity + l.quantity
              linarith
          have hclean1 : ∀ s ∈ updateFirst (prodStockPred toShop l.product_id)
              (fun s => { s with quantity := s.quantity + l.quantity })
              (updateFirst (prodStockPred fromShop l.product_id)
                (fun s => { s with quantity := s.quantity - l.quantity, reserved_quantity := s.reserved_quantity - l.quantity })
                db.stocks),
              s.item_type = ItemType.product → s.raw_material_id = none := by
            intro s hs
            rcases mem_updateFirstP hs with hm | ⟨y, hy, _, rfl⟩
            · exact hcleanmid s hm
            · exact hcleanmid y hy
          have hcov1 : ∀ l' ∈ rest,
              ∀ row ∈ updateFirst (prodStockPred toShop l.product_id)
                (fun s => { s with quantity := s.quantity + l.quantity })
                (updateFirst (prodStockPred fromShop l.product_id)
                  (fun s => { s with quantity := s.quantity - l.quantity, reserved_quantity := s.reserved_quantity - l.quantity })
                  db.stocks),
              prodStockPred fromShop l'.product_id row = true →
              ratSum (rest.map (lineOut fromShop (stockKey row))) ≤ row.reserved_quantity := by
            intro l' hl' row hrow hpred
            rcases mem_updateFirstP hrow with hm | ⟨y, hy, _, rfl⟩
            · exact hcovmid l' hl' row hm hpred
            · exact hcovmid l' hl' y hy hpred
          have hrec := receiveTransferLines_inv rest _ db' h hinv1 hclean1
            (fun x hx => hnn x (by simp [hx])) hcov1
          refine ⟨hrec.1, hrec.2.1, fun k => ?_⟩
          rw [hrec.2.2 k]
          simp only [resSum]
          rw [ratSum_keyRes_updFirst_qty (prodStockPred toShop l.product_id) _ k,
            hmid k]
          simp only [List.map_cons, ratSum]
          ring

/-- `ProdRowsClean` is stable under updates keeping identity fields. -/
theorem prodClean_updateFirst (p : StockItem → Bool) (f : StockItem → StockItem)
    (hf : ∀ s, (f s).item_type = s.item_type ∧ (f s).raw_material_id = s.raw_material_id)
    {stocks : List StockItem} (h : ProdRowsClean stocks) :
    ProdRowsClean (updateFirst p f stocks) := by
  intro s hs hty
  rcases mem_updateFirstP hs with hm | ⟨y, hy, _, rfl⟩
  · exact h s hm hty
  · obtain ⟨h1, h2⟩ := hf y
    rw [h1] at hty
    rw [h2]
    exact h y hy hty

/-- A committed operation under its side condition preserves the auxiliary
reservation invariant. -/
theorem applyOp_C2 {db db' : DBState} {op : Op}
    (h : applyOp db op = Except.ok db') (hcond : CondC2 db op)
    (hI : C2Inv db) : C2Inv db' := by
  obtain ⟨hinv, hres, hnn, hclean⟩ := hI
  cases op with
  | adjust req =>
    have hcond' : ∀ row ∈ db.stocks, adjustPred req.shop_id req.item_type
        req.product_id req.raw_material_id row = true →
        row.reserved_quantity ≤ row.quantity + req.quantity := hcond
    simp only [applyOp, adjust_stock] at h
    split at h
    · cases h
    · cases h
      refine ⟨?_, ?_, hnn, ?_⟩
      · intro s hs
        rcases mem_updateFirstP hs with hm | ⟨y, hy, hpy, rfl⟩
        · exact hinv s hm
        · refine ⟨(hinv y hy).1, ?_⟩
          show y.reserved_quantity ≤ y.quantity + req.quantity
          exact hcond' y hy hpy
      · intro k
        show ratSum ((updateFirst (adjustPred req.shop_id req.item_type
              req.product_id req.raw_material_id)
            (fun s => { s with quantity := s.quantity + req.quantity })
            db.stocks).map (keyRes k)) = pendingOut db k
        rw [ratSum_keyRes_updFirst_qty (adjustPred req.shop_id req.item_type
          req.product_id req.raw_material_id) _ k]
        exact hres k
      · refine prodClean_updateFirst _ _ ?_ hclean
        exact fun s => ⟨rfl, rfl⟩
  | saleCreate req =>
    have hpw : req.sale_lines.Pairwise (fun a b => a.product_id ≠ b.product_id) :=
      hcond
    simp only [applyOp, create_sale] at h
    split at h
    · cases h
    · split at h
      · cases h
      · rename_i u hcheck
        have hcov : ∀ l ∈ req.sale_lines, ∀ row ∈ db.stocks,
            prodStockPred req.shop_id l.product_id row = true →
            l.quantity ≤ row.quantity - row.reserved_quantity := by
          intro l hl row hrow hpred
          obtain ⟨s, hs⟩ := length_one_singleton (checkSaleLines_singleton hcheck l hl)
          have hm : row ∈ db.stocks.filter (prodStockPred req.shop_id l.product_id) :=
            List.mem_filter.mpr ⟨hrow, hpred⟩
          rw [hs] at hm
          have hrs : row = s := by simpa using hm
          rw [hrs]
          exact checkSaleLines_pass hcheck l hl s hs
        have hloop := applySaleLines_inv req.sale_lines _ db' h hinv hclean hcov hpw
        have hdocs := applySaleLines_sameDocs req.sale_lines _ db' h
        refine ⟨hloop.1, ?_, ?_, hloop.2.1⟩
        · intro k
          rw [hloop.2.2 k]
          show resSum db k = ratSum (db'.transfers.map (transferPendingOut k))
          rw [hdocs.2.2.1]
          exact hres k
        · intro t ht hp
          have ht2 : t ∈ db'.transfers := ht
          rw [hdocs.2.2.1] at ht2
          exact hnn t ht2 hp
  | transferCreate req =>
    have hpw := (hcond : _ ∧ _).1
    have hnn' := (hcond : _ ∧ _).2
    simp only [applyOp, create_transfer] at h
    split at h
    · cases h
    · split at h
      · cases h
      · rename_i u hcheck
        have hcov : ∀ l ∈ req.transfer_lines, ∀ row ∈ db.stocks,
            prodStockPred req.from_shop_id l.product_id row = true →
            l.quantity ≤ row.quantity - row.reserved_quantity := by
          intro l hl row hrow hpred
          obtain ⟨s, hs⟩ := length_one_singleton
            (checkTransferLines_singleton hcheck l hl)
          have hm : row ∈ db.stocks.filter
              (prodStockPred req.from_shop_id l.product_id) :=
            List.mem_filter.mpr ⟨hrow, hpred⟩
          rw [hs] at hm
          have hrs : row = s := by simpa using hm
          rw [hrs]
          exact checkTransferLines_pass hcheck l hl s hs
        have hloop := reserveTransferLines_inv req.transfer_lines _ db' h hinv
          hclean hcov hnn' hpw
        have hdocs := reserveTransferLines_sameDocs req.transfer_lines _ db' h
        refine ⟨hloop.1, ?_, ?_, hloop.2.1⟩
        · intro k
          rw [hloop.2.2 k]
          show resSum db k + ratSum (req.transfer_lines.map
              (lineOut req.from_shop_id k))
            = ratSum (db'.transfers.map (transferPendingOut k))
          rw [hdocs.2.2.1]
          show _ = ratSum ((db.transfers ++ [({ id := db.nextId, transfer_number := req.transfer_number, from_shop_id := req.from_shop_id, to_shop_id := req.to_shop_id, status := TransferStatus.pending, lines := req.transfer_lines } : Transfer)]).map (transferPendingOut k))
          rw [ratSum_map_append]
          simp only [List.map_cons, List.map_nil, ratSum]
          rw [show transferPendingOut k ({ id := db.nextId, transfer_number := req.transfer_number, from_shop_id := req.from_shop_id, to_shop_id := req.to_shop_id, status := TransferStatus.pending, lines := req.transfer_lines } : Transfer) = ratSum (req.transfer_lines.map (lineOut req.from_shop_id k)) from by simp [transferPendingOut]]
          rw [hres k]
          simp only [pendingOut]
          ring
        · intro t ht hp l hl
          have ht2 : t ∈ db'.transfers := ht
          rw [hdocs.2.2.1] at ht2
          rcases List.mem_append.mp ht2 with hm | hm
          · exact hnn t hm hp l hl
          · simp at hm
            rw [hm] at hl
            exact hnn' l hl
  | transferReceive tid =>
    simp only [applyOp, receive_transfer] at h
    split at h
    · cases h
    · cases h
    · rename_i t heqT
      split at h
      · rename_i hpend
        split at h
        · cases h
        · rename_i db₁ hloopok
          cases h
          have hfiltT := scalarOneOrNone_eq_some.mp heqT
          have htmemf : t ∈ db.transfers.filter
              (fun t' : Transfer => decide (t'.id = tid)) := by
            rw [hfiltT]
            exact List.mem_singleton.mpr rfl
          have htmem := (List.mem_filter.mp htmemf).1
          have hnnt : ∀ l ∈ t.lines, 0 ≤ l.quantity := hnn t htmem hpend
          have hbound := receiveTransferLines_pred_bound t.lines db db₁ hloopok
          have hcovtop : ∀ l ∈ t.lines, ∀ row ∈ db.stocks,
              prodStockPred t.from_shop_id l.product_id row = true →
              ratSum (t.lines.map (lineOut t.from_shop_id (stockKey row)))
                ≤ row.reserved_quantity := by
            intro l hl row hrow hpred
            have hm : row ∈ db.stocks.filter
                (prodStockPred t.from_shop_id l.product_id) :=
              List.mem_filter.mpr ⟨hrow, hpred⟩
            have hpos : 0 < (db.stocks.filter
                (prodStockPred t.from_shop_id l.product_id)).length :=
              List.length_pos.mpr (List.ne_nil_of_mem hm)
            have hlen1 : (db.stocks.filter
                (prodStockPred t.from_shop_id l.product_id)).length = 1 :=
              Nat.le_antisymm (hbound l hl) hpos
            obtain ⟨r, hr⟩ := length_one_singleton hlen1
            have hrowr : row = r := by
              rw [hr] at hm
              simpa using hm
            have hfl : db.stocks.filter
                (prodStockPred t.from_shop_id l.product_id) = [row] := by
              rw [hr, hrowr]
            have hkeyr := stockKey_eq_prodKey (hclean row hrow) hpred
            rw [hkeyr]
            have hru := resSum_of_unique_row hclean hfl
            have hpo := pendingOut_ge_transfer
              (prodKey t.from_shop_id l.product_id) htmem hnn
            have htc : transferPendingOut (prodKey t.from_shop_id l.product_id) t
                = ratSum (t.lines.map (lineOut t.from_shop_id
                    (prodKey t.from_shop_id l.product_id))) := by
              simp [transferPendingOut, hpend]
            rw [← htc]
            exact le_trans hpo (le_of_eq ((hres _).symm.trans hru))
          have hloopinv := receiveTransferLines_inv t.lines db db₁ hloopok hinv
            hclean hnnt hcovtop
          have hdocs := receiveTransferLines_sameDocs t.lines db db₁ hloopok
          have htr : db₁.transfers = db.transfers := hdocs.2.2.1
          refine ⟨hloopinv.1, ?_, ?_, hloopinv.2.1⟩
          · intro k
            have hfind := filter_single_find? hfiltT
            have hupd := ratSum_map_updateFirst_find
              (fun t' : Transfer => decide (t'.id = tid))
              (fun t' => { t' with status := TransferStatus.received })
              (transferPendingOut k) db.transfers t hfind
            show resSum db₁ k = ratSum ((updateFirst
              (fun t' : Transfer => decide (t'.id = tid))
              (fun t' => { t' with status := TransferStatus.received })
              db₁.transfers).map (transferPendingOut k))
            rw [htr, hupd, hloopinv.2.2 k]
            rw [show transferPendingOut k { t with status := TransferStatus.received }
              = 0 from by simp [transferPendingOut]]
            rw [show transferPendingOut k t
              = ratSum (t.lines.map (lineOut t.from_shop_id k)) from by
                simp [transferPendingOut, hpend]]
            have hres' := hres k
            simp only [resSum, pendingOut] at hres'
            simp only [resSum]
            rw [hres']
            ring
          · intro t' ht' hp' l hl
            have ht2 : t' ∈ updateFirst
              (fun x : Transfer => decide (x.id = tid))
              (fun x => { x with status := TransferStatus.received })
              db₁.transfers := ht'
            rcases mem_updateFirstP ht2 with hm | ⟨y, hy, _, rfl⟩
            · rw [htr] at hm
              exact hnn t' hm hp' l hl
            · exact absurd hp' (by simp)
      · cases h
  | purchaseCreate req =>
    have hnn' : ∀ l ∈ req.purchase_lines, 0 ≤ l.quantity := hcond
    simp only [applyOp, create_purchase] at h
    have hloop := applyPurchaseLines_inv req.purchase_lines _ db' h hinv hclean hnn'
    have hdocs := applyPurchaseLines_sameDocs req.purchase_lines _ db' h
    refine ⟨hloop.1, ?_, ?_, hloop.2.1⟩
    · intro k
      rw [hloop.2.2 k]
      show resSum db k = ratSum (db'.transfers.map (transferPendingOut k))
      rw [hdocs.2.2.1]
      exact hres k
    · intro t ht hp
      have ht2 : t ∈ db'.transfers := ht
      rw [hdocs.2.2.1] at ht2
      exact hnn t ht2 hp
  | runCreate req =>
    simp only [applyOp, create_production_run] at h
    split at h
    · cases h
    · cases h
      exact ⟨hinv, hres, hnn, hclean⟩
  | runComplete rid =>
    simp only [applyOp, complete_production_run] at h
    split at h
    · cases h
    · cases h
    · rename_i run heqR
      split at h
      · rename_i hplanned
        split at h
        · cases h
        · rename_i u hcheck
          split at h
          · cases h
          · rename_i db₁ rc hcons
            split at h
            · cases h
            · rename_i db₂ hadd
              cases h
              have hfR := scalarOneOrNone_eq_some.mp heqR
              have hRmemf : run ∈ db.runs.filter
                  (fun r : ProductionRun => decide (r.id = rid)) := by
                rw [hfR]
                exact List.mem_singleton.mpr rfl
              have hRmem := (List.mem_filter.mp hRmemf).1
              have hRid : run.id = rid := by
                have := (List.mem_filter.mp hRmemf).2
                simpa using this
              have hcnd := hcond run hRmem hRid
              have hcovc : ∀ c ∈ run.consumptions, ∀ row ∈ db.stocks,
                  rawStockPred c.raw_material_id row = true →
                  c.planned_consumption ≤ row.quantity - row.reserved_quantity := by
                intro c hc row hrow hpred
                obtain ⟨s, hs⟩ := length_one_singleton
                  (checkConsumptions_singleton hcheck c hc)
                have hm : row ∈ db.stocks.filter
                    (rawStockPred c.raw_material_id) :=
                  List.mem_filter.mpr ⟨hrow, hpred⟩
                rw [hs] at hm
                have hrs : row = s := by simpa using hm
                rw [hrs]
                exact checkConsumptions_pass hcheck c hc s hs
              have h1 := consumeMaterials_inv run.consumptions db 0 db₁ rc hcons
                hinv hclean hcovc hcnd.1
              have h2 := addProducts_inv run.lines db₁ db₂ hadd h1.1 h1.2.1 hcnd.2
              have hd1 := consumeMaterials_sameDocs run.consumptions db 0 db₁ rc hcons
              have hd2 := addProducts_sameDocs run.lines db₁ db₂ hadd
              refine ⟨h2.1, ?_, ?_, h2.2.1⟩
              · intro k
                show resSum db₂ k
                  = ratSum (db₂.transfers.map (transferPendingOut k))
                rw [h2.2.2 k, h1.2.2 k, hd2.2.2.1, hd1.2.2.1]
                exact hres k
              · intro t ht hp
                have ht2 : t ∈ db₂.transfers := ht
                rw [hd2.2.2.1, hd1.2.2.1] at ht2
                exact hnn t ht2 hp
      · cases h
  | returnCreate req =>
    have hq : 0 ≤ req.quantity := hcond
    simp only [applyOp, create_return] at h
    split at h
    · cases h
    · rcases hfind : db.stocks.find?
        (prodStockPred (returnShop db req.sale_id) req.product_id) with _ | s0
      · rw [hfind] at h
        cases h
        refine ⟨?_, ?_, hnn, ?_⟩
        · intro s hs
          rcases List.mem_append.mp hs with hm | hm
          · exact hinv s hm
          · simp at hm
            rw [hm]
            exact ⟨le_refl 0, hq⟩
        · intro k
          show ratSum ((db.stocks ++ [({ shop_id := returnShop db req.sale_id, item_type := ItemType.product, product_id := some req.product_id, raw_material_id := none, quantity := req.quantity, reserved_quantity := 0, min_stock_level := 10 } : StockItem)]).map (keyRes k)) = pendingOut db k
          rw [ratSum_map_append]
          simp only [List.map_cons, List.map_nil, ratSum]
          rw [show keyRes k ({ shop_id := returnShop db req.sale_id, item_type := ItemType.product, product_id := some req.product_id, raw_material_id := none, quantity := req.quantity, reserved_quantity := 0, min_stock_level := 10 } : StockItem) = 0 from by simp [keyRes]]
          rw [show ratSum (db.stocks.map (keyRes k)) = resSum db k from rfl, hres k]
          ring
        · intro s hs hty
          rcases List.mem_append.mp hs with hm | hm
          · exact hclean s hm hty
          · simp at hm
            rw [hm]
      · rw [hfind] at h
        cases h
        refine ⟨?_, ?_, hnn, ?_⟩
        · intro s hs
          rcases mem_updateFirstP hs with hm | ⟨y, hy, _, rfl⟩
          · exact hinv s hm
          · have hb := hinv y hy
            have hb1 := hb.1
            have hb2 := hb.2
            refine ⟨hb1, ?_⟩
            show y.reserved_quantity ≤ y.quantity + req.quantity
            linarith
        · intro k
          show ratSum ((updateFirst
              (prodStockPred (returnShop db req.sale_id) req.product_id)
              (fun s => { s with quantity := s.quantity + req.quantity })
              db.stocks).map (keyRes k)) = pendingOut db k
          rw [ratSum_keyRes_updFirst_qty
            (prodStockPred (returnShop db req.sale_id) req.product_id) _ k]
          exact hres k
        · refine prodClean_updateFirst _ _ ?_ hclean
          exact fun s => ⟨rfl, rfl⟩

/-- C2, counterexample: every position of the pre-state satisfies
0 ≤ reserved ≤ quantity, the stock adjustment of −10 against 5 on hand
commits, and afterwards a position has quantity −5 below its reservation 0. -/
theorem C2_counterexample :
    (∀ s ∈ c1db.stocks, 0 ≤ s.reserved_quantity ∧ s.reserved_quantity ≤ s.quantity) ∧
    applyOp c1db (Op.adjust c1req) = Except.ok c2db ∧
    ∃ s ∈ c2db.stocks, s.quantity < s.reserved_quantity := by
  refine ⟨?_, ?_, ?_⟩
  · intro s hs
    simp [c1db, emptyDB] at hs
    rw [hs]
    norm_num [c1row]
  · norm_num [applyOp, adjust_stock, adjustPred, truthy, c1db, c1row, c1req,
      c2db, c2row, c2mv, emptyDB, updateFirst, List.find?]
  · refine ⟨c2row, ?_, ?_⟩
    · simp [c2db, c1db, emptyDB]
    · norm_num [c2row, c1row]

/-- C2: from the empty database, under the side conditions of `CondC2`
(adjustments never push a matched row's quantity below its reservation; sale
and transfer requests list each product once; transfer, purchase, production
and return quantities are nonnegative), every committed operation leaves
every stock position with 0 ≤ reserved_quantity ≤ quantity.  Without those
conditions the invariant is refutable (see the counterexample): the routes
never re-check it. -/
theorem C2_reservation_invariant (db : DBState)
    (hreach : ReachesFrom CondC2 emptyDB db) :
    ∀ s ∈ db.stocks, 0 ≤ s.reserved_quantity ∧ s.reserved_quantity ≤ s.quantity := by
  have hI : C2Inv db := by
    induction hreach with
    | init =>
      refine ⟨?_, ?_, ?_, ?_⟩
      · intro s hs
        simp [emptyDB] at hs
      · intro k
        rfl
      · intro t ht
        simp [emptyDB] at ht
      · intro s hs
        simp [emptyDB] at hs
    | step hprev hcond hop ih => exact applyOp_C2 hop hcond ih
  exact hI.1

/-- C2, witness: after the purchase and run-creation steps (which satisfy
the side conditions) the material's stock row satisfies the invariant. -/
theorem C2_reservation_invariant_witness :
    0 ≤ c8rowW.reserved_quantity ∧ c8rowW.reserved_quantity ≤ c8rowW.quantity :=
  C2_reservation_invariant c8db
    (ReachesFrom.step
      (ReachesFrom.step ReachesFrom.init
        (show CondC2 emptyDB c8op1 from by
          intro l hl
          simp [c8op1] at hl
          rw [hl]
          norm_num [c8pline])
        c8_step1)
      (show CondC2 c8dbA c8op2 from trivial) c8_step2)
    c8rowW (by simp [c8db, c8dbA])

/-! ### Claim C3: cleanliness preservation and key identification -/

theorem applySaleLines_clean {shop sid : Nat} :
    ∀ (ls : List SaleLine) (db db' : DBState),
      applySaleLines shop sid ls db = Except.ok db' →
      ProdRowsClean db.stocks → ProdRowsClean db'.stocks
  | [], db, db', h, hc => by
    cases h
    exact hc
  | l :: rest, db, db', h, hc => by
    simp only [applySaleLines] at h
    split at h
    · cases h
    · cases h
    · have hrec := applySaleLines_clean rest _ db' h
      refine hrec (prodClean_updateFirst _ _ ?_ hc)
      exact fun s => ⟨rfl, rfl⟩

theorem reserveTransferLines_clean {shop tid : Nat} :
    ∀ (ls : List TransferLine) (db db' : DBState),
      reserveTransferLines shop tid ls db = Except.ok db' →
      ProdRowsClean db.stocks → ProdRowsClean db'.stocks
  | [], db, db', h, hc => by
    cases h
    exact hc
  | l :: rest, db, db', h, hc => by
    simp only [reserveTransferLines] at h
    split at h
    · cases h
    · cases h
    · have hrec := reserveTransferLines_clean rest _ db' h
      refine hrec (prodClean_updateFirst _ _ ?_ hc)
      exact fun s => ⟨rfl, rfl⟩

theorem prodClean_append_single {stocks : List StockItem} {new : StockItem}
    (hc : ProdRowsClean stocks)
    (hnew : new.item_type = ItemType.product → new.raw_material_id = none) :
    ProdRowsClean (stocks ++ [new]) := by
  intro s hs hty
  rcases List.mem_append.mp hs with hm | hm
  · exact hc s hm hty
  · simp at hm
    rw [hm] at hty ⊢
    exact hnew hty

theorem receiveTransferLine_clean {fromShop toShop tid : Nat}
    {l : TransferLine} {db db' : DBState}
    (h : receiveTransferLine fromShop toShop tid l db = Except.ok db')
    (hc : ProdRowsClean db.stocks) : ProdRowsClean db'.stocks := by
  simp only [receiveTransferLine] at h
  split at h
  · cases h
  · cases h
  · split at h
    · cases h
    · cases h
      refine prodClean_append_single (prodClean_updateFirst _ _ ?_ hc) (fun _ => rfl)
      exact fun s => ⟨rfl, rfl⟩
    · cases h
      refine prodClean_updateFirst _ _ ?_ (prodClean_updateFirst _ _ ?_ hc)
      · exact fun s => ⟨rfl, rfl⟩
      · exact fun s => ⟨rfl, rfl⟩

theorem receiveTransferLines_clean {fromShop toShop tid : Nat} :
    ∀ (ls : List TransferLine) (db db' : DBState),
      receiveTransferLines fromShop toShop tid ls db = Except.ok db' →
      ProdRowsClean db.stocks → ProdRowsClean db'.stocks
  | [], db, db', h, hc => by
    cases h
    exact hc
  | l :: rest, db, db', h, hc => by
    simp only [receiveTransferLines] at h
    split at h
    · cases h
    · rename_i db₁ hline
      exact receiveTransferLines_clean rest db₁ db' h
        (receiveTransferLine_clean hline hc)

theorem applyPurchaseLines_clean {pid : Nat} :
    ∀ (ls : List PurchaseLine) (db db' : DBState),
      applyPurchaseLines pid ls db = Except.ok db' →
      ProdRowsClean db.stocks → ProdRowsClean db'.stocks
  | [], db, db', h, hc => by
    cases h
    exact hc
  | l :: rest, db, db', h, hc => by
    simp only [applyPurchaseLines] at h
    split at h
    · cases h
    · have hrec := applyPurchaseLines_clean rest _ db' h
      exact hrec (prodClean_append_single hc (fun hty => ItemType.noConfusion hty))
    · have hrec := applyPurchaseLines_clean rest _ db' h
      refine hrec (prodClean_updateFirst _ _ ?_ hc)
      exact fun s => ⟨rfl, rfl⟩

theorem consumeMaterials_clean {rid : Nat} :
    ∀ (cs : List ProductionConsumption) (db : DBState) (cost : Rat)
      (db' : DBState) (cost' : Rat),
      consumeMaterials rid cs db cost = Except.ok (db', cost') →
      ProdRowsClean db.stocks → ProdRowsClean db'.stocks
  | [], db, cost, db', cost', h, hc => by
    cases h
    exact hc
  | c :: rest, db, cost, db', cost', h, hc => by
    simp only [consumeMaterials] at h
    split at h
    · cases h
    · cases h
    · split at h
      · cases h
      · cases h
      · have hrec := consumeMaterials_clean rest _ _ db' cost' h
        refine hrec (prodClean_updateFirst _ _ ?_ hc)
        exact fun s => ⟨rfl, rfl⟩

theorem addProducts_clean {rid : Nat} :
    ∀ (ls : List ProductionLine) (db db' : DBState),
      addProducts rid ls db = Except.ok db' →
      ProdRowsClean db.stocks → ProdRowsClean db'.stocks
  | [], db, db', h, hc => by
    cases h
    exact hc
  | l :: rest, db, db', h, hc => by
    simp only [addProducts] at h
    split at h
    · cases h
    · have hrec := addProducts_clean rest _ db' h
      exact hrec (prodClean_append_single hc (fun _ => rfl))
    · have hrec := addProducts_clean rest _ db' h
      refine hrec (prodClean_updateFirst _ _ ?_ hc)
      exact fun s => ⟨rfl, rfl⟩

/-- Every committed operation keeps product rows clean: creators of product
rows never set a raw-material id, and updates keep identity fields. -/
theorem applyOp_prodClean {db db' : DBState} {op : Op}
    (h : applyOp db op = Except.ok db') (hc : ProdRowsClean db.stocks) :
    ProdRowsClean db'.stocks := by
  cases op with
  | adjust req =>
    simp only [applyOp, adjust_stock] at h
    split at h
    · cases h
    · cases h
      refine prodClean_updateFirst _ _ ?_ hc
      exact fun s => ⟨rfl, rfl⟩
  | saleCreate req =>
    simp only [applyOp, create_sale] at h
    split at h
    · cases h
    · split at h
      · cases h
      · exact applySaleLines_clean req.sale_lines _ db' h hc
  | transferCreate req =>
    simp only [applyOp, create_transfer] at h
    split at h
    · cases h
    · split at h
      · cases h
      · exact reserveTransferLines_clean req.transfer_lines _ db' h hc
  | transferReceive tid =>
    simp only [applyOp, receive_transfer] at h
    split at h
    · cases h
    · cases h
    · split at h
      · split at h
        · cases h
        · rename_i db₁ hlines
          cases h
          exact receiveTransferLines_clean _ _ db₁ hlines hc
      · cases h
  | purchaseCreate req =>
    simp only [applyOp, create_purchase] at h
    exact applyPurchaseLines_clean req.purchase_lines _ db' h hc
  | runCreate req =>
    simp only [applyOp, create_production_run] at h
    split at h
    · cases h
    · cases h
      exact hc
  | runComplete rid =>
    simp only [applyOp, complete_production_run] at h
    split at h
    · cases h
    · cases h
    · split at h
      · split at h
        · cases h
        · split at h
          · cases h
          · rename_i pr hcons
            split at h
            · cases h
            · rename_i db₂ hadd
              cases h
              exact addProducts_clean _ _ db₂ hadd
                (consumeMaterials_clean _ _ _ _ _ hcons hc)
      · cases h
  | returnCreate req =>
    simp only [applyOp, create_return] at h
    split at h
    · cases h
    · rcases hfind : db.stocks.find?
        (prodStockPred (returnShop db req.sale_id) req.product_id) with _ | s0
      · rw [hfind] at h
        cases h
        exact prodClean_append_single hc (fun _ => rfl)
      · rw [hfind] at h
        cases h
        refine prodClean_updateFirst _ _ ?_ hc
        exact fun s => ⟨rfl, rfl⟩

/-- A raw-material row matching the material lookup sits at the warehouse's
raw pair of that material. -/
theorem stockKey_eq_rawKey {mid : Option Nat} {s : StockItem}
    (hraw : s.item_type = ItemType.rawMaterial → s.shop_id = 1 ∧ s.product_id = none)
    (hp : rawStockPredOpt mid s = true) :
    stockKey s = { shop := 1, kind := ItemType.rawMaterial, pid := none, mid := mid } := by
  simp only [rawStockPredOpt, Bool.and_eq_true, decide_eq_true_eq] at hp
  obtain ⟨h1, h2⟩ := hp
  obtain ⟨h3, h4⟩ := hraw h2
  simp [stockKey, h1, h2, h3, h4]

/-- A clean product row at the warehouse matching the shop-agnostic product
lookup sits at the warehouse's product pair. -/
theorem stockKey_eq_prodKey1 {pid : Nat} {s : StockItem}
    (hclean : s.item_type = ItemType.product → s.raw_material_id = none)
    (hshop : s.shop_id = 1)
    (hp : prodAnyShopPred pid s = true) : stockKey s = prodKey 1 pid := by
  simp only [prodAnyShopPred, Bool.and_eq_true, decide_eq_true_eq] at hp
  obtain ⟨h1, h2⟩ := hp
  simp [stockKey, prodKey, h1, h2, hshop, hclean h2]

/-- Orientation helper for line contributions. -/
theorem lineOut_comm (shop : Nat) (k : PairKey) (l : TransferLine) :
    lineOut shop k l = if prodKey shop l.product_id = k then l.quantity else 0 := by
  rw [show lineOut shop k l
    = if k = prodKey shop l.product_id then l.quantity else 0 from rfl]
  by_cases hk : k = prodKey shop l.product_id
  · rw [if_pos hk, if_pos hk.symm]
  · rw [if_neg hk, if_neg (fun hc => hk hc.symm)]

/-- The sale write loop subtracts each line's quantity from its pair on
both sides of the ledger: movement sums and on-hand sums drop together. -/
theorem applySaleLines_recon {shop sid : Nat} :
    ∀ (ls : List SaleLine) (db db' : DBState),
      applySaleLines shop sid ls db = Except.ok db' →
      ProdRowsClean db.stocks →
      (∀ k, moveSum db' k = moveSum db k - saleOutAt shop ls k) ∧
      (∀ k, onHand db' k = onHand db k - saleOutAt shop ls k)
  | [], db, db', h, hc => by
    cases h
    exact ⟨fun k => by simp [saleOutAt, ratSum],
      fun k => by simp [saleOutAt, ratSum]⟩
  | l :: rest, db, db', h, hc => by
    simp only [applySaleLines] at h
    split at h
    · cases h
    · cases h
    · rename_i s₀ heq
      have hfilter := scalarOneOrNone_eq_some.mp heq
      have hs0memf : s₀ ∈ db.stocks.filter (prodStockPred shop l.product_id) := by
        rw [hfilter]
        exact List.mem_singleton.mpr rfl
      have hs0mem := (List.mem_filter.mp hs0memf).1
      have hs0pred := (List.mem_filter.mp hs0memf).2
      have hkey := stockKey_eq_prodKey (hc s₀ hs0mem) hs0pred
      have hc1 : ProdRowsClean (updateFirst (prodStockPred shop l.product_id)
          (fun s => { s with quantity := s.quantity - l.quantity }) db.stocks) := by
        refine prodClean_updateFirst _ _ ?_ hc
        exact fun s => ⟨rfl, rfl⟩
      have hrec := applySaleLines_recon rest _ db' h hc1
      constructor
      · intro k
        rw [hrec.1 k]
        simp only [moveSum]
        rw [ratSum_keyMove_append]
        rw [show saleOutAt shop (l :: rest) k
          = (if prodKey shop l.product_id = k then l.quantity else 0)
            + saleOutAt shop rest k from by simp [saleOutAt, ratSum]]
        simp only [keyMove, moveKey, prodKey]
        by_cases hk : ({ shop := shop, kind := ItemType.product, pid := some l.product_id, mid := none } : PairKey) = k
        · rw [if_pos hk, if_pos hk]
          ring
        · rw [if_neg hk, if_neg hk]
          ring
      · intro k
        rw [hrec.2 k]
        simp only [onHand]
        rw [ratSum_keyQty_updateFirst hfilter k]
        rw [show saleOutAt shop (l :: rest) k
          = (if prodKey shop l.product_id = k then l.quantity else 0)
            + saleOutAt shop rest k from by simp [saleOutAt, ratSum]]
        have hkf : stockKey { s₀ with quantity := s₀.quantity - l.quantity }
            = prodKey shop l.product_id := hkey
        simp only [keyQty, hkf, hkey, prodKey]
        by_cases hk : ({ shop := shop, kind := ItemType.product, pid := some l.product_id, mid := none } : PairKey) = k
        · rw [if_pos hk, if_pos hk, if_pos hk]
          ring
        · rw [if_neg hk, if_neg hk, if_neg hk]
          ring

/-- The transfer reservation loop records each line's TRANSFER_OUT movement
without touching on-hand quantities. -/
theorem reserveTransferLines_recon {shop tid : Nat} :
    ∀ (ls : List TransferLine) (db db' : DBState),
      reserveTransferLines shop tid ls db = Except.ok db' →
      (∀ k, moveSum db' k = moveSum db k - ratSum (ls.map (lineOut shop k))) ∧
      (∀ k, onHand db' k = onHand db k)
  | [], db, db', h => by
    cases h
    exact ⟨fun k => by simp [ratSum], fun k => rfl⟩
  | l :: rest, db, db', h => by
    simp only [reserveTransferLines] at h
    split at h
    · cases h
    · cases h
    · have hrec := reserveTransferLines_recon rest _ db' h
      constructor
      · intro k
        rw [hrec.1 k]
        simp only [moveSum]
        rw [ratSum_keyMove_append]
        rw [show ratSum ((l :: rest).map (lineOut shop k))
          = lineOut shop k l + ratSum (rest.map (lineOut shop k)) from by
            simp [ratSum]]
        rw [lineOut_comm]
        simp only [keyMove, moveKey, prodKey]
        by_cases hk : ({ shop := shop, kind := ItemType.product, pid := some l.product_id, mid := none } : PairKey) = k
        · rw [if_pos hk, if_pos hk]
          ring
        · rw [if_neg hk, if_neg hk]
          ring
      · intro k
        rw [hrec.2 k]
        simp only [onHand]
        exact ratSum_keyQty_updFirst_res _ _ k db.stocks

/-- The purchase stock loop adds each line's quantity at the warehouse's
raw-material pair on both sides of the ledger. -/
theorem applyPurchaseLines_recon {pid : Nat} :
    ∀ (ls : List PurchaseLine) (db db' : DBState),
      applyPurchaseLines pid ls db = Except.ok db' →
      RawRowsShop1 db.stocks →
      (∀ k, moveSum db' k = moveSum db k + ratSum (ls.map (purchAdd k))) ∧
      (∀ k, onHand db' k = onHand db k + ratSum (ls.map (purchAdd k)))
  | [], db, db', h, hr => by
    cases h
    exact ⟨fun k => by simp [ratSum], fun k => by simp [ratSum]⟩
  | l :: rest, db, db', h, hr => by
    simp only [applyPurchaseLines] at h
    split at h
    · cases h
    · have hr1 : RawRowsShop1 (db.stocks ++ [{ shop_id := 1, item_type := ItemType.rawMaterial, product_id := none, raw_material_id := l.raw_material_id, quantity := l.quantity, reserved_quantity := 0, min_stock_level := 10 }]) := by
        refine rawRowsShop1_append hr ?_
        intro s hs _
        simp at hs
        rw [hs]
        exact ⟨rfl, rfl⟩
      have hrec := applyPurchaseLines_recon rest _ db' h hr1
      constructor
      · intro k
        rw [hrec.1 k]
        simp only [moveSum]
        rw [ratSum_keyMove_append]
        rw [show ratSum ((l :: rest).map (purchAdd k))
          = purchAdd k l + ratSum (rest.map (purchAdd k)) from by simp [ratSum]]
        simp only [keyMove, moveKey, purchAdd]
        by_cases hk : ({ shop := 1, kind := ItemType.rawMaterial, pid := none, mid := l.raw_material_id } : PairKey) = k
        · simp only [if_pos hk]
          ring
        · simp only [if_neg hk]
          ring
      · intro k
        rw [hrec.2 k]
        simp only [onHand]
        rw [ratSum_keyQty_append]
        rw [show ratSum ((l :: rest).map (purchAdd k))
          = purchAdd k l + ratSum (rest.map (purchAdd k)) from by simp [ratSum]]
        simp only [keyQty, stockKey, purchAdd]
        by_cases hk : ({ shop := 1, kind := ItemType.rawMaterial, pid := none, mid := l.raw_material_id } : PairKey) = k
        · simp only [if_pos hk]
          ring
        · simp only [if_neg hk]
          ring
    · rename_i s₀ heq
      have hfilter := scalarOneOrNone_eq_some.mp heq
      have hs0memf : s₀ ∈ db.stocks.filter (rawStockPredOpt l.raw_material_id) := by
        rw [hfilter]
        exact List.mem_singleton.mpr rfl
      have hs0mem := (List.mem_filter.mp hs0memf).1
      have hs0pred := (List.mem_filter.mp hs0memf).2
      have hkey := stockKey_eq_rawKey (hr s₀ hs0mem) hs0pred
      have hr1 : RawRowsShop1 (updateFirst (rawStockPredOpt l.raw_material_id)
          (fun s => { s with quantity := s.quantity + l.quantity }) db.stocks) := by
        refine rawRowsShop1_updateFirst _ _ ?_ hr
        exact fun s => ⟨rfl, rfl, rfl⟩
      have hrec := applyPurchaseLines_recon rest _ db' h hr1
      constructor
      · intro k
        rw [hrec.1 k]
        simp only [moveSum]
        rw [ratSum_keyMove_append]
        rw [show ratSum ((l :: rest).map (purchAdd k))
          = purchAdd k l + ratSum (rest.map (purchAdd k)) from by simp [ratSum]]
        simp only [keyMove, moveKey, purchAdd]
        by_cases hk : ({ shop := 1, kind := ItemType.rawMaterial, pid := none, mid := l.raw_material_id } : PairKey) = k
        · simp only [if_pos hk]
          ring
        · simp only [if_neg hk]
          ring
      · intro k
        rw [hrec.2 k]
        simp only [onHand]
        rw [ratSum_keyQty_updateFirst hfilter k]
        rw [show ratSum ((l :: rest).map (purchAdd k))
          = purchAdd k l + ratSum (rest.map (purchAdd k)) from by simp [ratSum]]
        have hkf : stockKey { s₀ with quantity := s₀.quantity + l.quantity }
            = ({ shop := 1, kind := ItemType.rawMaterial, pid := none, mid := l.raw_material_id } : PairKey) := hkey
        simp only [keyQty, hkf, hkey, purchAdd]
        by_cases hk : ({ shop := 1, kind := ItemType.rawMaterial, pid := none, mid := l.raw_material_id } : PairKey) = k
        · simp only [if_pos hk]
          ring
        · simp only [if_neg hk]
          ring

/-- The consumption loop subtracts each row's planned consumption at the
warehouse's raw-material pair on both sides of the ledger. -/
theorem consumeMaterials_recon {rid : Nat} :
    ∀ (cs : List ProductionConsumption) (db : DBState) (cost : Rat)
      (db' : DBState) (cost' : Rat),
      consumeMaterials rid cs db cost = Except.ok (db', cost') →
      RawRowsShop1 db.stocks →
      (∀ k, moveSum db' k = moveSum db k - ratSum (cs.map (consOut k))) ∧
      (∀ k, onHand db' k = onHand db k - ratSum (cs.map (consOut k)))
  | [], db, cost, db', cost', h, hr => by
    cases h
    exact ⟨fun k => by simp [ratSum], fun k => by simp [ratSum]⟩
  | c :: rest, db, cost, db', cost', h, hr => by
    simp only [consumeMaterials] at h
    split at h
    · cases h
    · cases h
    · rename_i s₀ heq
      split at h
      · cases h
      · cases h
      · have hfilter := scalarOneOrNone_eq_some.mp heq
        have hs0memf : s₀ ∈ db.stocks.filter (rawStockPred c.raw_material_id) := by
          rw [hfilter]
          exact List.mem_singleton.mpr rfl
        have hs0mem := (List.mem_filter.mp hs0memf).1
        have hs0pred := (List.mem_filter.mp hs0memf).2
        have hkey : stockKey s₀ = ({ shop := 1, kind := ItemType.rawMaterial, pid := none, mid := some c.raw_material_id } : PairKey) :=
          stockKey_eq_rawKey (hr s₀ hs0mem) hs0pred
        have hr1 : RawRowsShop1 (updateFirst (rawStockPred c.raw_material_id)
            (fun s => { s with quantity := s.quantity - c.planned_consumption })
            db.stocks) := by
          refine rawRowsShop1_updateFirst _ _ ?_ hr
          exact fun s => ⟨rfl, rfl, rfl⟩
        have hrec := consumeMaterials_recon rest _ _ db' cost' h hr1
        constructor
        · intro k
          rw [hrec.1 k]
          simp only [moveSum]
          rw [ratSum_keyMove_append]
          rw [show ratSum ((c :: rest).map (consOut k))
            = consOut k c + ratSum (rest.map (consOut k)) from by simp [ratSum]]
          simp only [keyMove, moveKey, consOut]
          by_cases hk : ({ shop := 1, kind := ItemType.rawMaterial, pid := none, mid := some c.raw_material_id } : PairKey) = k
          · simp only [if_pos hk]
            ring
          · simp only [if_neg hk]
            ring
        · intro k
          rw [hrec.2 k]
          simp only [onHand]
          rw [ratSum_keyQty_updateFirst hfilter k]
          rw [show ratSum ((c :: rest).map (consOut k))
            = consOut k c + ratSum (rest.map (consOut k)) from by simp [ratSum]]
          have hkf : stockKey { s₀ with quantity := s₀.quantity - c.planned_consumption }
              = ({ shop := 1, kind := ItemType.rawMaterial, pid := none, mid := some c.raw_material_id } : PairKey) := hkey
          simp only [keyQty, hkf, hkey, consOut]
          by_cases hk : ({ shop := 1, kind := ItemType.rawMaterial, pid := none, mid := some c.raw_material_id } : PairKey) = k
          · simp only [if_pos hk]
            ring
          · simp only [if_neg hk]
            ring

/-- The consumption loop moves no product row between shops. -/
theorem consumeMaterials_prodShop1 {rid : Nat} (pid : Nat) :
    ∀ (cs : List ProductionConsumption) (db : DBState) (cost : Rat)
      (db' : DBState) (cost' : Rat),
      consumeMaterials rid cs db cost = Except.ok (db', cost') →
      (∀ row ∈ db.stocks, prodAnyShopPred pid row = true → row.shop_id = 1) →
      (∀ row ∈ db'.stocks, prodAnyShopPred pid row = true → row.shop_id = 1)
  | [], db, cost, db', cost', h, hp => by
    cases h
    exact hp
  | c :: rest, db, cost, db', cost', h, hp => by
    simp only [consumeMaterials] at h
    split at h
    · cases h
    · cases h
    · split at h
      · cases h
      · cases h
      · have hrec := consumeMaterials_prodShop1 pid rest _ _ db' cost' h
        refine hrec ?_
        intro row hrow hpred
        rcases mem_updateFirstP hrow with hm | ⟨y, hy, _, rfl⟩
        · exact hp row hm hpred
        · exact hp y hy hpred

/-- The production stock loop (products rowed only at the warehouse) adds
each line's planned quantity at the warehouse's product pair on both sides
of the ledger. -/
theorem addProducts_recon {rid : Nat} :
    ∀ (ls : List ProductionLine) (db db' : DBState),
      addProducts rid ls db = Except.ok db' →
      ProdRowsClean db.stocks →
      (∀ l ∈ ls, ∀ row ∈ db.stocks, prodAnyShopPred l.product_id row = true →
        row.shop_id = 1) →
      (∀ k, moveSum db' k = moveSum db k + ratSum (ls.map (prodAddOut k))) ∧
      (∀ k, onHand db' k = onHand db k + ratSum (ls.map (prodAddOut k)))
  | [], db, db', h, _, _ => by
    cases h
    exact ⟨fun k => by simp [ratSum], fun k => by simp [ratSum]⟩
  | l :: rest, db, db', h, hc, hshop => by
    simp only [addProducts] at h
    split at h
    · cases h
    · have hc1 : ProdRowsClean (db.stocks ++ [{ shop_id := 1, item_type := ItemType.product, product_id := some l.product_id, raw_material_id := none, quantity := l.planned_quantity, reserved_quantity := 0, min_stock_level := 10 }]) :=
        prodClean_append_single hc (fun _ => rfl)
      have hs1 : ∀ l' ∈ rest, ∀ row ∈ db.stocks ++ [{ shop_id := 1, item_type := ItemType.product, product_id := some l.product_id, raw_material_id := none, quantity := l.planned_quantity, reserved_quantity := 0, min_stock_level := 10 }],
          prodAnyShopPred l'.product_id row = true → row.shop_id = 1 := by
        intro l' hl' row hrow hpred
        rcases List.mem_append.mp hrow with hm | hm
        · exact hshop l' (by simp [hl']) row hm hpred
        · simp at hm
          rw [hm]
      have hrec := addProducts_recon rest _ db' h hc1 hs1
      constructor
      · intro k
        rw [hrec.1 k]
        simp only [moveSum]
        rw [ratSum_keyMove_append]
        rw [show ratSum ((l :: rest).map (prodAddOut k))
          = prodAddOut k l + ratSum (rest.map (prodAddOut k)) from by simp [ratSum]]
        simp only [keyMove, moveKey, prodAddOut, prodKey]
        by_cases hk : ({ shop := 1, kind := ItemType.product, pid := some l.product_id, mid := none } : PairKey) = k
        · simp only [if_pos hk]
          ring
        · simp only [if_neg hk]
          ring
      · intro k
        rw [hrec.2 k]
        simp only [onHand]
        rw [ratSum_keyQty_append]
        rw [show ratSum ((l :: rest).map (prodAddOut k))
          = prodAddOut k l + ratSum (rest.map (prodAddOut k)) from by simp [ratSum]]
        simp only [keyQty, stockKey, prodAddOut, prodKey]
        by_cases hk : ({ shop := 1, kind := ItemType.product, pid := some l.product_id, mid := none } : PairKey) = k
        · simp only [if_pos hk]
          ring
        · simp only [if_neg hk]
          ring
    · rename_i s₀ heq
      have hfilter := scalarOneOrNone_eq_some.mp heq
      have hs0memf : s₀ ∈ db.stocks.filter (prodAnyShopPred l.product_id) := by
        rw [hfilter]
        exact List.mem_singleton.mpr rfl
      have hs0mem := (List.mem_filter.mp hs0memf).1
      have hs0pred := (List.mem_filter.mp hs0memf).2
      have hkey := stockKey_eq_prodKey1 (hc s₀ hs0mem)
        (hshop l (by simp) s₀ hs0mem hs0pred) hs0pred
      have hc1 : ProdRowsClean (updateFirst (prodAnyShopPred l.product_id)
          (fun s => { s with quantity := s.quantity + l.planned_quantity })
          db.stocks) := by
        refine prodClean_updateFirst _ _ ?_ hc
        exact fun s => ⟨rfl, rfl⟩
      have hs1 : ∀ l' ∈ rest, ∀ row ∈ updateFirst (prodAnyShopPred l.product_id)
          (fun s => { s with quantity := s.quantity + l.planned_quantity })
          db.stocks, prodAnyShopPred l'.product_id row = true → row.shop_id = 1 := by
        intro l' hl' row hrow hpred
        rcases mem_updateFirstP hrow with hm | ⟨y, hy, _, rfl⟩
        · exact hshop l' (by simp [hl']) row hm hpred
        · exact hshop l' (by simp [hl']) y hy hpred
      have hrec := addProducts_recon rest _ db' h hc1 hs1
      constructor
      · intro k
        rw [hrec.1 k]
        simp only [moveSum]
        rw [ratSum_keyMove_append]
        rw [show ratSum ((l :: rest).map (prodAddOut k))
          = prodAddOut k l + ratSum (rest.map (prodAddOut k)) from by simp [ratSum]]
        simp only [keyMove, moveKey, prodAddOut, prodKey]
        by_cases hk : ({ shop := 1, kind := ItemType.product, pid := some l.product_id, mid := none } : PairKey) = k
        · simp only [if_pos hk]
          ring
        · simp only [if_neg hk]
          ring
      · intro k
        rw [hrec.2 k]
        simp only [onHand]
        rw [ratSum_keyQty_updateFirst hfilter k]
        rw [show ratSum ((l :: rest).map (prodAddOut k))
          = prodAddOut k l + ratSum (rest.map (prodAddOut k)) from by simp [ratSum]]
        have hkf : stockKey { s₀ with quantity := s₀.quantity + l.planned_quantity }
            = prodKey 1 l.product_id := hkey
        simp only [keyQty, hkf, hkey, prodAddOut, prodKey]
        by_cases hk : ({ shop := 1, kind := ItemType.product, pid := some l.product_id, mid := none } : PairKey) = k
        · simp only [if_pos hk]
          ring
        · simp only [if_neg hk]
          ring

/-- The receive loop records each line's TRANSFER_IN movement at the
destination pair, moving the quantity from the source pair to the
destination pair. -/
theorem receiveTransferLines_recon {fromShop toShop tid : Nat} :
    ∀ (ls : List TransferLine) (db db' : DBState),
      receiveTransferLines fromShop toShop tid ls db = Except.ok db' →
      ProdRowsClean db.stocks →
      (∀ k, moveSum db' k = moveSum db k + ratSum (ls.map (lineOut toShop k))) ∧
      (∀ k, onHand db' k = onHand db k - ratSum (ls.map (lineOut fromShop k))
        + ratSum (ls.map (lineOut toShop k)))
  | [], db, db', h, hc => by
    cases h
    exact ⟨fun k => by simp [ratSum], fun k => by simp [ratSum]⟩
  | l :: rest, db, db', h, hc => by
    simp only [receiveTransferLines] at h
    split at h
    · cases h
    · rename_i db₁ hline
      simp only [receiveTransferLine] at hline
      split at hline
      · cases hline
      · cases hline
      · rename_i s₀ heq
        have hfilter := scalarOneOrNone_eq_some.mp heq
        have hs0memf : s₀ ∈ db.stocks.filter (prodStockPred fromShop l.product_id) := by
          rw [hfilter]
          exact List.mem_singleton.mpr rfl
        have hs0mem := (List.mem_filter.mp hs0memf).1
        have hs0pred := (List.mem_filter.mp hs0memf).2
        have hkey := stockKey_eq_prodKey (hc s₀ hs0mem) hs0pred
        have hcmid : ProdRowsClean (updateFirst (prodStockPred fromShop l.product_id)
            (fun s => { s with quantity := s.quantity - l.quantity, reserved_quantity := s.reserved_quantity - l.quantity })
            db.stocks) := by
          refine prodClean_updateFirst _ _ ?_ hc
          exact fun s => ⟨rfl, rfl⟩
        have hqsrc : ∀ k, ratSum ((updateFirst (prodStockPred fromShop l.product_id)
            (fun s => { s with quantity := s.quantity - l.quantity, reserved_quantity := s.reserved_quantity - l.quantity })
            db.stocks).map (keyQty k))
            = ratSum (db.stocks.map (keyQty k)) - lineOut fromShop k l := by
          intro k
          rw [ratSum_keyQty_updateFirst hfilter k, lineOut_comm]
          have hkf : stockKey { s₀ with quantity := s₀.quantity - l.quantity, reserved_quantity := s₀.reserved_quantity - l.quantity }
              = prodKey fromShop l.product_id := hkey
          simp only [keyQty, hkf, hkey]
          by_cases hk : prodKey fromShop l.product_id = k
          · simp only [if_pos hk]
            ring
          · simp only [if_neg hk]
            ring
        have hmv : ∀ k, keyMove k ({ shop_id := toShop, item_type := ItemType.product, product_id := some l.product_id, raw_material_id := none, quantity := l.quantity, reason := MovementReason.transferIn, reference_id := some tid, reference_type := some "transfer", notes := none } : StockMovement)
            = lineOut toShop k l := by
          intro k
          rw [lineOut_comm]
          rw [show keyMove k ({ shop_id := toShop, item_type := ItemType.product, product_id := some l.product_id, raw_material_id := none, quantity := l.quantity, reason := MovementReason.transferIn, reference_id := some tid, reference_type := some "transfer", notes := none } : StockMovement) = if moveKey ({ shop_id := toShop, item_type := ItemType.product, product_id := some l.product_id, raw_material_id := none, quantity := l.quantity, reason := MovementReason.transferIn, reference_id := some tid, reference_type := some "transfer", notes := none } : StockMovement) = k then l.quantity else 0 from rfl]
          rw [show moveKey ({ shop_id := toShop, item_type := ItemType.product, product_id := some l.product_id, raw_material_id := none, quantity := l.quantity, reason := MovementReason.transferIn, reference_id := some tid, reference_type := some "transfer", notes := none } : StockMovement) = prodKey toShop l.product_id from rfl]
        split at hline
        · cases hline
        · rename_i heq2
          cases hline
          have hc1 : ProdRowsClean (updateFirst (prodStockPred fromShop l.product_id)
              (fun s => { s with quantity := s.quantity - l.quantity, reserved_quantity := s.reserved_quantity - l.quantity })
              db.stocks ++ [{ shop_id := toShop, item_type := ItemType.product, product_id := some l.product_id, raw_material_id := none, quantity := l.quantity, reserved_quantity := 0, min_stock_level := 10 }]) :=
            prodClean_append_single hcmid (fun _ => rfl)
          have hnew : ∀ k, keyQty k ({ shop_id := toShop, item_type := ItemType.product, product_id := some l.product_id, raw_material_id := none, quantity := l.quantity, reserved_quantity := 0, min_stock_level := 10 } : StockItem)
              = lineOut toShop k l := by
            intro k
            rw [lineOut_comm]
            rw [show keyQty k ({ shop_id := toShop, item_type := ItemType.product, product_id := some l.product_id, raw_material_id := none, quantity := l.quantity, reserved_quantity := 0, min_stock_level := 10 } : StockItem) = if stockKey ({ shop_id := toShop, item_type := ItemType.product, product_id := some l.product_id, raw_material_id := none, quantity := l.quantity, reserved_quantity := 0, min_stock_level := 10 } : StockItem) = k then l.quantity else 0 from rfl]
            rw [show stockKey ({ shop_id := toShop, item_type := ItemType.product, product_id := some l.product_id, raw_material_id := none, quantity := l.quantity, reserved_quantity := 0, min_stock_level := 10 } : StockItem) = prodKey toShop l.product_id from rfl]
          have hrec := receiveTransferLines_recon rest _ db' h hc1
          constructor
          · intro k
            rw [hrec.1 k]
            simp only [moveSum]
            rw [ratSum_keyMove_append, hmv k]
            rw [show ratSum ((l :: rest).map (lineOut toShop k))
              = lineOut toShop k l + ratSum (rest.map (lineOut toShop k)) from by
                simp [ratSum]]
            ring
          · intro k
            rw [hrec.2 k]
            simp only [onHand]
            rw [ratSum_keyQty_append, hnew k, hqsrc k]
            rw [show ratSum ((l :: rest).map (lineOut toShop k))
              = lineOut toShop k l + ratSum (rest.map (lineOut toShop k)) from by
                simp [ratSum]]
            rw [show ratSum ((l :: rest).map (lineOut fromShop k))
              = lineOut fromShop k l + ratSum (rest.map (lineOut fromShop k)) from by
                simp [ratSum]]
            ring
        · rename_i s₁ heq2
          cases hline
          have hfilter2 := scalarOneOrNone_eq_some.mp heq2
          have hs1memf : s₁ ∈ (updateFirst (prodStockPred fromShop l.product_id)
              (fun s => { s with quantity := s.quantity - l.quantity, reserved_quantity := s.reserved_quantity - l.quantity })
              db.stocks).filter (prodStockPred toShop l.product_id) := by
            rw [hfilter2]
            exact List.mem_singleton.mpr rfl
          have hs1mem := (List.mem_filter.mp hs1memf).1
          have hs1pred := (List.mem_filter.mp hs1memf).2
          have hkey2 := stockKey_eq_prodKey (hcmid s₁ hs1mem) hs1pred
          have hc1 : ProdRowsClean (updateFirst (prodStockPred toShop l.product_id)
              (fun s => { s with quantity := s.quantity + l.quantity })
              (updateFirst (prodStockPred fromShop l.product_id)
                (fun s => { s with quantity := s.quantity - l.quantity, reserved_quantity := s.reserved_quantity - l.quantity })
                db.stocks)) := by
            refine prodClean_updateFirst _ _ ?_ hcmid
            exact fun s => ⟨rfl, rfl⟩
          have hqdst : ∀ k, ratSum ((updateFirst (prodStockPred toShop l.product_id)
              (fun s => { s with quantity := s.quantity + l.quantity })
              (updateFirst (prodStockPred fromShop l.product_id)
                (fun s => { s with quantity := s.quantity - l.quantity, reserved_quantity := s.reserved_quantity - l.quantity })
                db.stocks)).map (keyQty k))
              = ratSum ((updateFirst (prodStockPred fromShop l.product_id)
                (fun s => { s with quantity := s.quantity - l.quantity, reserved_quantity := s.reserved_quantity - l.quantity })
                db.stocks).map (keyQty k)) + lineOut toShop k l := by
            intro k
            rw [ratSum_keyQty_updateFirst hfilter2 k, lineOut_comm]
            have hkf2 : stockKey { s₁ with quantity := s₁.quantity + l.quantity }
                = prodKey toShop l.product_id := hkey2
            simp only [keyQty, hkf2, hkey2]
            by_cases hk : prodKey toShop l.product_id = k
            · simp only [if_pos hk]
              ring
            · simp only [if_neg hk]
              ring
          have hrec := receiveTransferLines_recon rest _ db' h hc1
          constructor
          · intro k
            rw [hrec.1 k]
            simp only [moveSum]
            rw [ratSum_keyMove_append, hmv k]
            rw [show ratSum ((l :: rest).map (lineOut toShop k))
              = lineOut toShop k l + ratSum (rest.map (lineOut toShop k)) from by
                simp [ratSum]]
            ring
          · intro k
            rw [hrec.2 k]
            simp only [onHand]
            rw [hqdst k, hqsrc k]
            rw [show ratSum ((l :: rest).map (lineOut toShop k))
              = lineOut toShop k l + ratSum (rest.map (lineOut toShop k)) from by
                simp [ratSum]]
            rw [show ratSum ((l :: rest).map (lineOut fromShop k))
              = lineOut fromShop k l + ratSum (rest.map (lineOut fromShop k)) from by
                simp [ratSum]]
            ring

/-- A committed operation under its side condition preserves the amended
reconciliation invariant. -/
theorem applyOp_C3 {db db' : DBState} {op : Op}
    (h : applyOp db op = Except.ok db') (hcond : CondC3 db op)
    (hI : C3Inv db) : C3Inv db' := by
  obtain ⟨hrec, hclean, hraw⟩ := hI
  refine ⟨?_, applyOp_prodClean h hclean, applyOp_rawRows h hraw⟩
  cases op with
  | adjust req =>
    simp only [applyOp, adjust_stock] at h
    split at h
    · cases h
    · rename_i r hfind
      cases h
      have hrmem : r ∈ db.stocks := List.mem_of_find?_eq_some hfind
      have hrpred : adjustPred req.shop_id req.item_type req.product_id
          req.raw_material_id r = true := List.find?_some hfind
      have hkeys : stockKey r = ({ shop := req.shop_id, kind := req.item_type, pid := req.product_id, mid := req.raw_material_id } : PairKey) := by
        simp only [adjustPred, Bool.and_eq_true, Bool.or_eq_true, Bool.not_eq_true',
          decide_eq_true_eq] at hrpred
        obtain ⟨⟨⟨h1, h2⟩, h3⟩, h4⟩ := hrpred
        rcases hcond with ⟨hty, hmidn, p, hpid, hp0⟩ | ⟨hty, hpidn, m, hmid, hm0⟩
        · have htr : truthy req.product_id = true := by
            rw [hpid]
            simp [truthy, hp0]
          have hpr : r.product_id = req.product_id := by
            rcases h3 with hf | hh
            · rw [htr] at hf
              cases hf
            · exact hh
          have hmr : r.raw_material_id = none := hclean r hrmem (by rw [h2, hty])
          simp [stockKey, h1, h2, hpr, hmr, hmidn]
        · have htr : truthy req.raw_material_id = true := by
            rw [hmid]
            simp [truthy, hm0]
          have hmr : r.raw_material_id = req.raw_material_id := by
            rcases h4 with hf | hh
            · rw [htr] at hf
              cases hf
            · exact hh
          have hpr : r.product_id = none := (hraw r hrmem (by rw [h2, hty])).2
          simp [stockKey, h1, h2, hpr, hmr, hpidn]
      intro k
      show ratSum ((db.movements ++ [({ shop_id := req.shop_id, item_type := req.item_type, product_id := req.product_id, raw_material_id := req.raw_material_id, quantity := req.quantity, reason := req.reason, reference_id := none, reference_type := none, notes := req.notes } : StockMovement)]).map (keyMove k))
        = ratSum ((updateFirst (adjustPred req.shop_id req.item_type req.product_id req.raw_material_id) (fun s => { s with quantity := s.quantity + req.quantity }) db.stocks).map (keyQty k)) - pendingOut db k
      rw [ratSum_keyMove_append,
        ratSum_map_updateFirst_find (adjustPred req.shop_id req.item_type
          req.product_id req.raw_material_id)
          (fun s => { s with quantity := s.quantity + req.quantity })
          (keyQty k) db.stocks r hfind]
      rw [show keyMove k ({ shop_id := req.shop_id, item_type := req.item_type, product_id := req.product_id, raw_material_id := req.raw_material_id, quantity := req.quantity, reason := req.reason, reference_id := none, reference_type := none, notes := req.notes } : StockMovement) = if ({ shop := req.shop_id, kind := req.item_type, pid := req.product_id, mid := req.raw_material_id } : PairKey) = k then req.quantity else 0 from rfl]
      rw [show keyQty k ({ r with quantity := r.quantity + req.quantity }) = if stockKey r = k then r.quantity + req.quantity else 0 from rfl]
      rw [show keyQty k r = if stockKey r = k then r.quantity else 0 from rfl]
      rw [hkeys]
      have hr' := hrec k
      simp only [moveSum, onHand, pendingOut] at hr' ⊢
      rw [hr']
      by_cases hk : ({ shop := req.shop_id, kind := req.item_type, pid := req.product_id, mid := req.raw_material_id } : PairKey) = k
      · simp only [if_pos hk]
        ring
      · simp only [if_neg hk]
        ring
  | saleCreate req =>
    simp only [applyOp, create_sale] at h
    split at h
    · cases h
    · split at h
      · cases h
      · have hlp := applySaleLines_recon req.sale_lines _ db' h hclean
        have htrans : db'.transfers = db.transfers :=
          (applySaleLines_sameDocs req.sale_lines _ db' h).2.2.1
        intro k
        rw [hlp.1 k, hlp.2 k]
        have hr' := hrec k
        simp only [moveSum, onHand, pendingOut] at hr' ⊢
        rw [htrans, hr']
        ring
  | transferCreate req =>
    simp only [applyOp, create_transfer] at h
    split at h
    · cases h
    · split at h
      · cases h
      · have hlp := reserveTransferLines_recon req.transfer_lines _ db' h
        have htrans : db'.transfers = db.transfers ++ [({ id := db.nextId, transfer_number := req.transfer_number, from_shop_id := req.from_shop_id, to_shop_id := req.to_shop_id, status := TransferStatus.pending, lines := req.transfer_lines } : Transfer)] :=
          (reserveTransferLines_sameDocs req.transfer_lines _ db' h).2.2.1
        intro k
        rw [hlp.1 k, hlp.2 k]
        have hr' := hrec k
        simp only [moveSum, onHand, pendingOut] at hr' ⊢
        rw [htrans, ratSum_map_append]
        simp only [List.map_cons, List.map_nil, ratSum]
        rw [show transferPendingOut k ({ id := db.nextId, transfer_number := req.transfer_number, from_shop_id := req.from_shop_id, to_shop_id := req.to_shop_id, status := TransferStatus.pending, lines := req.transfer_lines } : Transfer) = ratSum (req.transfer_lines.map (lineOut req.from_shop_id k)) from by simp [transferPendingOut]]
        rw [hr']
        ring
  | transferReceive tid =>
    simp only [applyOp, receive_transfer] at h
    split at h
    · cases h
    · cases h
    · rename_i t heqT
      split at h
      · rename_i hpend
        split at h
        · cases h
        · rename_i db₁ hloopok
          cases h
          have hfiltT := scalarOneOrNone_eq_some.mp heqT
          have hlp := receiveTransferLines_recon t.lines db db₁ hloopok hclean
          have htr1 : db₁.transfers = db.transfers :=
            (receiveTransferLines_sameDocs t.lines db db₁ hloopok).2.2.1
          intro k
          show moveSum db₁ k = onHand db₁ k - ratSum ((updateFirst
            (fun t' : Transfer => decide (t'.id = tid))
            (fun t' => { t' with status := TransferStatus.received })
            db₁.transfers).map (transferPendingOut k))
          rw [htr1, ratSum_map_updateFirst_find
            (fun t' : Transfer => decide (t'.id = tid))
            (fun t' => { t' with status := TransferStatus.received })
            (transferPendingOut k) db.transfers t (filter_single_find? hfiltT)]
          rw [show transferPendingOut k { t with status := TransferStatus.received }
            = 0 from by simp [transferPendingOut]]
          rw [show transferPendingOut k t
            = ratSum (t.lines.map (lineOut t.from_shop_id k)) from by
              simp [transferPendingOut, hpend]]
          rw [hlp.1 k, hlp.2 k]
          have hr' := hrec k
          simp only [moveSum, onHand, pendingOut] at hr' ⊢
          rw [hr']
          ring
      · cases h
  | purchaseCreate req =>
    simp only [applyOp, create_purchase] at h
    have hlp := applyPurchaseLines_recon req.purchase_lines _ db' h hraw
    have htrans : db'.transfers = db.transfers :=
      (applyPurchaseLines_sameDocs req.purchase_lines _ db' h).2.2.1
    intro k
    rw [hlp.1 k, hlp.2 k]
    have hr' := hrec k
    simp only [moveSum, onHand, pendingOut] at hr' ⊢
    rw [htrans, hr']
    ring
  | runCreate req =>
    simp only [applyOp, create_production_run] at h
    split at h
    · cases h
    · cases h
      intro k
      exact hrec k
  | runComplete rid =>
    simp only [applyOp, complete_production_run] at h
    split at h
    · cases h
    · cases h
    · rename_i run heqR
      split at h
      · rename_i hplanned
        split at h
        · cases h
        · rename_i u hcheck
          split at h
          · cases h
          · rename_i db₁ rc hcons
            split at h
            · cases h
            · rename_i db₂ hadd
              cases h
              have hfR := scalarOneOrNone_eq_some.mp heqR
              have hRmemf : run ∈ db.runs.filter
                  (fun x : ProductionRun => decide (x.id = rid)) := by
                rw [hfR]
                exact List.mem_singleton.mpr rfl
              have hRmem := (List.mem_filter.mp hRmemf).1
              have hRid : run.id = rid := by
                have := (List.mem_filter.mp hRmemf).2
                simpa using this
              have hcnd := hcond run hRmem hRid
              have h1 := consumeMaterials_recon run.consumptions db 0 db₁ rc
                hcons hraw
              have hcl1 := consumeMaterials_clean run.consumptions db 0 db₁ rc
                hcons hclean
              have hshopd1 : ∀ l ∈ run.lines, ∀ row ∈ db₁.stocks,
                  prodAnyShopPred l.product_id row = true → row.shop_id = 1 :=
                fun l hl => consumeMaterials_prodShop1 l.product_id
                  run.consumptions db 0 db₁ rc hcons (hcnd l hl)
              have h2 := addProducts_recon run.lines db₁ db₂ hadd hcl1 hshopd1
              have ht2 : db₂.transfers = db₁.transfers :=
                (addProducts_sameDocs run.lines db₁ db₂ hadd).2.2.1
              have ht1 : db₁.transfers = db.transfers :=
                (consumeMaterials_sameDocs run.consumptions db 0 db₁ rc hcons).2.2.1
              intro k
              show moveSum db₂ k = onHand db₂ k - pendingOut db₂ k
              rw [h2.1 k, h1.1 k, h2.2 k, h1.2 k]
              have hr' := hrec k
              simp only [moveSum, onHand, pendingOut] at hr' ⊢
              rw [ht2, ht1, hr']
              ring
      · cases h
  | returnCreate req =>
    simp only [applyOp, create_return] at h
    split at h
    · cases h
    · rcases hfind : db.stocks.find?
        (prodStockPred (returnShop db req.sale_id) req.product_id) with _ | s0
      · rw [hfind] at h
        cases h
        intro k
        show ratSum ((db.movements ++ [({ shop_id := returnShop db req.sale_id, item_type := ItemType.product, product_id := some req.product_id, raw_material_id := none, quantity := req.quantity, reason := MovementReason.saleReturn, reference_id := some db.nextId, reference_type := some "return", notes := none } : StockMovement)]).map (keyMove k))
          = ratSum ((db.stocks ++ [({ shop_id := returnShop db req.sale_id, item_type := ItemType.product, product_id := some req.product_id, raw_material_id := none, quantity := req.quantity, reserved_quantity := 0, min_stock_level := 10 } : StockItem)]).map (keyQty k)) - pendingOut db k
        rw [ratSum_keyMove_append, ratSum_keyQty_append]
        rw [show keyMove k ({ shop_id := returnShop db req.sale_id, item_type := ItemType.product, product_id := some req.product_id, raw_material_id := none, quantity := req.quantity, reason := MovementReason.saleReturn, reference_id := some db.nextId, reference_type := some "return", notes := none } : StockMovement) = keyQty k ({ shop_id := returnShop db req.sale_id, item_type := ItemType.product, product_id := some req.product_id, raw_material_id := none, quantity := req.quantity, reserved_quantity := 0, min_stock_level := 10 } : StockItem) from rfl]
        have hr' := hrec k
        simp only [moveSum, onHand, pendingOut] at hr' ⊢
        rw [hr']
        ring
      · rw [hfind] at h
        cases h
        have hs0mem : s0 ∈ db.stocks := List.mem_of_find?_eq_some hfind
        have hs0pred : prodStockPred (returnShop db req.sale_id) req.product_id s0
            = true := List.find?_some hfind
        have hkey := stockKey_eq_prodKey (hclean s0 hs0mem) hs0pred
        intro k
        show ratSum ((db.movements ++ [({ shop_id := returnShop db req.sale_id, item_type := ItemType.product, product_id := some req.product_id, raw_material_id := none, quantity := req.quantity, reason := MovementReason.saleReturn, reference_id := some db.nextId, reference_type := some "return", notes := none } : StockMovement)]).map (keyMove k))
          = ratSum ((updateFirst (prodStockPred (returnShop db req.sale_id) req.product_id) (fun s => { s with quantity := s.quantity + req.quantity }) db.stocks).map (keyQty k)) - pendingOut db k
        rw [ratSum_keyMove_append,
          ratSum_map_updateFirst_find
            (prodStockPred (returnShop db req.sale_id) req.product_id)
            (fun s => { s with quantity := s.quantity + req.quantity })
            (keyQty k) db.stocks s0 hfind]
        rw [show keyMove k ({ shop_id := returnShop db req.sale_id, item_type := ItemType.product, product_id := some req.product_id, raw_material_id := none, quantity := req.quantity, reason := MovementReason.saleReturn, reference_id := some db.nextId, reference_type := some "return", notes := none } : StockMovement) = if prodKey (returnShop db req.sale_id) req.product_id = k then req.quantity else 0 from rfl]
        rw [show keyQty k ({ s0 with quantity := s0.quantity + req.quantity }) = if stockKey s0 = k then s0.quantity + req.quantity else 0 from rfl]
        rw [show keyQty k s0 = if stockKey s0 = k then s0.quantity else 0 from rfl]
        rw [hkey]
        have hr' := hrec k
        simp only [moveSum, onHand, pendingOut] at hr' ⊢
        rw [hr']
        by_cases hk : prodKey (returnShop db req.sale_id) req.product_id = k
        · simp only [if_pos hk]
          ring
        · simp only [if_neg hk]
          ring

/-- C3, counterexample: from the empty database a committed return brings
product 1's pair at shop 1 to movement sum 10 = on-hand 10, but creating a
transfer of 8 records a −8 TRANSFER_OUT movement while only reserving:
afterwards the pair's movement sum is 2 yet its on-hand quantity is
still 10. -/
theorem C3_counterexample :
    applyOp emptyDB c3op1 = Except.ok c3db1 ∧
    moveSum c3db1 (prodKey 1 1) = 10 ∧ onHand c3db1 (prodKey 1 1) = 10 ∧
    applyOp c3db1 c3op2 = Except.ok c3db2 ∧
    moveSum c3db2 (prodKey 1 1) = 2 ∧ onHand c3db2 (prodKey 1 1) = 10 ∧
    moveSum c3db2 (prodKey 1 1) ≠ onHand c3db2 (prodKey 1 1) := by
  refine ⟨?_, ?_, ?_, ?_, ?_, ?_, ?_⟩
  · norm_num [applyOp, c3op1, create_return, returnShop, emptyDB, c3db1, c3row,
      c3mv1, c3doc, List.find?]
  · norm_num [moveSum, c3db1, c3mv1, keyMove, moveKey, prodKey, ratSum, emptyDB]
  · norm_num [onHand, c3db1, c3row, keyQty, stockKey, prodKey, ratSum, emptyDB]
  · norm_num [applyOp, c3op2, create_transfer, checkTransferLines,
      reserveTransferLines, scalarOneOrNone, updateFirst, c3db1, c3db2, c3row,
      c3row2, c3mv1, c3mv2, c3t, c3doc, emptyDB, prodStockPred, List.filter]
  · norm_num [moveSum, c3db2, c3db1, c3mv1, c3mv2, keyMove, moveKey, prodKey,
      ratSum, emptyDB]
  · norm_num [onHand, c3db2, c3db1, c3row2, c3row, keyQty, stockKey, prodKey,
      ratSum, emptyDB]
  · norm_num [moveSum, onHand, c3db2, c3db1, c3row2, c3row, c3mv1, c3mv2,
      keyMove, moveKey, keyQty, stockKey, prodKey, ratSum, emptyDB]

/-- C3 (amended): from the empty database, for all committed operation
sequences whose adjustment requests fully identify their row and whose
completed runs produce only into warehouse rows, every (shop, item) pair's
signed movement sum equals its on-hand quantity minus its pending outbound
transfer quantity.  The unqualified reconciliation of the spec is refutable:
transfer creation records the outbound movement while only reserving. -/
theorem C3_reconciliation (db : DBState)
    (hreach : ReachesFrom CondC3 emptyDB db) :
    ∀ k, moveSum db k = onHand db k - pendingOut db k := by
  have hI : C3Inv db := by
    induction hreach with
    | init =>
      refine ⟨fun k => ?_, fun s hs => ?_, fun s hs => ?_⟩
      · simp [moveSum, onHand, pendingOut, emptyDB, ratSum]
      · simp [emptyDB] at hs
      · simp [emptyDB] at hs
    | step hprev hcond hop ih => exact applyOp_C3 hop hcond ih
  exact hI.1

/-- C3, witness: the purchase and run-creation steps satisfy the side
conditions, and in the reached state material 1's warehouse pair
reconciles. -/
theorem C3_reconciliation_witness :
    moveSum c8db { shop := 1, kind := ItemType.rawMaterial, pid := none, mid := some 1 }
      = onHand c8db { shop := 1, kind := ItemType.rawMaterial, pid := none, mid := some 1 }
        - pendingOut c8db { shop := 1, kind := ItemType.rawMaterial, pid := none, mid := some 1 } :=
  C3_reconciliation c8db
    (ReachesFrom.step
      (ReachesFrom.step ReachesFrom.init
        (show CondC3 emptyDB c8op1 from trivial) c8_step1)
      (show CondC3 c8dbA c8op2 from trivial) c8_step2)
    { shop := 1, kind := ItemType.rawMaterial, pid := none, mid := some 1 }

end Garment
